import Mathlib

/-!
UAsset outline parser: a shallow embedding of `UAssetOutlineParser.cpp`.

The C++ decoder threads one `BinaryReader` (a cursor over a byte vector) through
every read.  The embedding keeps the source's names.  A read is a function from
the reader state to an `Outcome`: a value with the next reader state, a C++
exception, or undefined behaviour (an access outside a vector, or a signed
overflow), none of which the source checks for.
-/

namespace UAsset

set_option maxRecDepth 100000

/-! ## Machine integers -/

/-- One element of `std::vector<Byte>` (`std::uint8_t`). -/
abbrev Byte := Fin 256

/-- Modulus of `size_t` (64-bit target). -/
def sizeModulus : Nat := 2 ^ 64

/-- Conversion of a signed value to `size_t`, as in `SeekPos = offset`. -/
def toSizeT (x : Int) : Nat := (x % (sizeModulus : Int)).toNat

/-- Value of a little-endian byte sequence, as `reinterpret_cast` reads it on a
little-endian target. -/
def leValue : List Byte → Nat
  | [] => 0
  | b :: bs => b.val + 256 * leValue bs

/-- Two's complement reading of an unsigned `bits`-bit pattern. -/
def toSigned (bits : Nat) (n : Nat) : Int :=
  if n < 2 ^ (bits - 1) then (n : Int) else (n : Int) - 2 ^ bits

/-! ## Outcomes -/

/-- The exceptions the decoder can raise: only `std::vector::resize` throws. -/
inductive CppException where
  | length_error
  deriving DecidableEq

/-- Result of running a piece of the decoder. -/
inductive Outcome (α : Type) where
  | ok (value : α)
  | thrown (e : CppException)
  | undefined
  deriving DecidableEq

/-- Sequencing: an exception or undefined behaviour ends the run. -/
def Outcome.bind {α β : Type} (x : Outcome α) (f : α → Outcome β) : Outcome β :=
  match x with
  | .ok a => f a
  | .thrown e => .thrown e
  | .undefined => .undefined

instance : Monad Outcome where
  pure := Outcome.ok
  bind := Outcome.bind

/-! ## BinaryReader -/

/-- The class `BinaryReader`: `SeekPos` and the borrowed buffer (`none` is the
null pointer of the default constructor). -/
structure BinaryReader where
  SeekPos : Nat
  Data : Option (List Byte)
  deriving DecidableEq

/-- A read: the reader is passed by reference and updated in place. -/
abbrev Decoder (α : Type) := StateT BinaryReader Outcome α

/-- Undefined behaviour inside a read. -/
def Decoder.undefined {α : Type} : Decoder α := fun _ => Outcome.undefined

/-- A thrown exception inside a read. -/
def Decoder.thrown {α : Type} (e : CppException) : Decoder α := fun _ => Outcome.thrown e

/-- Result of an `int` expression: signed overflow is undefined behaviour. -/
def checkedInt32 (x : Int) : Decoder Int :=
  if -2 ^ 31 ≤ x ∧ x < 2 ^ 31 then pure x else Decoder.undefined

/-- The statement `reader.SeekPos += n` on `size_t`. -/
def advanceSeekPos (n : Int) : Decoder Unit :=
  modify fun r => { r with SeekPos := toSizeT ((r.SeekPos : Int) + n) }

/-- `BinaryReader::readPrimitive<T>` with `w = sizeof(T)`; the value is returned
as the unsigned bit pattern.  With a null buffer the output is zero and the
cursor stays.  Otherwise `w` bytes are read at `SeekPos` with no bounds check:
reading outside the vector is undefined behaviour.  Inside the vector
`SeekPos + w` is at most the vector's size, so `SeekPos += sizeof(T)` cannot
wrap. -/
def BinaryReader.readPrimitive (w : Nat) : Decoder Nat := fun r =>
  match r.Data with
  | none => Outcome.ok (0, r)
  | some data =>
    if r.SeekPos + w ≤ data.length then
      Outcome.ok (leValue ((data.drop r.SeekPos).take w), { r with SeekPos := r.SeekPos + w })
    else
      Outcome.undefined

def BinaryReader.ReadInt64 : Decoder Int := toSigned 64 <$> BinaryReader.readPrimitive 8
def BinaryReader.ReadUint64 : Decoder Nat := BinaryReader.readPrimitive 8
def BinaryReader.ReadInt32 : Decoder Int := toSigned 32 <$> BinaryReader.readPrimitive 4
def BinaryReader.ReadUint32 : Decoder Nat := BinaryReader.readPrimitive 4
def BinaryReader.ReadInt16 : Decoder Int := toSigned 16 <$> BinaryReader.readPrimitive 2
def BinaryReader.ReadUint16 : Decoder Nat := BinaryReader.readPrimitive 2
def BinaryReader.ReadByte : Decoder Byte := (fun n => (Fin.ofNat n : Byte)) <$> BinaryReader.readPrimitive 1

/-- The loop `for (i = 0; i < n; i++) { ReadByte(character); output.push_back(character); }`. -/
def BinaryReader.readCharacters : Nat → List Byte → Decoder (List Byte)
  | 0, output => pure output
  | n + 1, output => do
    let character ← BinaryReader.ReadByte
    BinaryReader.readCharacters n (output ++ [character])

/-- `BinaryReader::readUtf8String`. -/
def BinaryReader.readUtf8String (length : Int) (output : List Byte) : Decoder (List Byte) := do
  let bound ← checkedInt32 (length - 1)
  let output ← BinaryReader.readCharacters bound.toNat output
  let _ ← BinaryReader.ReadByte -- Skip null terminator
  pure output

/-- UTF-8 bytes of one UCS-2 code unit. -/
def utf8OfCodeUnit (u : Nat) : List Byte :=
  if u < 0x80 then [Fin.ofNat u]
  else if u < 0x800 then [Fin.ofNat (0xC0 + u / 64), Fin.ofNat (0x80 + u % 64)]
  else [Fin.ofNat (0xE0 + u / 4096), Fin.ofNat (0x80 + (u / 64) % 64), Fin.ofNat (0x80 + u % 64)]

/-- Modelled from the spec: `transcodeCharacterStringToUTF8(output, "UCS-2LE")`
is declared in `util.h`, which is not part of the sources at hand.  The spec
says the UCS-2LE code units are transcoded to UTF-8: each pair of bytes is one
little-endian code unit, written out as its UTF-8 sequence. -/
def transcodeCharacterStringToUTF8 : List Byte → List Byte
  | lo :: hi :: rest => utf8OfCodeUnit (lo.val + 256 * hi.val) ++ transcodeCharacterStringToUTF8 rest
  | _ => []

/-- `BinaryReader::readUcs2StringAndConvertToUtf8`. -/
def BinaryReader.readUcs2StringAndConvertToUtf8 (length : Int) (output : List Byte) :
    Decoder (List Byte) := do
  let units ← checkedInt32 (length - 1)
  let bound ← checkedInt32 (units * 2)
  let output ← BinaryReader.readCharacters bound.toNat output
  let _ ← BinaryReader.ReadUint16 -- Skip null terminator
  pure (transcodeCharacterStringToUTF8 output)

/-- `BinaryReader::ReadInlineUnrealString`; a `std::string` is its byte sequence. -/
def BinaryReader.ReadInlineUnrealString : Decoder (List Byte) := do
  let length ← BinaryReader.ReadInt32
  if length < 0 then
    let negated ← checkedInt32 (-length)
    BinaryReader.readUcs2StringAndConvertToUtf8 negated []
  else
    BinaryReader.readUtf8String length []

/-- The loop `for (i = 0; i < count; i++) output[i] = elementReader(*this);`,
collecting the elements in order. -/
def BinaryReader.readElements {T : Type} (elementReader : Decoder T) : Nat → List T → Decoder (List T)
  | 0, output => pure output
  | n + 1, output => do
    let element ← elementReader
    BinaryReader.readElements elementReader n (output ++ [element])

/-- `BinaryReader::readUnrealArray`: `output.resize(count)` converts `count` to
`size_t`, so a negative count exceeds `max_size()` and `resize` throws
`std::length_error`; allocation of a non-negative count is taken to succeed. -/
def BinaryReader.readUnrealArray {T : Type} (elementReader : Decoder T) (count : Int) :
    Decoder (List T) :=
  if count < 0 then Decoder.thrown CppException.length_error
  else BinaryReader.readElements elementReader count.toNat []

/-- `BinaryReader::ReadDeferredUnrealArray`. -/
def BinaryReader.ReadDeferredUnrealArray {T : Type} (elementReader : Decoder T) :
    Decoder (List T) := do
  let count ← BinaryReader.ReadInt32
  let offset ← BinaryReader.ReadInt32
  let finalSeekPos := (← get).SeekPos
  modify fun r => { r with SeekPos := toSizeT offset }
  let output ← BinaryReader.readUnrealArray elementReader count
  modify fun r => { r with SeekPos := finalSeekPos }
  pure output

/-- `BinaryReader::ReadInlineUnrealArray`. -/
def BinaryReader.ReadInlineUnrealArray {T : Type} (elementReader : Decoder T) :
    Decoder (List T) := do
  let count ← BinaryReader.ReadInt32
  BinaryReader.readUnrealArray elementReader count

/-- `BinaryReader::ReadInt32AndConvertToBool`. -/
def BinaryReader.ReadInt32AndConvertToBool : Decoder Bool := do
  let intForm ← BinaryReader.ReadInt32
  pure (decide (intForm ≠ 0))

/-! ## Records -/

/-- `std::vector::operator[]` with the index converted to `size_t`: no range
check, an index outside the vector is undefined behaviour. -/
def vectorAt {T : Type} (v : List T) (index : Int) : Outcome T :=
  match v.get? (toSizeT index) with
  | some x => Outcome.ok x
  | none => Outcome.undefined

/-- Result of an `int` expression outside a read. -/
def Outcome.checkedInt32 (x : Int) : Outcome Int :=
  if -2 ^ 31 ≤ x ∧ x < 2 ^ 31 then Outcome.ok x else Outcome.undefined

structure UnrealGuid where
  A : Int := 0
  B : Int := 0
  C : Int := 0
  D : Int := 0
  deriving DecidableEq

def UnrealGuid.ReadFrom : Decoder UnrealGuid := do
  let a ← BinaryReader.ReadInt32
  let b ← BinaryReader.ReadInt32
  let c ← BinaryReader.ReadInt32
  let d ← BinaryReader.ReadInt32
  pure { A := a, B := b, C := c, D := d }

structure UnrealEngineVersion where
  Major : Nat := 0
  Minor : Nat := 0
  Patch : Nat := 0
  ChangelistAndLicenseeBit : Nat := 0
  BranchName : List Byte := []
  deriving DecidableEq

def UnrealEngineVersion.ReadFrom : Decoder UnrealEngineVersion := do
  let major ← BinaryReader.ReadUint16
  let minor ← BinaryReader.ReadUint16
  let patch ← BinaryReader.ReadUint16
  let changelist ← BinaryReader.ReadUint32
  let branchName ← BinaryReader.ReadInlineUnrealString
  pure { Major := major, Minor := minor, Patch := patch,
         ChangelistAndLicenseeBit := changelist, BranchName := branchName }

def UnrealEngineVersion.CreateFromChangelist (changelistAndLicenseeBit : Nat) : UnrealEngineVersion :=
  { Major := 4, Minor := 0, Patch := 0,
    ChangelistAndLicenseeBit := changelistAndLicenseeBit, BranchName := [] }

/-- The `struct Archive`. -/
structure Archive where
  Magic : Nat := 0
  LegacyVersion : Int := 0
  FileVersion : Int := 0
  FileVersionUe5 : Int := 0
  FileLicenseeVersion : Int := 0
  deriving DecidableEq

def Archive.ExpectedMagic : Nat := 0x9E2A83C1

/-! The entries of `enum class Ue4Version` and `Ue5Version` the decoder compares against. -/

def Archive.Ue4Version.WorldLevelInfo : Int := 224
def Archive.Ue4Version.AddedChunkidToAssetdataAndUpackage : Int := 278
def Archive.Ue4Version.ArrayPropertyInnerTags : Int := 282
def Archive.Ue4Version.ChangedChunkidToBeAnArrayOfChunkids : Int := 326
def Archive.Ue4Version.EngineVersionObject : Int := 336
def Archive.Ue4Version.LoadForEditorGame : Int := 365
def Archive.Ue4Version.AddStringAssetReferencesMap : Int := 384
def Archive.Ue4Version.StructGuidInPropertyTag : Int := 441
def Archive.Ue4Version.PackageSummaryHasCompatibleEngineVersion : Int := 444
def Archive.Ue4Version.SerializeTextInPackages : Int := 459
def Archive.Ue4Version.CookedAssetsInEditorSupport : Int := 485
def Archive.Ue4Version.PropertyGuidInPropertyTag : Int := 503
def Archive.Ue4Version.NameHashesSerialized : Int := 504
def Archive.Ue4Version.PreloadDependenciesInCookedExports : Int := 507
def Archive.Ue4Version.TemplateindexInCookedExports : Int := 508
def Archive.Ue4Version.PropertyTagSetMapSupport : Int := 509
def Archive.Ue4Version.AddedSearchableNames : Int := 510
def Archive.Ue4Version.SixtyFourBitExportmapSerialsizes : Int := 511
def Archive.Ue4Version.AddedPackageSummaryLocalizationId : Int := 516
def Archive.Ue4Version.AddedPackageOwner : Int := 518
def Archive.Ue4Version.NonOuterPackageImport : Int := 520

def Archive.Ue5Version.InitialVersion : Int := 1000
def Archive.Ue5Version.NamesReferencedFromExportData : Int := 1001
def Archive.Ue5Version.PayloadToc : Int := 1002
def Archive.Ue5Version.OptionalResources : Int := 1003
def Archive.Ue5Version.LargeWorldCoordinates : Int := 1004
def Archive.Ue5Version.RemoveObjectExportPackageGuid : Int := 1005
def Archive.Ue5Version.TrackObjectExportIsInherited : Int := 1006
def Archive.Ue5Version.FSoftObjectPathRemoveAssetPathFNames : Int := 1007
def Archive.Ue5Version.AddSoftObjectPathList : Int := 1008
def Archive.Ue5Version.DataResources : Int := 1009

/-- `Archive::ReadFrom`. -/
def Archive.ReadFrom : Decoder Archive := do
  let magic ← BinaryReader.ReadUint32
  let legacyVersion ← BinaryReader.ReadInt32
  let _unusedLegacyUe3Version ← BinaryReader.ReadInt32
  let fileVersion ← BinaryReader.ReadInt32
  let fileVersionUe5 ← (if legacyVersion ≤ -8 then BinaryReader.ReadInt32 else pure 0)
  let fileLicenseeVersion ← BinaryReader.ReadInt32
  pure { Magic := magic, LegacyVersion := legacyVersion, FileVersion := fileVersion,
         FileVersionUe5 := fileVersionUe5, FileLicenseeVersion := fileLicenseeVersion }

def Archive.CustomVersionSize : Int := 20
def Archive.GuidCustomVersionPrefixSize : Int := 20

inductive Archive.CustomVersionSerializationFormat where
  | Optimized
  | Guids
  deriving DecidableEq

def Archive.GetCustomVersionSerializationFormat (archive : Archive) :
    Archive.CustomVersionSerializationFormat :=
  if archive.LegacyVersion < -5 then Archive.CustomVersionSerializationFormat.Optimized
  else Archive.CustomVersionSerializationFormat.Guids

structure UnrealName where
  ComparisonIndex : Int := 0
  Number : Nat := 0
  deriving DecidableEq

def UnrealName.ReadFrom : Decoder UnrealName := do
  let comparisonIndex ← BinaryReader.ReadInt32
  let number ← BinaryReader.ReadUint32
  pure { ComparisonIndex := comparisonIndex, Number := number }

structure SoftObjectPath where
  Unknown0 : Int := 0
  Unknown1 : Int := 0
  Unknown2 : Int := 0
  Unknown3 : Int := 0
  Path : List Byte := []
  deriving DecidableEq

def SoftObjectPath.ReadFrom : Decoder SoftObjectPath := do
  let unknown0 ← BinaryReader.ReadInt32
  let unknown1 ← BinaryReader.ReadInt32
  let unknown2 ← BinaryReader.ReadInt32
  let unknown3 ← BinaryReader.ReadInt32
  let path ← BinaryReader.ReadInlineUnrealString
  pure { Unknown0 := unknown0, Unknown1 := unknown1, Unknown2 := unknown2,
         Unknown3 := unknown3, Path := path }

/-- The `struct ObjectExport`; the defaults are those of `ObjectExport()`. -/
structure ObjectExport where
  ClassIndex : Int := 0
  SuperIndex : Int := 0
  TemplateIndex : Int := 0
  OuterIndex : Int := 0
  ObjectName : UnrealName := {}
  ObjectFlags : Nat := 0
  SerialSize : Int := 0
  SerialOffset : Int := 0
  ForcedExport : Bool := false
  NotForClient : Bool := false
  NotForServer : Bool := false
  IsInheritedInstance : Bool := false
  PackageFlags : Nat := 0
  NotAlwaysLoadedForEditorGame : Bool := false
  IsAsset : Bool := false
  GeneratePublicHash : Bool := false
  FirstExportDependency : Int := 0
  SerializationBeforeSerializationDependencies : Int := 0
  CreateBeforeSerializationDependencies : Int := 0
  SerializationBeforeCreateDependencies : Int := 0
  CreateBeforeCreateDependencies : Int := 0
  deriving DecidableEq

/-- The `struct ObjectImport`; the defaults are those of `ObjectImport()`. -/
structure ObjectImport where
  ClassPackage : UnrealName := {}
  ClassName : UnrealName := {}
  OuterIndex : Int := 0
  ObjectName : UnrealName := {}
  PackageName : UnrealName := {}
  ImportOptional : Bool := false
  deriving DecidableEq

def AssetHeader.PackageFlags.FilterEditorOnly : Nat := 0x80000000

/-- The `struct AssetHeader`.  The scalar members of the C++ struct start
indeterminate; `ReadFrom` assigns every one of them, and they start at zero here. -/
structure AssetHeader where
  TotalHeaderSize : Int := 0
  FolderName : List Byte := []
  PackageFlags : Nat := 0
  Names : List (List Byte) := []
  SoftObjectPaths : List SoftObjectPath := []
  LocalizationId : List Byte := []
  GatherableTextDataCount : Int := 0
  GatherableTextDataOffset : Int := 0
  Exports : List ObjectExport := []
  Imports : List ObjectImport := []
  DependsOffset : Int := 0
  SoftPackageReferencesCount : Int := 0
  SoftPackageReferencesOffset : Int := 0
  SearchableNamesOffset : Int := 0
  ThumbnailTableOffset : Int := 0
  SavedByEngineVersion : UnrealEngineVersion := {}
  CompatibleWithEngineVersion : UnrealEngineVersion := {}
  CompressionFlags : Nat := 0
  PackageSource : Nat := 0
  AssetRegistryDataOffset : Int := 0
  BulkDataStartOffset : Int := 0
  WorldTileInfoDataOffset : Int := 0
  ChunkIds : List Int := []
  PreloadDependencyCount : Int := 0
  PreloadDependencyOffset : Int := 0
  NamesReferencedFromExportDataCount : Int := 0
  PayloadTocOffset : Int := 0
  DataResourceOffset : Int := 0
  deriving DecidableEq

def AssetHeader.GuidSize : Int := 16
def AssetHeader.GenerationInfoSize : Int := 8
def AssetHeader.CompressedChunkSize : Int := 16

/-- `ObjectExport::ReadFrom`.  `output = ObjectExport()` zeroes every member;
a member no read assigns keeps that zero. -/
def ObjectExport.ReadFrom (archive : Archive) (_assetHeader : AssetHeader) : Decoder ObjectExport := do
  let classIndex ← BinaryReader.ReadInt32
  let superIndex ← BinaryReader.ReadInt32
  let templateIndex : Int ←
    (if archive.FileVersion ≥ Archive.Ue4Version.TemplateindexInCookedExports then
      BinaryReader.ReadInt32
    else pure 0)
  let objectName ← UnrealName.ReadFrom
  let _unknown0 ← BinaryReader.ReadInt32
  let objectFlags ← BinaryReader.ReadUint32
  let serial : Int × Int ←
    (if archive.FileVersion < Archive.Ue4Version.SixtyFourBitExportmapSerialsizes then do
      let serialSize32 ← BinaryReader.ReadInt32
      let serialOffset32 ← BinaryReader.ReadInt32
      pure (serialSize32, serialOffset32)
    else do
      let serialSize ← BinaryReader.ReadInt64
      let serialOffset ← BinaryReader.ReadInt64
      pure (serialSize, serialOffset))
  let forcedExport ← BinaryReader.ReadInt32AndConvertToBool
  let notForClient ← BinaryReader.ReadInt32AndConvertToBool
  let notForServer ← BinaryReader.ReadInt32AndConvertToBool
  let _throwawayGuid : UnrealGuid ←
    (if archive.FileVersionUe5 < Archive.Ue5Version.RemoveObjectExportPackageGuid then
      UnrealGuid.ReadFrom
    else pure {})
  let isInheritedInstance : Bool ←
    (if archive.FileVersionUe5 ≥ Archive.Ue5Version.TrackObjectExportIsInherited then
      BinaryReader.ReadInt32AndConvertToBool
    else pure false)
  let packageFlags ← BinaryReader.ReadUint32
  let notAlwaysLoadedForEditorGame : Bool ←
    (if archive.FileVersion ≥ Archive.Ue4Version.LoadForEditorGame then
      BinaryReader.ReadInt32AndConvertToBool
    else pure false)
  let isAsset : Bool ←
    (if archive.FileVersion ≥ Archive.Ue4Version.CookedAssetsInEditorSupport then
      BinaryReader.ReadInt32AndConvertToBool
    else pure false)
  let generatePublicHash : Bool ←
    (if archive.FileVersionUe5 ≥ Archive.Ue5Version.OptionalResources then
      BinaryReader.ReadInt32AndConvertToBool
    else pure false)
  if archive.FileVersion ≥ Archive.Ue4Version.PreloadDependenciesInCookedExports then do
    let firstExportDependency ← BinaryReader.ReadInt32
    let _serializationBeforeCreateDependencies ← BinaryReader.ReadInt32
    let createBeforeSerializationDependencies ← BinaryReader.ReadInt32
    let serializationBeforeCreateDependencies ← BinaryReader.ReadInt32
    let createBeforeCreateDependencies ← BinaryReader.ReadInt32
    pure {
      ClassIndex := classIndex, SuperIndex := superIndex, TemplateIndex := templateIndex,
      OuterIndex := 0, ObjectName := objectName, ObjectFlags := objectFlags,
      SerialSize := serial.1, SerialOffset := serial.2,
      ForcedExport := forcedExport, NotForClient := notForClient, NotForServer := notForServer,
      IsInheritedInstance := isInheritedInstance, PackageFlags := packageFlags,
      NotAlwaysLoadedForEditorGame := notAlwaysLoadedForEditorGame, IsAsset := isAsset,
      GeneratePublicHash := generatePublicHash,
      FirstExportDependency := firstExportDependency,
      SerializationBeforeSerializationDependencies := 0,
      CreateBeforeSerializationDependencies := createBeforeSerializationDependencies,
      SerializationBeforeCreateDependencies := serializationBeforeCreateDependencies,
      CreateBeforeCreateDependencies := createBeforeCreateDependencies }
  else
    pure {
      ClassIndex := classIndex, SuperIndex := superIndex, TemplateIndex := templateIndex,
      OuterIndex := 0, ObjectName := objectName, ObjectFlags := objectFlags,
      SerialSize := serial.1, SerialOffset := serial.2,
      ForcedExport := forcedExport, NotForClient := notForClient, NotForServer := notForServer,
      IsInheritedInstance := isInheritedInstance, PackageFlags := packageFlags,
      NotAlwaysLoadedForEditorGame := notAlwaysLoadedForEditorGame, IsAsset := isAsset,
      GeneratePublicHash := generatePublicHash,
      FirstExportDependency := 0,
      SerializationBeforeSerializationDependencies := 0,
      CreateBeforeSerializationDependencies := 0,
      SerializationBeforeCreateDependencies := 0,
      CreateBeforeCreateDependencies := 0 }

/-- `ObjectImport::ReadFrom`.  `output = ObjectImport()` zeroes every member. -/
def ObjectImport.ReadFrom (archive : Archive) (assetHeader : AssetHeader) : Decoder ObjectImport := do
  let packageHasEditorOnlyData : Bool :=
    decide (assetHeader.PackageFlags &&& AssetHeader.PackageFlags.FilterEditorOnly = 0)
  let classPackage ← UnrealName.ReadFrom
  let className ← UnrealName.ReadFrom
  let outerIndex ← BinaryReader.ReadInt32
  let objectName ← UnrealName.ReadFrom
  let packageName : UnrealName ←
    (if packageHasEditorOnlyData = true ∧ archive.FileVersion ≥ Archive.Ue4Version.NonOuterPackageImport then
      UnrealName.ReadFrom
    else pure {})
  let importOptional : Bool ←
    (if archive.FileVersionUe5 ≥ Archive.Ue5Version.OptionalResources then
      BinaryReader.ReadInt32AndConvertToBool
    else pure false)
  pure { ClassPackage := classPackage, ClassName := className, OuterIndex := outerIndex,
         ObjectName := objectName, PackageName := packageName, ImportOptional := importOptional }

/-- The loop `for (i = 0; i < n; i++) reader.SeekPos += size;`. -/
def skipRecords (size : Int) : Nat → Decoder Unit
  | 0 => pure ()
  | n + 1 => do
    advanceSeekPos size
    skipRecords size n

/-- One pass of the custom-version loop of `AssetHeader::ReadFrom`: the `switch`
on the serialization format. -/
def AssetHeader.skipCustomVersion (format : Archive.CustomVersionSerializationFormat) : Decoder Unit :=
  match format with
  | Archive.CustomVersionSerializationFormat.Optimized =>
    advanceSeekPos Archive.CustomVersionSize
  | Archive.CustomVersionSerializationFormat.Guids => do
    advanceSeekPos Archive.GuidCustomVersionPrefixSize
    let _throwawayString ← BinaryReader.ReadInlineUnrealString
    pure ()

/-- The loop `for (i = 0; i < customVersionCount; i++) switch (...) ...`. -/
def AssetHeader.skipCustomVersions (format : Archive.CustomVersionSerializationFormat) :
    Nat → Decoder Unit
  | 0 => pure ()
  | n + 1 => do
    AssetHeader.skipCustomVersion format
    AssetHeader.skipCustomVersions format n

/-- The custom-version block at the head of `AssetHeader::ReadFrom`: the count,
then the loop over the entries. -/
def AssetHeader.readCustomVersionBlock (archive : Archive) : Decoder Unit := do
  let customSerializationFormat := archive.GetCustomVersionSerializationFormat
  let customVersionCount ← BinaryReader.ReadInt32
  AssetHeader.skipCustomVersions customSerializationFormat customVersionCount.toNat

/-- `AssetHeader::conditionallyReadDeferredArrayCountAndOffset`, returning the
pair (count, offset). -/
def AssetHeader.conditionallyReadDeferredArrayCountAndOffset (condition : Bool)
    (defaultCount defaultOffset : Int) : Decoder (Int × Int) :=
  if condition then do
    let count ← BinaryReader.ReadInt32
    let offset ← BinaryReader.ReadInt32
    pure (count, offset)
  else pure (defaultCount, defaultOffset)

/-- Element reader of the `Names` table. -/
def AssetHeader.readNameEntry (archive : Archive) : Decoder (List Byte) := do
  let newString ← BinaryReader.ReadInlineUnrealString
  if archive.FileVersion ≥ Archive.Ue4Version.NameHashesSerialized then do
    let _throwawayHash ← BinaryReader.ReadUint32
    pure newString
  else pure newString

/-- `AssetHeader::ReadFrom`, in the order of the source. -/
def AssetHeader.ReadFrom (archive : Archive) : Decoder AssetHeader := do
  AssetHeader.readCustomVersionBlock archive
  let totalHeaderSize ← BinaryReader.ReadInt32
  let folderName ← BinaryReader.ReadInlineUnrealString
  let packageFlags ← BinaryReader.ReadUint32
  let packageHasEditorOnlyData : Bool :=
    decide (packageFlags &&& AssetHeader.PackageFlags.FilterEditorOnly = 0)
  let names ← BinaryReader.ReadDeferredUnrealArray (AssetHeader.readNameEntry archive)
  let softObjectPaths ← BinaryReader.ReadDeferredUnrealArray SoftObjectPath.ReadFrom
  let localizationId : List Byte ←
    (if archive.FileVersion ≥ Archive.Ue4Version.AddedPackageSummaryLocalizationId
        ∧ packageHasEditorOnlyData = true then
      BinaryReader.ReadInlineUnrealString
    else pure [])
  let gatherableTextData ← AssetHeader.conditionallyReadDeferredArrayCountAndOffset
    (decide (archive.FileVersion ≥ Archive.Ue4Version.SerializeTextInPackages)) 0 0
  -- the header as filled in so far, which the element readers receive
  let output : AssetHeader :=
    { TotalHeaderSize := totalHeaderSize, FolderName := folderName, PackageFlags := packageFlags,
      Names := names, SoftObjectPaths := softObjectPaths, LocalizationId := localizationId,
      GatherableTextDataCount := gatherableTextData.1,
      GatherableTextDataOffset := gatherableTextData.2 }
  let exports ← BinaryReader.ReadDeferredUnrealArray (ObjectExport.ReadFrom archive output)
  let output : AssetHeader := { output with Exports := exports }
  let imports ← BinaryReader.ReadDeferredUnrealArray (ObjectImport.ReadFrom archive output)
  let dependsOffset ← BinaryReader.ReadInt32
  let softPackageReferences ← AssetHeader.conditionallyReadDeferredArrayCountAndOffset
    (decide (archive.FileVersion ≥ Archive.Ue4Version.AddStringAssetReferencesMap)) 0 0
  let searchableNamesOffset : Int ←
    (if archive.FileVersion ≥ Archive.Ue4Version.AddedSearchableNames then
      BinaryReader.ReadInt32
    else pure 0)
  let thumbnailTableOffset ← BinaryReader.ReadInt32
  advanceSeekPos AssetHeader.GuidSize -- Guid
  (if archive.FileVersion ≥ Archive.Ue4Version.AddedPackageOwner
      ∧ packageHasEditorOnlyData = true then do
    advanceSeekPos AssetHeader.GuidSize -- PersistentGuid
    (if archive.FileVersion < Archive.Ue4Version.NonOuterPackageImport then
      advanceSeekPos AssetHeader.GuidSize -- OwnerPersistentGuid
    else pure ())
  else pure ())
  let numGenerations ← BinaryReader.ReadInt32
  skipRecords AssetHeader.GenerationInfoSize numGenerations.toNat
  let savedByEngineVersion : UnrealEngineVersion ←
    (if archive.FileVersion ≥ Archive.Ue4Version.EngineVersionObject then
      UnrealEngineVersion.ReadFrom
    else do
      let engineChangelist ← BinaryReader.ReadUint32
      pure (UnrealEngineVersion.CreateFromChangelist engineChangelist))
  let compatibleWithEngineVersion : UnrealEngineVersion ←
    (if archive.FileVersion ≥ Archive.Ue4Version.PackageSummaryHasCompatibleEngineVersion then
      UnrealEngineVersion.ReadFrom
    else pure savedByEngineVersion)
  let compressionFlags ← BinaryReader.ReadUint32
  let compressedChunkCount ← BinaryReader.ReadInt32
  skipRecords AssetHeader.CompressedChunkSize compressedChunkCount.toNat
  let packageSource ← BinaryReader.ReadUint32
  let _throwawayAdditionalPackagesToCook ←
    BinaryReader.ReadInlineUnrealArray BinaryReader.ReadInlineUnrealString
  (if archive.LegacyVersion > -7 then do
    let _textureAllocations ← BinaryReader.ReadInt32
    pure ()
  else pure ())
  let assetRegistryDataOffset ← BinaryReader.ReadInt32
  let bulkDataStartOffset ← BinaryReader.ReadInt64
  let worldTileInfoDataOffset : Int ←
    (if archive.FileVersion ≥ Archive.Ue4Version.WorldLevelInfo then
      BinaryReader.ReadInt32
    else pure 0)
  let chunkIds : List Int ←
    (if archive.FileVersion ≥ Archive.Ue4Version.AddedChunkidToAssetdataAndUpackage then
      (if archive.FileVersion ≥ Archive.Ue4Version.ChangedChunkidToBeAnArrayOfChunkids then
        BinaryReader.ReadInlineUnrealArray BinaryReader.ReadInt32
      else do
        let singleChunkId ← BinaryReader.ReadInt32
        pure [singleChunkId])
    else pure [])
  let preloadDependency ← AssetHeader.conditionallyReadDeferredArrayCountAndOffset
    (decide (archive.FileVersion ≥ Archive.Ue4Version.PreloadDependenciesInCookedExports)) (-1) 0
  let namesReferencedFromExportDataCount : Int ←
    (if archive.FileVersionUe5 ≥ Archive.Ue5Version.NamesReferencedFromExportData then
      BinaryReader.ReadInt32
    else pure (toSigned 32 (names.length % 2 ^ 32)))
  let payloadTocOffset : Int ←
    (if archive.FileVersionUe5 ≥ Archive.Ue5Version.PayloadToc then
      BinaryReader.ReadInt64
    else pure (-1))
  let dataResourceOffset : Int ←
    (if archive.FileVersionUe5 ≥ Archive.Ue5Version.DataResources then do
      let offset ← BinaryReader.ReadInt32
      pure (if offset > 0 then offset else 0)
    else pure 0)
  pure { output with
    Imports := imports
    DependsOffset := dependsOffset
    SoftPackageReferencesCount := softPackageReferences.1
    SoftPackageReferencesOffset := softPackageReferences.2
    SearchableNamesOffset := searchableNamesOffset
    ThumbnailTableOffset := thumbnailTableOffset
    SavedByEngineVersion := savedByEngineVersion
    CompatibleWithEngineVersion := compatibleWithEngineVersion
    CompressionFlags := compressionFlags
    PackageSource := packageSource
    AssetRegistryDataOffset := assetRegistryDataOffset
    BulkDataStartOffset := bulkDataStartOffset
    WorldTileInfoDataOffset := worldTileInfoDataOffset
    ChunkIds := chunkIds
    PreloadDependencyCount := preloadDependency.1
    PreloadDependencyOffset := preloadDependency.2
    NamesReferencedFromExportDataCount := namesReferencedFromExportDataCount
    PayloadTocOffset := payloadTocOffset
    DataResourceOffset := dataResourceOffset }

/-- The GatherableTextData pair of `AssetHeader::ReadFrom` (lines 720 to 726). -/
def AssetHeader.readGatherableTextData (archive : Archive) : Decoder (Int × Int) :=
  AssetHeader.conditionallyReadDeferredArrayCountAndOffset
    (decide (archive.FileVersion ≥ Archive.Ue4Version.SerializeTextInPackages)) 0 0

/-- The SoftPackageReferences pair of `AssetHeader::ReadFrom` (lines 744 to 750). -/
def AssetHeader.readSoftPackageReferences (archive : Archive) : Decoder (Int × Int) :=
  AssetHeader.conditionallyReadDeferredArrayCountAndOffset
    (decide (archive.FileVersion ≥ Archive.Ue4Version.AddStringAssetReferencesMap)) 0 0

/-- The GUID skips of `AssetHeader::ReadFrom` that follow ThumbnailTableOffset
(lines 760 to 767). -/
def AssetHeader.skipGuids (archive : Archive) (packageHasEditorOnlyData : Bool) :
    Decoder Unit := do
  advanceSeekPos AssetHeader.GuidSize -- Guid
  (if archive.FileVersion ≥ Archive.Ue4Version.AddedPackageOwner
      ∧ packageHasEditorOnlyData = true then do
    advanceSeekPos AssetHeader.GuidSize -- PersistentGuid
    (if archive.FileVersion < Archive.Ue4Version.NonOuterPackageImport then
      advanceSeekPos AssetHeader.GuidSize -- OwnerPersistentGuid
    else pure ())
  else pure ())

/-- SavedByEngineVersion in `AssetHeader::ReadFrom` (lines 774 to 779). -/
def AssetHeader.readSavedByEngineVersion (archive : Archive) : Decoder UnrealEngineVersion :=
  if archive.FileVersion ≥ Archive.Ue4Version.EngineVersionObject then
    UnrealEngineVersion.ReadFrom
  else do
    let engineChangelist ← BinaryReader.ReadUint32
    pure (UnrealEngineVersion.CreateFromChangelist engineChangelist)

/-- CompatibleWithEngineVersion in `AssetHeader::ReadFrom` (lines 781 to 785). -/
def AssetHeader.readCompatibleWithEngineVersion (archive : Archive)
    (savedByEngineVersion : UnrealEngineVersion) : Decoder UnrealEngineVersion :=
  if archive.FileVersion ≥ Archive.Ue4Version.PackageSummaryHasCompatibleEngineVersion then
    UnrealEngineVersion.ReadFrom
  else pure savedByEngineVersion

/-- ChunkIds in `AssetHeader::ReadFrom` (lines 817 to 827); `output.ChunkIds` is
empty before it. -/
def AssetHeader.readChunkIds (archive : Archive) : Decoder (List Int) :=
  if archive.FileVersion ≥ Archive.Ue4Version.AddedChunkidToAssetdataAndUpackage then
    (if archive.FileVersion ≥ Archive.Ue4Version.ChangedChunkidToBeAnArrayOfChunkids then
      BinaryReader.ReadInlineUnrealArray BinaryReader.ReadInt32
    else do
      let singleChunkId ← BinaryReader.ReadInt32
      pure [singleChunkId])
  else pure []

/-- The PreloadDependency pair of `AssetHeader::ReadFrom` (lines 829 to 835). -/
def AssetHeader.readPreloadDependency (archive : Archive) : Decoder (Int × Int) :=
  AssetHeader.conditionallyReadDeferredArrayCountAndOffset
    (decide (archive.FileVersion ≥ Archive.Ue4Version.PreloadDependenciesInCookedExports)) (-1) 0

/-- NamesReferencedFromExportDataCount in `AssetHeader::ReadFrom` (lines 837 to
841); `names` is `output.Names`, whose `size()` is converted to `Int32`. -/
def AssetHeader.readNamesReferencedFromExportDataCount (archive : Archive)
    (names : List (List Byte)) : Decoder Int :=
  if archive.FileVersionUe5 ≥ Archive.Ue5Version.NamesReferencedFromExportData then
    BinaryReader.ReadInt32
  else pure (toSigned 32 (names.length % 2 ^ 32))

/-- PayloadTocOffset in `AssetHeader::ReadFrom` (lines 843 to 847). -/
def AssetHeader.readPayloadTocOffset (archive : Archive) : Decoder Int :=
  if archive.FileVersionUe5 ≥ Archive.Ue5Version.PayloadToc then
    BinaryReader.ReadInt64
  else pure (-1)

/-- DataResourceOffset in `AssetHeader::ReadFrom` (lines 849 to 853). -/
def AssetHeader.readDataResourceOffset (archive : Archive) : Decoder Int :=
  if archive.FileVersionUe5 ≥ Archive.Ue5Version.DataResources then do
    let offset ← BinaryReader.ReadInt32
    pure (if offset > 0 then offset else 0)
  else pure 0

/-- `AssetHeader::ReadFrom` once more, in the order of the source, with the
statements of the lines listed above replaced by the parts named there. -/
def AssetHeader.ReadFromInSteps (archive : Archive) : Decoder AssetHeader := do
  AssetHeader.readCustomVersionBlock archive
  let totalHeaderSize ← BinaryReader.ReadInt32
  let folderName ← BinaryReader.ReadInlineUnrealString
  let packageFlags ← BinaryReader.ReadUint32
  let packageHasEditorOnlyData : Bool :=
    decide (packageFlags &&& AssetHeader.PackageFlags.FilterEditorOnly = 0)
  let names ← BinaryReader.ReadDeferredUnrealArray (AssetHeader.readNameEntry archive)
  let softObjectPaths ← BinaryReader.ReadDeferredUnrealArray SoftObjectPath.ReadFrom
  let localizationId : List Byte ←
    (if archive.FileVersion ≥ Archive.Ue4Version.AddedPackageSummaryLocalizationId
        ∧ packageHasEditorOnlyData = true then
      BinaryReader.ReadInlineUnrealString
    else pure [])
  let gatherableTextData ← AssetHeader.readGatherableTextData archive
  -- the header as filled in so far, which the element readers receive
  let output : AssetHeader :=
    { TotalHeaderSize := totalHeaderSize, FolderName := folderName, PackageFlags := packageFlags,
      Names := names, SoftObjectPaths := softObjectPaths, LocalizationId := localizationId,
      GatherableTextDataCount := gatherableTextData.1,
      GatherableTextDataOffset := gatherableTextData.2 }
  let exports ← BinaryReader.ReadDeferredUnrealArray (ObjectExport.ReadFrom archive output)
  let output : AssetHeader := { output with Exports := exports }
  let imports ← BinaryReader.ReadDeferredUnrealArray (ObjectImport.ReadFrom archive output)
  let dependsOffset ← BinaryReader.ReadInt32
  let softPackageReferences ← AssetHeader.readSoftPackageReferences archive
  let searchableNamesOffset : Int ←
    (if archive.FileVersion ≥ Archive.Ue4Version.AddedSearchableNames then
      BinaryReader.ReadInt32
    else pure 0)
  let thumbnailTableOffset ← BinaryReader.ReadInt32
  AssetHeader.skipGuids archive packageHasEditorOnlyData
  let numGenerations ← BinaryReader.ReadInt32
  skipRecords AssetHeader.GenerationInfoSize numGenerations.toNat
  let savedByEngineVersion ← AssetHeader.readSavedByEngineVersion archive
  let compatibleWithEngineVersion ←
    AssetHeader.readCompatibleWithEngineVersion archive savedByEngineVersion
  let compressionFlags ← BinaryReader.ReadUint32
  let compressedChunkCount ← BinaryReader.ReadInt32
  skipRecords AssetHeader.CompressedChunkSize compressedChunkCount.toNat
  let packageSource ← BinaryReader.ReadUint32
  let _throwawayAdditionalPackagesToCook ←
    BinaryReader.ReadInlineUnrealArray BinaryReader.ReadInlineUnrealString
  (if archive.LegacyVersion > -7 then do
    let _textureAllocations ← BinaryReader.ReadInt32
    pure ()
  else pure ())
  let assetRegistryDataOffset ← BinaryReader.ReadInt32
  let bulkDataStartOffset ← BinaryReader.ReadInt64
  let worldTileInfoDataOffset : Int ←
    (if archive.FileVersion ≥ Archive.Ue4Version.WorldLevelInfo then
      BinaryReader.ReadInt32
    else pure 0)
  let chunkIds ← AssetHeader.readChunkIds archive
  let preloadDependency ← AssetHeader.readPreloadDependency archive
  let namesReferencedFromExportDataCount ←
    AssetHeader.readNamesReferencedFromExportDataCount archive names
  let payloadTocOffset ← AssetHeader.readPayloadTocOffset archive
  let dataResourceOffset ← AssetHeader.readDataResourceOffset archive
  pure { output with
    Imports := imports
    DependsOffset := dependsOffset
    SoftPackageReferencesCount := softPackageReferences.1
    SoftPackageReferencesOffset := softPackageReferences.2
    SearchableNamesOffset := searchableNamesOffset
    ThumbnailTableOffset := thumbnailTableOffset
    SavedByEngineVersion := savedByEngineVersion
    CompatibleWithEngineVersion := compatibleWithEngineVersion
    CompressionFlags := compressionFlags
    PackageSource := packageSource
    AssetRegistryDataOffset := assetRegistryDataOffset
    BulkDataStartOffset := bulkDataStartOffset
    WorldTileInfoDataOffset := worldTileInfoDataOffset
    ChunkIds := chunkIds
    PreloadDependencyCount := preloadDependency.1
    PreloadDependencyOffset := preloadDependency.2
    NamesReferencedFromExportDataCount := namesReferencedFromExportDataCount
    PayloadTocOffset := payloadTocOffset
    DataResourceOffset := dataResourceOffset }

/-- `AssetHeader::NameToString`: `Names[name.ComparisonIndex]`. -/
def AssetHeader.NameToString (assetHeader : AssetHeader) (name : UnrealName) : Outcome (List Byte) :=
  vectorAt assetHeader.Names name.ComparisonIndex

/-- `AssetHeader::ClassIndexToObjectNameString`. -/
def AssetHeader.ClassIndexToObjectNameString (assetHeader : AssetHeader) (index : Int) :
    Outcome (List Byte) :=
  if index > 0 then do
    let objectExport ← vectorAt assetHeader.Exports (index - 1)
    assetHeader.NameToString objectExport.ObjectName
  else do
    let negated ← Outcome.checkedInt32 (-index)
    let objectImport ← vectorAt assetHeader.Imports (negated - 1)
    assetHeader.NameToString objectImport.ObjectName

/-- `AssetHeader::ClassIndexToClassNameString`. -/
def AssetHeader.ClassIndexToClassNameString (assetHeader : AssetHeader) (index : Int) :
    Outcome (List Byte) :=
  if index > 0 then do
    let objectExport ← vectorAt assetHeader.Exports (index - 1)
    assetHeader.ClassIndexToObjectNameString objectExport.ClassIndex
  else do
    let negated ← Outcome.checkedInt32 (-index)
    let objectImport ← vectorAt assetHeader.Imports (negated - 1)
    assetHeader.NameToString objectImport.ClassName

/-! ## Property tags -/

/-- The bytes of a string literal of the source (`"None"`, `"StructProperty"`, ...). -/
def literal (s : String) : List Byte := s.toList.map (fun c => Fin.ofNat c.toNat)

/-- Result of an `Outcome` inside a read; the reader is left as it is. -/
def Decoder.ofOutcome {α : Type} (o : Outcome α) : Decoder α :=
  fun r => o.bind (fun a => Outcome.ok (a, r))

structure UnrealPropertyTag.StructExtraData where
  StructName : UnrealName := {}
  StructGuid : Option UnrealGuid := none
  deriving DecidableEq

structure UnrealPropertyTag.BoolExtraData where
  BoolVal : Bool := false
  deriving DecidableEq

structure UnrealPropertyTag.EnumExtraData where
  EnumName : UnrealName := {}
  deriving DecidableEq

structure UnrealPropertyTag.ArrayExtraData where
  InnerType : Option UnrealName := none
  deriving DecidableEq

structure UnrealPropertyTag.OptionalExtraData where
  InnerType : UnrealName := {}
  deriving DecidableEq

structure UnrealPropertyTag.SetExtraData where
  InnerType : UnrealName := {}
  deriving DecidableEq

structure UnrealPropertyTag.MapExtraData where
  KeyType : UnrealName := {}
  ValueType : UnrealName := {}
  deriving DecidableEq

/-- The `std::variant` held by `UnrealPropertyTag::ExtraData`. -/
inductive UnrealPropertyTag.ExtraDataVariant where
  | Struct (extraData : UnrealPropertyTag.StructExtraData)
  | Bool (extraData : UnrealPropertyTag.BoolExtraData)
  | Enum (extraData : UnrealPropertyTag.EnumExtraData)
  | Array (extraData : UnrealPropertyTag.ArrayExtraData)
  | Optional (extraData : UnrealPropertyTag.OptionalExtraData)
  | Set (extraData : UnrealPropertyTag.SetExtraData)
  | Map (extraData : UnrealPropertyTag.MapExtraData)
  deriving DecidableEq

/-- The `struct UnrealPropertyTag`; the defaults are those of `UnrealPropertyTag()`.
The member `Type` is written `Type_`. -/
structure UnrealPropertyTag where
  Name : UnrealName := {}
  Type_ : UnrealName := {}
  Size : Int := 0
  ArrayIndex : Int := 0
  ExtraData : Option UnrealPropertyTag.ExtraDataVariant := none
  PropertyGuid : Option UnrealGuid := none
  deriving DecidableEq

/-- The chain `if (typeStr == "StructProperty") ... else if ...` of
`UnrealPropertyTag::ReadFrom`, entered when `output.Type.Number == 0`; the result
is the value `output.ExtraData` is left with. -/
def UnrealPropertyTag.readExtraData (archive : Archive) (typeStr : List Byte) :
    Decoder (Option UnrealPropertyTag.ExtraDataVariant) :=
  if typeStr = literal "StructProperty" then do
    let structName ← UnrealName.ReadFrom
    let structGuid : Option UnrealGuid ←
      (if archive.FileVersion ≥ Archive.Ue4Version.StructGuidInPropertyTag then do
        let structGuid ← UnrealGuid.ReadFrom
        pure (some structGuid)
      else pure none)
    pure (some (UnrealPropertyTag.ExtraDataVariant.Struct
      { StructName := structName, StructGuid := structGuid }))
  else if typeStr = literal "BoolProperty" then do
    let boolVal ← BinaryReader.ReadByte
    pure (some (UnrealPropertyTag.ExtraDataVariant.Bool { BoolVal := decide (boolVal ≠ 0) }))
  else if typeStr = literal "EnumName" then do
    let enumName ← UnrealName.ReadFrom
    pure (some (UnrealPropertyTag.ExtraDataVariant.Enum { EnumName := enumName }))
  else if typeStr = literal "ArrayProperty" then do
    let innerType : Option UnrealName ←
      (if archive.FileVersion ≥ Archive.Ue4Version.ArrayPropertyInnerTags then do
        let innerType ← UnrealName.ReadFrom
        pure (some innerType)
      else pure none)
    pure (some (UnrealPropertyTag.ExtraDataVariant.Array { InnerType := innerType }))
  else if typeStr = literal "OptionalProperty" then do
    let innerType ← UnrealName.ReadFrom
    pure (some (UnrealPropertyTag.ExtraDataVariant.Optional { InnerType := innerType }))
  else if archive.FileVersion ≥ Archive.Ue4Version.PropertyTagSetMapSupport then
    if typeStr = literal "SetProperty" then do
      let innerType ← UnrealName.ReadFrom
      pure (some (UnrealPropertyTag.ExtraDataVariant.Set { InnerType := innerType }))
    else if typeStr = literal "MapProperty" then do
      let keyType ← UnrealName.ReadFrom
      let valueType ← UnrealName.ReadFrom
      pure (some (UnrealPropertyTag.ExtraDataVariant.Map
        { KeyType := keyType, ValueType := valueType }))
    else pure none
  else pure none

/-- The trailing property GUID of `UnrealPropertyTag::ReadFrom`: the value
`output.PropertyGuid` is left with. -/
def UnrealPropertyTag.readPropertyGuid (archive : Archive) : Decoder (Option UnrealGuid) :=
  if archive.FileVersion ≥ Archive.Ue4Version.PropertyGuidInPropertyTag then do
    let hasPropertyGuid ← BinaryReader.ReadByte
    if hasPropertyGuid ≠ 0 then do
      let propertyGuid ← UnrealGuid.ReadFrom
      pure (some propertyGuid)
    else pure none
  else pure none

/-- `UnrealPropertyTag::ReadFrom`. -/
def UnrealPropertyTag.ReadFrom (archive : Archive) (assetHeader : AssetHeader) :
    Decoder UnrealPropertyTag := do
  let name ← UnrealName.ReadFrom
  let nameStr ← Decoder.ofOutcome (vectorAt assetHeader.Names name.ComparisonIndex)
  if nameStr = literal "None" then
    pure { Name := name }
  else do
    let type ← UnrealName.ReadFrom
    let size ← BinaryReader.ReadInt32
    let arrayIndex ← BinaryReader.ReadInt32
    let typeStr ← Decoder.ofOutcome (vectorAt assetHeader.Names type.ComparisonIndex)
    let extraData : Option UnrealPropertyTag.ExtraDataVariant ←
      (if type.Number = 0 then UnrealPropertyTag.readExtraData archive typeStr else pure none)
    let propertyGuid ← UnrealPropertyTag.readPropertyGuid archive
    pure { Name := name, Type_ := type, Size := size, ArrayIndex := arrayIndex,
           ExtraData := extraData, PropertyGuid := propertyGuid }

/-! ## The orchestrator -/

/-- One pass of the `while (true)` loop of `parseBinaryInput`: decode a tag, look
its name up, and either `break` (result `false`) or skip `propertyTag.Size`
bytes and go on (result `true`). -/
def parseBinaryInput.walkStep (archive : Archive) (assetHeader : AssetHeader) : Decoder Bool := do
  let propertyTag ← UnrealPropertyTag.ReadFrom archive assetHeader
  let nameStr ← Decoder.ofOutcome
    (vectorAt assetHeader.Names propertyTag.Name.ComparisonIndex)
  if nameStr = literal "None" then
    pure false
  else do
    advanceSeekPos propertyTag.Size -- Let's pretend we read the value here
    pure true

/-- The `while (true)` loop of `parseBinaryInput`, run for at most `fuel`
passes: `none` when the loop has not ended within them. -/
def parseBinaryInput.walkPropertyTags (archive : Archive) (assetHeader : AssetHeader) :
    Nat → BinaryReader → Option (Outcome (Unit × BinaryReader))
  | 0, _ => none
  | fuel + 1, r =>
    match parseBinaryInput.walkStep archive assetHeader r with
    | Outcome.ok (true, r1) => parseBinaryInput.walkPropertyTags archive assetHeader fuel r1
    | Outcome.ok (false, r1) => some (Outcome.ok ((), r1))
    | Outcome.thrown e => some (Outcome.thrown e)
    | Outcome.undefined => some Outcome.undefined

/-- The body of the export loop of `parseBinaryInput` for the index `i`; every
property-tag walk gets `fuel` passes. -/
def parseBinaryInput.exportBody (archive : Archive) (assetHeader : AssetHeader) (fuel : Nat)
    (i : Int) (binaryReader : BinaryReader) : Option (Outcome (Unit × BinaryReader)) :=
  match assetHeader.ClassIndexToClassNameString i with
  | Outcome.ok exportClass =>
    if exportClass = literal "Blueprint" then
      let prevPos := binaryReader.SeekPos
      match vectorAt assetHeader.Exports (i - 1) with
      | Outcome.ok objectExport =>
        match parseBinaryInput.walkPropertyTags archive assetHeader fuel
            { binaryReader with SeekPos := toSizeT objectExport.SerialOffset } with
        | some (Outcome.ok (_, r1)) => some (Outcome.ok ((), { r1 with SeekPos := prevPos }))
        | some (Outcome.thrown e) => some (Outcome.thrown e)
        | some Outcome.undefined => some Outcome.undefined
        | none => none
      | Outcome.thrown e => some (Outcome.thrown e)
      | Outcome.undefined => some Outcome.undefined
    else some (Outcome.ok ((), binaryReader))
  | Outcome.thrown e => some (Outcome.thrown e)
  | Outcome.undefined => some Outcome.undefined

/-- The loop `for (int i = 1; i <= assetHeader.Exports.size(); i++)`, from the
index `i` on, with `remaining` indices to go; `i++` past `INT_MAX` is a signed
overflow. -/
def parseBinaryInput.exportLoop (archive : Archive) (assetHeader : AssetHeader) (fuel : Nat) :
    Nat → Int → BinaryReader → Option (Outcome (Unit × BinaryReader))
  | 0, _, binaryReader => some (Outcome.ok ((), binaryReader))
  | remaining + 1, i, binaryReader =>
    match parseBinaryInput.exportBody archive assetHeader fuel i binaryReader with
    | some (Outcome.ok (_, r1)) =>
      if i + 1 < 2 ^ 31 then parseBinaryInput.exportLoop archive assetHeader fuel remaining (i + 1) r1
      else some Outcome.undefined
    | some (Outcome.thrown e) => some (Outcome.thrown e)
    | some Outcome.undefined => some Outcome.undefined
    | none => none

/-- The loop `for (int i = 1; i <= assetHeader.Imports.size(); i++)`, which
resolves the class name of every import and drops it. -/
def parseBinaryInput.importLoop (assetHeader : AssetHeader) : Nat → Int → Outcome Unit
  | 0, _ => Outcome.ok ()
  | remaining + 1, i =>
    match assetHeader.ClassIndexToClassNameString (-i) with
    | Outcome.ok _ =>
      if i + 1 < 2 ^ 31 then parseBinaryInput.importLoop assetHeader remaining (i + 1)
      else Outcome.undefined
    | Outcome.thrown e => Outcome.thrown e
    | Outcome.undefined => Outcome.undefined

/-- `UAssetOutlineParser::parseBinaryInput` on the buffer `fileBuf`, every
property-tag walk getting `fuel` passes; the result is the decoded header and
the reader at the end of the function. -/
def parseBinaryInput (fuel : Nat) (fileBuf : List Byte) :
    Option (Outcome (AssetHeader × BinaryReader)) :=
  match Archive.ReadFrom ⟨0, some fileBuf⟩ with
  | Outcome.ok (archive, r1) =>
    match AssetHeader.ReadFrom archive r1 with
    | Outcome.ok (assetHeader, r2) =>
      match parseBinaryInput.exportLoop archive assetHeader fuel assetHeader.Exports.length 1 r2 with
      | some (Outcome.ok (_, r3)) =>
        match parseBinaryInput.importLoop assetHeader assetHeader.Imports.length 1 with
        | Outcome.ok _ => some (Outcome.ok (assetHeader, r3))
        | Outcome.thrown e => some (Outcome.thrown e)
        | Outcome.undefined => some Outcome.undefined
      | some (Outcome.thrown e) => some (Outcome.thrown e)
      | some Outcome.undefined => some Outcome.undefined
      | none => none
    | Outcome.thrown e => some (Outcome.thrown e)
    | Outcome.undefined => some Outcome.undefined
  | Outcome.thrown e => some (Outcome.thrown e)
  | Outcome.undefined => some Outcome.undefined

/-! ## Sample inputs -/

/-- A header for legacyVersion -7 and fileVersion 0: one custom-version record
of 20 bytes, totalHeaderSize 42, an empty folder name, empty tables, engine
changelist 7, and zero for every other field. -/
def sampleHeaderBytes : List Byte :=
  [1, 0, 0, 0,
   1, 2, 3, 4, 5, 6, 7, 8, 9, 10, 11, 12, 13, 14, 15, 16, 17, 18, 19, 20,
   42, 0, 0, 0,
   1, 0, 0, 0, 0,
   0, 0, 0, 0,
   0, 0, 0, 0, 0, 0, 0, 0,
   0, 0, 0, 0, 0, 0, 0, 0,
   0, 0, 0, 0, 0, 0, 0, 0,
   0, 0, 0, 0, 0, 0, 0, 0,
   0, 0, 0, 0,
   0, 0, 0, 0,
   0, 0, 0, 0, 0, 0, 0, 0, 0, 0, 0, 0, 0, 0, 0, 0,
   0, 0, 0, 0,
   7, 0, 0, 0,
   0, 0, 0, 0,
   0, 0, 0, 0,
   0, 0, 0, 0,
   0, 0, 0, 0,
   0, 0, 0, 0,
   0, 0, 0, 0, 0, 0, 0, 0]

/-- The header `sampleHeaderBytes` decodes to. -/
def sampleHeader : AssetHeader :=
  { TotalHeaderSize := 42,
    SavedByEngineVersion := UnrealEngineVersion.CreateFromChangelist 7,
    CompatibleWithEngineVersion := UnrealEngineVersion.CreateFromChangelist 7,
    PreloadDependencyCount := -1,
    PayloadTocOffset := -1 }

/-- A custom-version block in the `Guids` format: count 1, a 20-byte prefix and
the string `41` (length 2 with its terminator). -/
def sampleGuidsBlock : List Byte :=
  [1, 0, 0, 0,
   1, 2, 3, 4, 5, 6, 7, 8, 9, 10, 11, 12, 13, 14, 15, 16, 17, 18, 19, 20,
   2, 0, 0, 0, 0x41, 0]

/-- A header with the name table `["None"]`, one export whose ClassIndex is 0
and whose object name is entry 5 of the name table, and one import whose class
name is entry -1. -/
def sampleLookupHeader : AssetHeader :=
  { Names := [[0x4e, 0x6f, 0x6e, 0x65]],
    Exports := [{ ClassIndex := 0, ObjectName := { ComparisonIndex := 5 } }],
    Imports := [{ ClassName := { ComparisonIndex := -1 } }] }

/-- A header with the name table `["Foo", "Bar"]`, one export named `Foo` whose
ClassIndex is 1, its own index, and one import with object name `Foo` and class
name `Bar`. -/
def sampleSelfClassHeader : AssetHeader :=
  { Names := [[0x46, 0x6f, 0x6f], [0x42, 0x61, 0x72]],
    Exports := [{ ClassIndex := 1, ObjectName := { ComparisonIndex := 0 } }],
    Imports := [{ ObjectName := { ComparisonIndex := 0 }, ClassName := { ComparisonIndex := 1 } }] }

/-- An archive summary with legacyVersion -7 and fileVersion 522. -/
def sampleArchive : Archive :=
  { Magic := Archive.ExpectedMagic, LegacyVersion := -7, FileVersion := 522 }

/-- A header whose name table is `None`, `IntProperty`, `BoolProperty`,
`StructProperty`, `Health`, `Blueprint` (indices 0 to 5). -/
def sampleTagHeader : AssetHeader :=
  { Names := [literal "None", literal "IntProperty", literal "BoolProperty",
              literal "StructProperty", literal "Health", literal "Blueprint"] }

/-- A tag whose name is `Health` with instance number 1 and whose type is
`BoolProperty` with instance number 0: size 0, array index 0, the bool byte 1
and the GUID presence byte 0. -/
def sampleBoolTag : List Byte :=
  [4, 0, 0, 0, 1, 0, 0, 0,
   2, 0, 0, 0, 0, 0, 0, 0,
   0, 0, 0, 0,
   0, 0, 0, 0,
   1,
   0]

/-- A tag whose name is `Health` with instance number 0 and whose type is
`BoolProperty` with instance number 1: size 0, array index 0 and the GUID
presence byte 0. -/
def sampleNumberedTypeTag : List Byte :=
  [4, 0, 0, 0, 0, 0, 0, 0,
   2, 0, 0, 0, 1, 0, 0, 0,
   0, 0, 0, 0,
   0, 0, 0, 0,
   0]

/-- Extra data of a `StructProperty` tag: the struct name (entry 4, number 0)
and a GUID with the members 1, 2, 3, 4; one more byte follows. -/
def sampleStructExtraData : List Byte :=
  [4, 0, 0, 0, 0, 0, 0, 0,
   1, 0, 0, 0, 2, 0, 0, 0, 3, 0, 0, 0, 4, 0, 0, 0,
   9]

/-- Scenario A: the preamble (magic, legacyVersion -7, unused 0, fileVersion 522,
fileLicenseeVersion 0), the header fields in the order of `AssetHeader::ReadFrom`
with zero for every field but the Names count 1 and offset 212, empty strings
written as length 1 with their terminator, and at 212 the name `None` with its hash. -/
def sampleScenarioA : List Byte :=
  [193, 131, 42, 158,
   249, 255, 255, 255,
   0, 0, 0, 0,
   10, 2, 0, 0,
   0, 0, 0, 0,
   0, 0, 0, 0,
   0, 0, 0, 0,
   1, 0, 0, 0, 0,
   0, 0, 0, 0,
   1, 0, 0, 0, 212, 0, 0, 0,
   0, 0, 0, 0, 0, 0, 0, 0,
   1, 0, 0, 0, 0,
   0, 0, 0, 0, 0, 0, 0, 0,
   0, 0, 0, 0, 0, 0, 0, 0,
   0, 0, 0, 0, 0, 0, 0, 0,
   0, 0, 0, 0,
   0, 0, 0, 0, 0, 0, 0, 0,
   0, 0, 0, 0,
   0, 0, 0, 0,
   0, 0, 0, 0, 0, 0, 0, 0, 0, 0, 0, 0, 0, 0, 0, 0,
   0, 0, 0, 0, 0, 0, 0, 0, 0, 0, 0, 0, 0, 0, 0, 0,
   0, 0, 0, 0,
   0, 0, 0, 0, 0, 0, 0, 0, 0, 0, 1, 0, 0, 0, 0,
   0, 0, 0, 0, 0, 0, 0, 0, 0, 0, 1, 0, 0, 0, 0,
   0, 0, 0, 0,
   0, 0, 0, 0,
   0, 0, 0, 0,
   0, 0, 0, 0,
   0, 0, 0, 0,
   0, 0, 0, 0, 0, 0, 0, 0,
   0, 0, 0, 0,
   0, 0, 0, 0,
   0, 0, 0, 0, 0, 0, 0, 0,
   5, 0, 0, 0, 78, 111, 110, 101, 0, 0, 0, 0, 0]

/-- The header `sampleScenarioA` decodes to. -/
def sampleScenarioAHeader : AssetHeader :=
  { Names := [literal "None"],
    NamesReferencedFromExportDataCount := 1,
    PayloadTocOffset := -1 }

/-- The tag stream of scenario D: a tag `Health` of type `IntProperty` and size 4
(25 bytes with the GUID presence byte of fileVersion 522), four value bytes, and
the name `None`. -/
def sampleIntTagStream : List Byte :=
  [4, 0, 0, 0, 0, 0, 0, 0, 1, 0, 0, 0, 0, 0, 0, 0, 4, 0, 0, 0, 0, 0, 0, 0,
   0,
   42, 0, 0, 0,
   0, 0, 0, 0, 0, 0, 0, 0]

/-- Scenario D as a whole file: the preamble and header of `sampleScenarioA` with
six names at 212, one import at 322 (object name `Blueprint`), one export at 358
(ClassIndex -1, SerialOffset 462) and at 462 the tag stream: a tag `Health` of
type `IntProperty` and size 4 with its GUID presence byte, four value bytes, and
the name `None`. -/
def sampleBlueprintFile : List Byte :=
  [193, 131, 42, 158,
   249, 255, 255, 255,
   0, 0, 0, 0,
   10, 2, 0, 0,
   0, 0, 0, 0,
   0, 0, 0, 0,
   0, 0, 0, 0,
   1, 0, 0, 0, 0,
   0, 0, 0, 0,
   6, 0, 0, 0, 212, 0, 0, 0,
   0, 0, 0, 0, 0, 0, 0, 0,
   1, 0, 0, 0, 0,
   0, 0, 0, 0, 0, 0, 0, 0,
   1, 0, 0, 0, 102, 1, 0, 0,
   1, 0, 0, 0, 66, 1, 0, 0,
   0, 0, 0, 0,
   0, 0, 0, 0, 0, 0, 0, 0,
   0, 0, 0, 0,
   0, 0, 0, 0,
   0, 0, 0, 0, 0, 0, 0, 0, 0, 0, 0, 0, 0, 0, 0, 0,
   0, 0, 0, 0, 0, 0, 0, 0, 0, 0, 0, 0, 0, 0, 0, 0,
   0, 0, 0, 0,
   0, 0, 0, 0, 0, 0, 0, 0, 0, 0, 1, 0, 0, 0, 0,
   0, 0, 0, 0, 0, 0, 0, 0, 0, 0, 1, 0, 0, 0, 0,
   0, 0, 0, 0,
   0, 0, 0, 0,
   0, 0, 0, 0,
   0, 0, 0, 0,
   0, 0, 0, 0,
   0, 0, 0, 0, 0, 0, 0, 0,
   0, 0, 0, 0,
   0, 0, 0, 0,
   0, 0, 0, 0, 0, 0, 0, 0,
   5, 0, 0, 0, 78, 111, 110, 101, 0, 0, 0, 0, 0,
   12, 0, 0, 0, 73, 110, 116, 80, 114, 111, 112, 101, 114, 116, 121, 0, 0, 0, 0, 0,
   13, 0, 0, 0, 66, 111, 111, 108, 80, 114, 111, 112, 101, 114, 116, 121, 0, 0, 0, 0, 0,
   15, 0, 0, 0, 83, 116, 114, 117, 99, 116, 80, 114, 111, 112, 101, 114, 116, 121, 0, 0, 0, 0, 0,
   7, 0, 0, 0, 72, 101, 97, 108, 116, 104, 0, 0, 0, 0, 0,
   10, 0, 0, 0, 66, 108, 117, 101, 112, 114, 105, 110, 116, 0, 0, 0, 0, 0,
   0, 0, 0, 0, 0, 0, 0, 0, 3, 0, 0, 0, 0, 0, 0, 0, 0, 0, 0, 0, 5, 0, 0, 0,
   0, 0, 0, 0, 0, 0, 0, 0, 0, 0, 0, 0,
   255, 255, 255, 255, 0, 0, 0, 0, 0, 0, 0, 0, 4, 0, 0, 0, 0, 0, 0, 0, 0, 0, 0, 0,
   0, 0, 0, 0, 37, 0, 0, 0, 0, 0, 0, 0, 206, 1, 0, 0, 0, 0, 0, 0, 0, 0, 0, 0,
   0, 0, 0, 0, 0, 0, 0, 0, 0, 0, 0, 0, 0, 0, 0, 0, 0, 0, 0, 0, 0, 0, 0, 0,
   0, 0, 0, 0, 0, 0, 0, 0, 0, 0, 0, 0, 0, 0, 0, 0, 0, 0, 0, 0, 0, 0, 0, 0,
   0, 0, 0, 0, 0, 0, 0, 0,
   4, 0, 0, 0, 0, 0, 0, 0, 1, 0, 0, 0, 0, 0, 0, 0, 4, 0, 0, 0, 0, 0, 0, 0,
   0,
   42, 0, 0, 0,
   0, 0, 0, 0, 0, 0, 0, 0]

/-- The header `sampleBlueprintFile` decodes to. -/
def sampleBlueprintHeader : AssetHeader :=
  { Names := [literal "None", literal "IntProperty", literal "BoolProperty",
              literal "StructProperty", literal "Health", literal "Blueprint"],
    Exports := [{ ClassIndex := -1, ObjectName := { ComparisonIndex := 4 },
                  SerialSize := 37, SerialOffset := 462 }],
    Imports := [{ ClassName := { ComparisonIndex := 3 },
                  ObjectName := { ComparisonIndex := 5 } }],
    NamesReferencedFromExportDataCount := 6,
    PayloadTocOffset := -1 }

/-- A tag stream that leads back to its start: a tag `Health` of type
`IntProperty` whose declared size is -25, the length of the tag itself. -/
def sampleLoopingTagStream : List Byte :=
  [4, 0, 0, 0, 0, 0, 0, 0,
   1, 0, 0, 0, 0, 0, 0, 0,
   231, 255, 255, 255,
   0, 0, 0, 0,
   0]

/-- A buffer of 208 zero bytes. -/
def sampleZeroBytes : List Byte := List.replicate 208 0

/-- An export record for fileVersion 510 (96 bytes): ClassIndex -1, SuperIndex 2,
TemplateIndex 3, ObjectName (4, 5), the unused i32 6, ObjectFlags 7, the two
i32 serial values -8 and 9, the flags 1, 0 and 2, a 16-byte GUID, PackageFlags
12, the flags 1 and 0, and the five dependency values 21 to 25. -/
def sampleExportRecord : List Byte :=
  [255, 255, 255, 255,
   2, 0, 0, 0,
   3, 0, 0, 0,
   4, 0, 0, 0, 5, 0, 0, 0,
   6, 0, 0, 0,
   7, 0, 0, 0,
   248, 255, 255, 255,
   9, 0, 0, 0,
   1, 0, 0, 0,
   0, 0, 0, 0,
   2, 0, 0, 0,
   10, 0, 0, 0, 11, 0, 0, 0, 10, 0, 0, 0, 11, 0, 0, 0,
   12, 0, 0, 0,
   1, 0, 0, 0,
   0, 0, 0, 0,
   21, 0, 0, 0,
   22, 0, 0, 0,
   23, 0, 0, 0,
   24, 0, 0, 0,
   25, 0, 0, 0]

/-- An import record for fileVersion 522 and fileVersionUe5 1003 in a package
with editor-only data (40 bytes): ClassPackage (1, 0), ClassName (2, 0),
OuterIndex -3, ObjectName (4, 0), PackageName (5, 0), and the flag 1. -/
def sampleImportRecord : List Byte :=
  [1, 0, 0, 0, 0, 0, 0, 0,
   2, 0, 0, 0, 0, 0, 0, 0,
   253, 255, 255, 255,
   4, 0, 0, 0, 0, 0, 0, 0,
   5, 0, 0, 0, 0, 0, 0, 0,
   1, 0, 0, 0]

/-- The header that `sampleZeroBytes` decodes to at legacyVersion -7 and
fileVersion 300, with the cursor at 117. -/
def sampleEarlyHeader : AssetHeader :=
  { SavedByEngineVersion := { Major := 4 }, CompatibleWithEngineVersion := { Major := 4 },
    ChunkIds := [0], PreloadDependencyCount := -1, PayloadTocOffset := -1 }

/-- An inline array of three i32: the count 3 and the elements 7, -1 and 9. -/
def sampleChunkIdArray : List Byte :=
  [3, 0, 0, 0, 7, 0, 0, 0, 255, 255, 255, 255, 9, 0, 0, 0]

/-- Little-endian value of the `w` bytes of `data` at positions `p .. p + w - 1`. -/
def unsignedAt (data : List Byte) (p w : Nat) : Nat :=
  ∑ j in Finset.range w, (data.getD (p + j) 0).val * 256 ^ j

/-- Two's complement value of the `w` bytes of `data` at positions `p .. p + w - 1`. -/
def signedAt (data : List Byte) (p w : Nat) : Int :=
  if unsignedAt data p w < 2 ^ (8 * w - 1) then (unsignedAt data p w : Int)
  else (unsignedAt data p w : Int) - 2 ^ (8 * w)

/-- Little-endian encoding of a 32-bit pattern. -/
def encodeUint32 (n : Nat) : List Byte :=
  [Fin.ofNat n, Fin.ofNat (n / 256), Fin.ofNat (n / 65536), Fin.ofNat (n / 16777216)]

/-- A run that ends in an error the caller can observe. -/
def Outcome.isReportedError {α : Type} (o : Outcome α) : Prop :=
  ∃ e, o = Outcome.thrown e

/-- Successive decodes: starting in `r`, the element reader yields the elements
of the list one after the other and ends in the last reader state. -/
inductive DecodesInSuccession {T : Type} (elementReader : Decoder T) :
    BinaryReader → List T → BinaryReader → Prop where
  | nil (r : BinaryReader) : DecodesInSuccession elementReader r [] r
  | cons {r s t : BinaryReader} {x : T} {xs : List T}
      (first : elementReader r = Outcome.ok (x, s))
      (rest : DecodesInSuccession elementReader s xs t) :
      DecodesInSuccession elementReader r (x :: xs) t

/-- A read that returns in every reader state and leaves the state as it was:
it reads nothing and skips nothing. -/
def Decoder.IsNoOp {α : Type} (d : Decoder α) : Prop :=
  ∀ r : BinaryReader, ∃ a : α, d r = Outcome.ok (a, r)

/-- A read that consumes bytes: some run of it returns with the cursor moved. -/
def Decoder.Consumes {α : Type} (d : Decoder α) : Prop :=
  ∃ (r : BinaryReader) (a : α) (r1 : BinaryReader),
    d r = Outcome.ok (a, r1) ∧ r1.SeekPos ≠ r.SeekPos

/-- The statements of `AssetHeader::ReadFrom`, and of the `ReadFrom` of the
elements of its Names, Exports and Imports tables, that depend on fileVersion:
one member for each, a member that also depends on the packageFlags taking
`packageHasEditorOnlyData`.  `ExportDependencies` returns the members
FirstExportDependency, CreateBeforeSerializationDependencies,
SerializationBeforeCreateDependencies and CreateBeforeCreateDependencies. -/
structure AssetHeader.GatedSteps where
  NameHash : Decoder Unit
  LocalizationId : Bool → Decoder (List Byte)
  GatherableTextData : Decoder (Int × Int)
  ExportTemplateIndex : Decoder Int
  ExportSerial : Decoder (Int × Int)
  ExportNotAlwaysLoadedForEditorGame : Decoder Bool
  ExportIsAsset : Decoder Bool
  ExportDependencies : Decoder (Int × Int × Int × Int)
  ImportPackageName : Bool → Decoder UnrealName
  SoftPackageReferences : Decoder (Int × Int)
  SearchableNamesOffset : Decoder Int
  PersistentGuid : Bool → Decoder Unit
  OwnerPersistentGuid : Bool → Decoder Unit
  SavedByEngineVersion : Decoder UnrealEngineVersion
  CompatibleWithEngineVersion : UnrealEngineVersion → Decoder UnrealEngineVersion
  WorldTileInfoDataOffset : Decoder Int
  ChunkIds : Decoder (List Int)
  PreloadDependency : Decoder (Int × Int)

/-- The statements of the source that depend on fileVersion, at the fileVersion
given: lines 702 to 704 (NameHash), 715 to 718, 720 to 726, 892 to 894
(ExportTemplateIndex), 898 to 904, 915 to 917, 918 to 920, 924 to 930, 941 to
943 (ImportPackageName), 744 to 750, 752 to 756, 761 to 767 (PersistentGuid and
OwnerPersistentGuid), 774 to 779, 781 to 785, 811 to 815, 817 to 827 and 829 to
835. -/
def AssetHeader.gatedSteps (fileVersion : Int) : AssetHeader.GatedSteps :=
  { NameHash :=
      if fileVersion ≥ Archive.Ue4Version.NameHashesSerialized then do
        let _throwawayHash ← BinaryReader.ReadUint32
        pure ()
      else pure ()
    LocalizationId := fun packageHasEditorOnlyData =>
      if fileVersion ≥ Archive.Ue4Version.AddedPackageSummaryLocalizationId
          ∧ packageHasEditorOnlyData = true then
        BinaryReader.ReadInlineUnrealString
      else pure []
    GatherableTextData :=
      AssetHeader.conditionallyReadDeferredArrayCountAndOffset
        (decide (fileVersion ≥ Archive.Ue4Version.SerializeTextInPackages)) 0 0
    ExportTemplateIndex :=
      if fileVersion ≥ Archive.Ue4Version.TemplateindexInCookedExports then
        BinaryReader.ReadInt32
      else pure 0
    ExportSerial :=
      if fileVersion < Archive.Ue4Version.SixtyFourBitExportmapSerialsizes then do
        let serialSize32 ← BinaryReader.ReadInt32
        let serialOffset32 ← BinaryReader.ReadInt32
        pure (serialSize32, serialOffset32)
      else do
        let serialSize ← BinaryReader.ReadInt64
        let serialOffset ← BinaryReader.ReadInt64
        pure (serialSize, serialOffset)
    ExportNotAlwaysLoadedForEditorGame :=
      if fileVersion ≥ Archive.Ue4Version.LoadForEditorGame then
        BinaryReader.ReadInt32AndConvertToBool
      else pure false
    ExportIsAsset :=
      if fileVersion ≥ Archive.Ue4Version.CookedAssetsInEditorSupport then
        BinaryReader.ReadInt32AndConvertToBool
      else pure false
    ExportDependencies :=
      if fileVersion ≥ Archive.Ue4Version.PreloadDependenciesInCookedExports then do
        let firstExportDependency ← BinaryReader.ReadInt32
        let _serializationBeforeCreateDependencies ← BinaryReader.ReadInt32
        let createBeforeSerializationDependencies ← BinaryReader.ReadInt32
        let serializationBeforeCreateDependencies ← BinaryReader.ReadInt32
        let createBeforeCreateDependencies ← BinaryReader.ReadInt32
        pure (firstExportDependency, createBeforeSerializationDependencies,
          serializationBeforeCreateDependencies, createBeforeCreateDependencies)
      else pure (0, 0, 0, 0)
    ImportPackageName := fun packageHasEditorOnlyData =>
      if packageHasEditorOnlyData = true
          ∧ fileVersion ≥ Archive.Ue4Version.NonOuterPackageImport then
        UnrealName.ReadFrom
      else pure {}
    SoftPackageReferences :=
      AssetHeader.conditionallyReadDeferredArrayCountAndOffset
        (decide (fileVersion ≥ Archive.Ue4Version.AddStringAssetReferencesMap)) 0 0
    SearchableNamesOffset :=
      if fileVersion ≥ Archive.Ue4Version.AddedSearchableNames then
        BinaryReader.ReadInt32
      else pure 0
    PersistentGuid := fun packageHasEditorOnlyData =>
      if fileVersion ≥ Archive.Ue4Version.AddedPackageOwner
          ∧ packageHasEditorOnlyData = true then
        advanceSeekPos AssetHeader.GuidSize
      else pure ()
    OwnerPersistentGuid := fun packageHasEditorOnlyData =>
      if fileVersion ≥ Archive.Ue4Version.AddedPackageOwner
          ∧ packageHasEditorOnlyData = true then
        (if fileVersion < Archive.Ue4Version.NonOuterPackageImport then
          advanceSeekPos AssetHeader.GuidSize
        else pure ())
      else pure ()
    SavedByEngineVersion :=
      if fileVersion ≥ Archive.Ue4Version.EngineVersionObject then
        UnrealEngineVersion.ReadFrom
      else do
        let engineChangelist ← BinaryReader.ReadUint32
        pure (UnrealEngineVersion.CreateFromChangelist engineChangelist)
    CompatibleWithEngineVersion := fun savedByEngineVersion =>
      if fileVersion ≥ Archive.Ue4Version.PackageSummaryHasCompatibleEngineVersion then
        UnrealEngineVersion.ReadFrom
      else pure savedByEngineVersion
    WorldTileInfoDataOffset :=
      if fileVersion ≥ Archive.Ue4Version.WorldLevelInfo then
        BinaryReader.ReadInt32
      else pure 0
    ChunkIds :=
      if fileVersion ≥ Archive.Ue4Version.AddedChunkidToAssetdataAndUpackage then
        (if fileVersion ≥ Archive.Ue4Version.ChangedChunkidToBeAnArrayOfChunkids then
          BinaryReader.ReadInlineUnrealArray BinaryReader.ReadInt32
        else do
          let singleChunkId ← BinaryReader.ReadInt32
          pure [singleChunkId])
      else pure []
    PreloadDependency :=
      AssetHeader.conditionallyReadDeferredArrayCountAndOffset
        (decide (fileVersion ≥ Archive.Ue4Version.PreloadDependenciesInCookedExports)) (-1) 0 }

/-- Element reader of the `Names` table with the read of the hash taken from
`steps`. -/
def AssetHeader.readNameEntryWith (steps : AssetHeader.GatedSteps) : Decoder (List Byte) := do
  let newString ← BinaryReader.ReadInlineUnrealString
  steps.NameHash
  pure newString

/-- `ObjectExport::ReadFrom` with every statement that depends on fileVersion
taken from `steps`. -/
def ObjectExport.ReadFromWith (archive : Archive) (steps : AssetHeader.GatedSteps)
    (_assetHeader : AssetHeader) : Decoder ObjectExport := do
  let classIndex ← BinaryReader.ReadInt32
  let superIndex ← BinaryReader.ReadInt32
  let templateIndex ← steps.ExportTemplateIndex
  let objectName ← UnrealName.ReadFrom
  let _unknown0 ← BinaryReader.ReadInt32
  let objectFlags ← BinaryReader.ReadUint32
  let serial ← steps.ExportSerial
  let forcedExport ← BinaryReader.ReadInt32AndConvertToBool
  let notForClient ← BinaryReader.ReadInt32AndConvertToBool
  let notForServer ← BinaryReader.ReadInt32AndConvertToBool
  let _throwawayGuid : UnrealGuid ←
    (if archive.FileVersionUe5 < Archive.Ue5Version.RemoveObjectExportPackageGuid then
      UnrealGuid.ReadFrom
    else pure {})
  let isInheritedInstance : Bool ←
    (if archive.FileVersionUe5 ≥ Archive.Ue5Version.TrackObjectExportIsInherited then
      BinaryReader.ReadInt32AndConvertToBool
    else pure false)
  let packageFlags ← BinaryReader.ReadUint32
  let notAlwaysLoadedForEditorGame ← steps.ExportNotAlwaysLoadedForEditorGame
  let isAsset ← steps.ExportIsAsset
  let generatePublicHash : Bool ←
    (if archive.FileVersionUe5 ≥ Archive.Ue5Version.OptionalResources then
      BinaryReader.ReadInt32AndConvertToBool
    else pure false)
  let dependencies ← steps.ExportDependencies
  pure {
    ClassIndex := classIndex, SuperIndex := superIndex, TemplateIndex := templateIndex,
    OuterIndex := 0, ObjectName := objectName, ObjectFlags := objectFlags,
    SerialSize := serial.1, SerialOffset := serial.2,
    ForcedExport := forcedExport, NotForClient := notForClient, NotForServer := notForServer,
    IsInheritedInstance := isInheritedInstance, PackageFlags := packageFlags,
    NotAlwaysLoadedForEditorGame := notAlwaysLoadedForEditorGame, IsAsset := isAsset,
    GeneratePublicHash := generatePublicHash,
    FirstExportDependency := dependencies.1,
    SerializationBeforeSerializationDependencies := 0,
    CreateBeforeSerializationDependencies := dependencies.2.1,
    SerializationBeforeCreateDependencies := dependencies.2.2.1,
    CreateBeforeCreateDependencies := dependencies.2.2.2 }

/-- `ObjectImport::ReadFrom` with the statement that depends on fileVersion taken
from `steps`. -/
def ObjectImport.ReadFromWith (archive : Archive) (steps : AssetHeader.GatedSteps)
    (assetHeader : AssetHeader) : Decoder ObjectImport := do
  let packageHasEditorOnlyData : Bool :=
    decide (assetHeader.PackageFlags &&& AssetHeader.PackageFlags.FilterEditorOnly = 0)
  let classPackage ← UnrealName.ReadFrom
  let className ← UnrealName.ReadFrom
  let outerIndex ← BinaryReader.ReadInt32
  let objectName ← UnrealName.ReadFrom
  let packageName ← steps.ImportPackageName packageHasEditorOnlyData
  let importOptional : Bool ←
    (if archive.FileVersionUe5 ≥ Archive.Ue5Version.OptionalResources then
      BinaryReader.ReadInt32AndConvertToBool
    else pure false)
  pure { ClassPackage := classPackage, ClassName := className, OuterIndex := outerIndex,
         ObjectName := objectName, PackageName := packageName, ImportOptional := importOptional }

/-- `AssetHeader::ReadFrom`, in the order of the source, with every statement
that depends on fileVersion taken from `steps`, also in the readers of the
elements of the Names, Exports and Imports tables. -/
def AssetHeader.ReadFromWith (archive : Archive) (steps : AssetHeader.GatedSteps) :
    Decoder AssetHeader := do
  AssetHeader.readCustomVersionBlock archive
  let totalHeaderSize ← BinaryReader.ReadInt32
  let folderName ← BinaryReader.ReadInlineUnrealString
  let packageFlags ← BinaryReader.ReadUint32
  let packageHasEditorOnlyData : Bool :=
    decide (packageFlags &&& AssetHeader.PackageFlags.FilterEditorOnly = 0)
  let names ← BinaryReader.ReadDeferredUnrealArray (AssetHeader.readNameEntryWith steps)
  let softObjectPaths ← BinaryReader.ReadDeferredUnrealArray SoftObjectPath.ReadFrom
  let localizationId ← steps.LocalizationId packageHasEditorOnlyData
  let gatherableTextData ← steps.GatherableTextData
  -- the header as filled in so far, which the element readers receive
  let output : AssetHeader :=
    { TotalHeaderSize := totalHeaderSize, FolderName := folderName, PackageFlags := packageFlags,
      Names := names, SoftObjectPaths := softObjectPaths, LocalizationId := localizationId,
      GatherableTextDataCount := gatherableTextData.1,
      GatherableTextDataOffset := gatherableTextData.2 }
  let exports ← BinaryReader.ReadDeferredUnrealArray
    (ObjectExport.ReadFromWith archive steps output)
  let output : AssetHeader := { output with Exports := exports }
  let imports ← BinaryReader.ReadDeferredUnrealArray
    (ObjectImport.ReadFromWith archive steps output)
  let dependsOffset ← BinaryReader.ReadInt32
  let softPackageReferences ← steps.SoftPackageReferences
  let searchableNamesOffset ← steps.SearchableNamesOffset
  let thumbnailTableOffset ← BinaryReader.ReadInt32
  advanceSeekPos AssetHeader.GuidSize -- Guid
  steps.PersistentGuid packageHasEditorOnlyData
  steps.OwnerPersistentGuid packageHasEditorOnlyData
  let numGenerations ← BinaryReader.ReadInt32
  skipRecords AssetHeader.GenerationInfoSize numGenerations.toNat
  let savedByEngineVersion ← steps.SavedByEngineVersion
  let compatibleWithEngineVersion ← steps.CompatibleWithEngineVersion savedByEngineVersion
  let compressionFlags ← BinaryReader.ReadUint32
  let compressedChunkCount ← BinaryReader.ReadInt32
  skipRecords AssetHeader.CompressedChunkSize compressedChunkCount.toNat
  let packageSource ← BinaryReader.ReadUint32
  let _throwawayAdditionalPackagesToCook ←
    BinaryReader.ReadInlineUnrealArray BinaryReader.ReadInlineUnrealString
  (if archive.LegacyVersion > -7 then do
    let _textureAllocations ← BinaryReader.ReadInt32
    pure ()
  else pure ())
  let assetRegistryDataOffset ← BinaryReader.ReadInt32
  let bulkDataStartOffset ← BinaryReader.ReadInt64
  let worldTileInfoDataOffset ← steps.WorldTileInfoDataOffset
  let chunkIds ← steps.ChunkIds
  let preloadDependency ← steps.PreloadDependency
  let namesReferencedFromExportDataCount : Int ←
    (if archive.FileVersionUe5 ≥ Archive.Ue5Version.NamesReferencedFromExportData then
      BinaryReader.ReadInt32
    else pure (toSigned 32 (names.length % 2 ^ 32)))
  let payloadTocOffset : Int ←
    (if archive.FileVersionUe5 ≥ Archive.Ue5Version.PayloadToc then
      BinaryReader.ReadInt64
    else pure (-1))
  let dataResourceOffset : Int ←
    (if archive.FileVersionUe5 ≥ Archive.Ue5Version.DataResources then do
      let offset ← BinaryReader.ReadInt32
      pure (if offset > 0 then offset else 0)
    else pure 0)
  pure { output with
    Imports := imports
    DependsOffset := dependsOffset
    SoftPackageReferencesCount := softPackageReferences.1
    SoftPackageReferencesOffset := softPackageReferences.2
    SearchableNamesOffset := searchableNamesOffset
    ThumbnailTableOffset := thumbnailTableOffset
    SavedByEngineVersion := savedByEngineVersion
    CompatibleWithEngineVersion := compatibleWithEngineVersion
    CompressionFlags := compressionFlags
    PackageSource := packageSource
    AssetRegistryDataOffset := assetRegistryDataOffset
    BulkDataStartOffset := bulkDataStartOffset
    WorldTileInfoDataOffset := worldTileInfoDataOffset
    ChunkIds := chunkIds
    PreloadDependencyCount := preloadDependency.1
    PreloadDependencyOffset := preloadDependency.2
    NamesReferencedFromExportDataCount := namesReferencedFromExportDataCount
    PayloadTocOffset := payloadTocOffset
    DataResourceOffset := dataResourceOffset }

/-- Names of the members of `AssetHeader.GatedSteps`. -/
inductive AssetHeader.GatedStep where
  | NameHash
  | LocalizationId
  | GatherableTextData
  | ExportTemplateIndex
  | ExportSerial
  | ExportNotAlwaysLoadedForEditorGame
  | ExportIsAsset
  | ExportDependencies
  | ImportPackageName
  | SoftPackageReferences
  | SearchableNamesOffset
  | PersistentGuid
  | OwnerPersistentGuid
  | SavedByEngineVersion
  | CompatibleWithEngineVersion
  | WorldTileInfoDataOffset
  | ChunkIds
  | PreloadDependency
  deriving DecidableEq

/-- The member of `steps` that the name stands for, as a read of nothing in
particular: its result is dropped. -/
def AssetHeader.GatedSteps.step (steps : AssetHeader.GatedSteps)
    (packageHasEditorOnlyData : Bool) : AssetHeader.GatedStep → Decoder Unit
  | AssetHeader.GatedStep.NameHash => steps.NameHash
  | AssetHeader.GatedStep.LocalizationId =>
    (fun _ => ()) <$> steps.LocalizationId packageHasEditorOnlyData
  | AssetHeader.GatedStep.GatherableTextData => (fun _ => ()) <$> steps.GatherableTextData
  | AssetHeader.GatedStep.ExportTemplateIndex => (fun _ => ()) <$> steps.ExportTemplateIndex
  | AssetHeader.GatedStep.ExportSerial => (fun _ => ()) <$> steps.ExportSerial
  | AssetHeader.GatedStep.ExportNotAlwaysLoadedForEditorGame =>
    (fun _ => ()) <$> steps.ExportNotAlwaysLoadedForEditorGame
  | AssetHeader.GatedStep.ExportIsAsset => (fun _ => ()) <$> steps.ExportIsAsset
  | AssetHeader.GatedStep.ExportDependencies => (fun _ => ()) <$> steps.ExportDependencies
  | AssetHeader.GatedStep.ImportPackageName =>
    (fun _ => ()) <$> steps.ImportPackageName packageHasEditorOnlyData
  | AssetHeader.GatedStep.SoftPackageReferences =>
    (fun _ => ()) <$> steps.SoftPackageReferences
  | AssetHeader.GatedStep.SearchableNamesOffset =>
    (fun _ => ()) <$> steps.SearchableNamesOffset
  | AssetHeader.GatedStep.PersistentGuid => steps.PersistentGuid packageHasEditorOnlyData
  | AssetHeader.GatedStep.OwnerPersistentGuid =>
    steps.OwnerPersistentGuid packageHasEditorOnlyData
  | AssetHeader.GatedStep.SavedByEngineVersion => (fun _ => ()) <$> steps.SavedByEngineVersion
  | AssetHeader.GatedStep.CompatibleWithEngineVersion =>
    (fun _ => ()) <$> steps.CompatibleWithEngineVersion {}
  | AssetHeader.GatedStep.WorldTileInfoDataOffset =>
    (fun _ => ()) <$> steps.WorldTileInfoDataOffset
  | AssetHeader.GatedStep.ChunkIds => (fun _ => ()) <$> steps.ChunkIds
  | AssetHeader.GatedStep.PreloadDependency => (fun _ => ()) <$> steps.PreloadDependency

/-- The condition under which the specification has the field or skipped record
read, for a fileVersion and the editor-only-data bit of the packageFlags
(sections 4.4 to 4.6).  SavedByEngineVersion and the serial pair of an export
are read at every fileVersion, in an encoding that changes at 336 and at 511;
ChunkIds is read from 278 on, in an encoding that changes at 326. -/
def AssetHeader.GatedStep.specifiedGate (fileVersion : Int) (packageHasEditorOnlyData : Bool) :
    AssetHeader.GatedStep → Prop
  | AssetHeader.GatedStep.NameHash => fileVersion ≥ 504
  | AssetHeader.GatedStep.LocalizationId =>
    fileVersion ≥ 516 ∧ packageHasEditorOnlyData = true
  | AssetHeader.GatedStep.GatherableTextData => fileVersion ≥ 459
  | AssetHeader.GatedStep.ExportTemplateIndex => fileVersion ≥ 508
  | AssetHeader.GatedStep.ExportSerial => True
  | AssetHeader.GatedStep.ExportNotAlwaysLoadedForEditorGame => fileVersion ≥ 365
  | AssetHeader.GatedStep.ExportIsAsset => fileVersion ≥ 485
  | AssetHeader.GatedStep.ExportDependencies => fileVersion ≥ 507
  | AssetHeader.GatedStep.ImportPackageName =>
    fileVersion ≥ 520 ∧ packageHasEditorOnlyData = true
  | AssetHeader.GatedStep.SoftPackageReferences => fileVersion ≥ 384
  | AssetHeader.GatedStep.SearchableNamesOffset => fileVersion ≥ 510
  | AssetHeader.GatedStep.PersistentGuid =>
    fileVersion ≥ 518 ∧ packageHasEditorOnlyData = true
  | AssetHeader.GatedStep.OwnerPersistentGuid =>
    fileVersion ≥ 518 ∧ fileVersion < 520 ∧ packageHasEditorOnlyData = true
  | AssetHeader.GatedStep.SavedByEngineVersion => True
  | AssetHeader.GatedStep.CompatibleWithEngineVersion => fileVersion ≥ 444
  | AssetHeader.GatedStep.WorldTileInfoDataOffset => fileVersion ≥ 224
  | AssetHeader.GatedStep.ChunkIds => fileVersion ≥ 278
  | AssetHeader.GatedStep.PreloadDependency => fileVersion ≥ 507

/-- The name reference held by the 8 bytes of `data` at position `p`. -/
def nameAt (data : List Byte) (p : Nat) : UnrealName :=
  { ComparisonIndex := signedAt data p 4, Number := unsignedAt data (p + 4) 4 }

/-- The GUID held by the 16 bytes of `data` at position `p`. -/
def guidAt (data : List Byte) (p : Nat) : UnrealGuid :=
  { A := signedAt data p 4, B := signedAt data (p + 4) 4,
    C := signedAt data (p + 8) 4, D := signedAt data (p + 12) 4 }

/-- From the reader state `r` the tag stream holds `k` tags whose name is not
`"None"`, each followed by the bytes its size declares, and then a tag named
`"None"`, after whose name the reader state is `s`. -/
inductive TagStreamEnds (archive : Archive) (assetHeader : AssetHeader) :
    BinaryReader → Nat → BinaryReader → Prop where
  | sentinel {r s : BinaryReader}
      (last : parseBinaryInput.walkStep archive assetHeader r = Outcome.ok (false, s)) :
      TagStreamEnds archive assetHeader r 0 s
  | tag {r t s : BinaryReader} {k : Nat}
      (first : parseBinaryInput.walkStep archive assetHeader r = Outcome.ok (true, t))
      (rest : TagStreamEnds archive assetHeader t k s) :
      TagStreamEnds archive assetHeader r (k + 1) s

/-- A read that never ends in a thrown exception. -/
def Decoder.NoThrow {α : Type} (d : Decoder α) : Prop :=
  ∀ (r : BinaryReader) (e : CppException), d r ≠ Outcome.thrown e

/-- The read `d` takes exactly `n` bytes: at every cursor `p` of every buffer
that holds `n` more bytes it returns `f data p` and leaves the cursor at
`p + n`. -/
def Decoder.ReadsExactly {α : Type} (d : Decoder α) (n : Nat) (f : List Byte → Nat → α) : Prop :=
  ∀ (data : List Byte) (p : Nat), p + n ≤ data.length →
    d ⟨p, some data⟩ = Outcome.ok (f data p, ⟨p + n, some data⟩)

/-- Size in bytes of an export record as the specification gives it. -/
def ObjectExport.specifiedSize (fileVersion fileVersionUe5 : Int) : Nat :=
  40 + 4 * (if fileVersion ≥ 508 then 1 else 0)
    + (if fileVersion < 511 then 8 else 16)
    + 16 * (if fileVersionUe5 < 1005 then 1 else 0)
    + 4 * (if fileVersionUe5 ≥ 1006 then 1 else 0)
    + 4 * (if fileVersion ≥ 365 then 1 else 0)
    + 4 * (if fileVersion ≥ 485 then 1 else 0)
    + 4 * (if fileVersionUe5 ≥ 1003 then 1 else 0)
    + 20 * (if fileVersion ≥ 507 then 1 else 0)

/-- The export record the specification's layout (section 4.5) finds in `data`
at position `p`: the fields in the stated order, each at the position that
follows the fields before it, a field whose gate is not met at zero. -/
def ObjectExport.specifiedAt (fileVersion fileVersionUe5 : Int) (data : List Byte) (p : Nat) :
    ObjectExport :=
  let objectName := p + 8 + (if fileVersion ≥ 508 then 4 else 0)
  let serial := objectName + 16
  let flags := serial + (if fileVersion < 511 then 8 else 16)
  let inherited := flags + 12 + (if fileVersionUe5 < 1005 then 16 else 0)
  let packageFlags := inherited + (if fileVersionUe5 ≥ 1006 then 4 else 0)
  let isAsset := packageFlags + 4 + (if fileVersion ≥ 365 then 4 else 0)
  let publicHash := isAsset + (if fileVersion ≥ 485 then 4 else 0)
  let dependencies := publicHash + (if fileVersionUe5 ≥ 1003 then 4 else 0)
  { ClassIndex := signedAt data p 4
    SuperIndex := signedAt data (p + 4) 4
    TemplateIndex := if fileVersion ≥ 508 then signedAt data (p + 8) 4 else 0
    OuterIndex := 0
    ObjectName := nameAt data objectName
    ObjectFlags := unsignedAt data (objectName + 12) 4
    SerialSize := if fileVersion < 511 then signedAt data serial 4 else signedAt data serial 8
    SerialOffset :=
      if fileVersion < 511 then signedAt data (serial + 4) 4 else signedAt data (serial + 8) 8
    ForcedExport := decide (signedAt data flags 4 ≠ 0)
    NotForClient := decide (signedAt data (flags + 4) 4 ≠ 0)
    NotForServer := decide (signedAt data (flags + 8) 4 ≠ 0)
    IsInheritedInstance :=
      if fileVersionUe5 ≥ 1006 then decide (signedAt data inherited 4 ≠ 0) else false
    PackageFlags := unsignedAt data packageFlags 4
    NotAlwaysLoadedForEditorGame :=
      if fileVersion ≥ 365 then decide (signedAt data (packageFlags + 4) 4 ≠ 0) else false
    IsAsset := if fileVersion ≥ 485 then decide (signedAt data isAsset 4 ≠ 0) else false
    GeneratePublicHash :=
      if fileVersionUe5 ≥ 1003 then decide (signedAt data publicHash 4 ≠ 0) else false
    FirstExportDependency := if fileVersion ≥ 507 then signedAt data dependencies 4 else 0
    SerializationBeforeSerializationDependencies := 0
    CreateBeforeSerializationDependencies :=
      if fileVersion ≥ 507 then signedAt data (dependencies + 8) 4 else 0
    SerializationBeforeCreateDependencies :=
      if fileVersion ≥ 507 then signedAt data (dependencies + 12) 4 else 0
    CreateBeforeCreateDependencies :=
      if fileVersion ≥ 507 then signedAt data (dependencies + 16) 4 else 0 }

/-- Size in bytes of an import record as the specification gives it. -/
def ObjectImport.specifiedSize (fileVersion fileVersionUe5 : Int) (packageFlags : Nat) : Nat :=
  28 + 8 * (if packageFlags &&& 0x80000000 = 0 ∧ fileVersion ≥ 520 then 1 else 0)
    + 4 * (if fileVersionUe5 ≥ 1003 then 1 else 0)

/-- The import record the specification's layout (section 4.6) finds in `data`
at position `p`. -/
def ObjectImport.specifiedAt (fileVersion fileVersionUe5 : Int) (packageFlags : Nat)
    (data : List Byte) (p : Nat) : ObjectImport :=
  let importOptional :=
    p + 28 + (if packageFlags &&& 0x80000000 = 0 ∧ fileVersion ≥ 520 then 8 else 0)
  { ClassPackage := nameAt data p
    ClassName := nameAt data (p + 8)
    OuterIndex := signedAt data (p + 16) 4
    ObjectName := nameAt data (p + 20)
    PackageName :=
      if packageFlags &&& 0x80000000 = 0 ∧ fileVersion ≥ 520 then nameAt data (p + 28) else {}
    ImportOptional :=
      if fileVersionUe5 ≥ 1003 then decide (signedAt data importOptional 4 ≠ 0) else false }

theorem Decoder.bind_apply {α β : Type} (x : Decoder α) (f : α → Decoder β) (r : BinaryReader) :
    (x >>= f) r = (x r).bind (fun p => f p.1 p.2) := rfl

theorem Decoder.pure_apply {α : Type} (a : α) (r : BinaryReader) :
    (pure a : Decoder α) r = Outcome.ok (a, r) := rfl

theorem Decoder.map_apply {α β : Type} (g : α → β) (x : Decoder α) (r : BinaryReader) :
    (g <$> x) r = (x r).bind (fun p => Outcome.ok (g p.1, p.2)) := rfl

@[simp] theorem Outcome.bind_ok {α β : Type} (a : α) (f : α → Outcome β) :
    (Outcome.ok a).bind f = f a := rfl

@[simp] theorem Outcome.bind_undefined {α β : Type} (f : α → Outcome β) :
    (Outcome.undefined : Outcome α).bind f = Outcome.undefined := rfl

@[simp] theorem Outcome.bind_thrown {α β : Type} (e : CppException) (f : α → Outcome β) :
    (Outcome.thrown e : Outcome α).bind f = Outcome.thrown e := rfl

theorem leValue_take_drop (data : List Byte) (w p : Nat) (h : p + w ≤ data.length) :
    leValue ((data.drop p).take w) = unsignedAt data p w := by
  induction w generalizing p with
  | zero => simp [leValue, unsignedAt]
  | succ w ih =>
    have hp : p < data.length := by omega
    have hd : data.drop p = data[p] :: data.drop (p + 1) := List.drop_eq_getElem_cons hp
    rw [hd, List.take_succ_cons, leValue, ih (p + 1) (by omega)]
    unfold unsignedAt
    rw [Finset.sum_range_succ', Finset.mul_sum]
    have e0 : data.getD (p + 0) 0 = data[p] := by
      simp [List.getD_eq_getElem?_getD, List.getElem?_eq_getElem hp]
    rw [e0]
    have : ∀ j ∈ Finset.range w,
        256 * ((data.getD (p + 1 + j) 0).val * 256 ^ j) = (data.getD (p + (j + 1)) 0).val * 256 ^ (j + 1) := by
      intro j _
      have : p + 1 + j = p + (j + 1) := by omega
      rw [this]; ring
    rw [Finset.sum_congr rfl this]
    simp; ring

theorem readPrimitive_inside (data : List Byte) (p w : Nat) (h : p + w ≤ data.length) :
    BinaryReader.readPrimitive w ⟨p, some data⟩
      = Outcome.ok (unsignedAt data p w, ⟨p + w, some data⟩) := by
  simp [BinaryReader.readPrimitive, h, leValue_take_drop data w p h]

theorem readPrimitive_outside (data : List Byte) (p w : Nat) (h : data.length < p + w) :
    BinaryReader.readPrimitive w ⟨p, some data⟩ = Outcome.undefined := by
  have : ¬ (p + w ≤ data.length) := by omega
  simp [BinaryReader.readPrimitive, this]

theorem toSigned_eq (data : List Byte) (p w : Nat) :
    toSigned (8 * w) (unsignedAt data p w) = signedAt data p w := by
  simp [toSigned, signedAt]

theorem byte_ofNat_val (b : Byte) : (Fin.ofNat b.val : Byte) = b := by
  apply Fin.ext
  simp [Fin.ofNat]

theorem unsignedAt_one (data : List Byte) (p : Nat) :
    unsignedAt data p 1 = (data.getD p 0).val := by
  simp [unsignedAt]

theorem ReadByte_inside (data : List Byte) (p : Nat) (h : p + 1 ≤ data.length) :
    BinaryReader.ReadByte ⟨p, some data⟩ = Outcome.ok (data.getD p 0, ⟨p + 1, some data⟩) := by
  simp [BinaryReader.ReadByte, Decoder.map_apply, readPrimitive_inside data p 1 h,
    unsignedAt_one, byte_ofNat_val]

theorem ReadByte_outside (data : List Byte) (p : Nat) (h : data.length < p + 1) :
    BinaryReader.ReadByte ⟨p, some data⟩ = Outcome.undefined := by
  simp [BinaryReader.ReadByte, Decoder.map_apply, readPrimitive_outside data p 1 h]

theorem ReadInt32_inside (data : List Byte) (p : Nat) (h : p + 4 ≤ data.length) :
    BinaryReader.ReadInt32 ⟨p, some data⟩ = Outcome.ok (signedAt data p 4, ⟨p + 4, some data⟩) := by
  simp [BinaryReader.ReadInt32, Decoder.map_apply, readPrimitive_inside data p 4 h,
    ← toSigned_eq]

theorem ReadInt32_outside (data : List Byte) (p : Nat) (h : data.length < p + 4) :
    BinaryReader.ReadInt32 ⟨p, some data⟩ = Outcome.undefined := by
  simp [BinaryReader.ReadInt32, Decoder.map_apply, readPrimitive_outside data p 4 h]

theorem ReadUint32_inside (data : List Byte) (p : Nat) (h : p + 4 ≤ data.length) :
    BinaryReader.ReadUint32 ⟨p, some data⟩ = Outcome.ok (unsignedAt data p 4, ⟨p + 4, some data⟩) := by
  simp [BinaryReader.ReadUint32, readPrimitive_inside data p 4 h]

theorem readCharacters_inside (data : List Byte) (n : Nat) :
    ∀ (p : Nat) (output : List Byte), p + n ≤ data.length →
      BinaryReader.readCharacters n output ⟨p, some data⟩
        = Outcome.ok (output ++ (data.drop p).take n, ⟨p + n, some data⟩) := by
  induction n with
  | zero => intro p output _; simp [BinaryReader.readCharacters, Decoder.pure_apply]
  | succ n ih =>
    intro p output h
    have hp : p < data.length := by omega
    have hd : data.drop p = data[p] :: data.drop (p + 1) := List.drop_eq_getElem_cons hp
    have hg : data.getD p 0 = data[p] := by
      simp [List.getD_eq_getElem?_getD, List.getElem?_eq_getElem hp]
    rw [BinaryReader.readCharacters, Decoder.bind_apply, ReadByte_inside data p (by omega)]
    simp only [Outcome.bind_ok]
    rw [ih (p + 1) _ (by omega), hd, List.take_succ_cons, hg]
    simp [Nat.add_assoc, Nat.add_comm 1 n]

theorem readCharacters_outside (data : List Byte) (n : Nat) :
    ∀ (p : Nat) (output : List Byte), 0 < n → data.length < p + n →
      BinaryReader.readCharacters n output ⟨p, some data⟩ = Outcome.undefined := by
  induction n with
  | zero => intro p output h0 _; omega
  | succ n ih =>
    intro p output _ h
    rw [BinaryReader.readCharacters, Decoder.bind_apply]
    by_cases hp : p + 1 ≤ data.length
    · rw [ReadByte_inside data p hp]
      simp only [Outcome.bind_ok]
      exact ih (p + 1) _ (by omega) (by omega)
    · rw [ReadByte_outside data p (by omega)]
      rfl

theorem unsignedAt_lt (data : List Byte) (p w : Nat) : unsignedAt data p w < 256 ^ w := by
  induction w with
  | zero => simp [unsignedAt]
  | succ w ih =>
    have hs : unsignedAt data p (w + 1)
        = unsignedAt data p w + (data.getD (p + w) 0).val * 256 ^ w := by
      simp [unsignedAt, Finset.sum_range_succ]
    have hb : (data.getD (p + w) 0).val ≤ 255 := by
      have := (data.getD (p + w) 0).isLt
      omega
    have hm : (data.getD (p + w) 0).val * 256 ^ w ≤ 255 * 256 ^ w :=
      Nat.mul_le_mul_right _ hb
    rw [hs, pow_succ]
    omega

theorem signedAt_four_range (data : List Byte) (p : Nat) :
    -2 ^ 31 ≤ signedAt data p 4 ∧ signedAt data p 4 < 2 ^ 31 := by
  have h := unsignedAt_lt data p 4
  unfold signedAt
  norm_num at h ⊢
  split <;> constructor <;> omega

theorem checkedInt32_inside (x : Int) (r : BinaryReader) (h1 : -2 ^ 31 ≤ x) (h2 : x < 2 ^ 31) :
    checkedInt32 x r = Outcome.ok (x, r) := by
  rw [checkedInt32, if_pos ⟨h1, h2⟩]
  rfl

theorem checkedInt32_outside (x : Int) (r : BinaryReader) (h : 2 ^ 31 ≤ x) :
    checkedInt32 x r = Outcome.undefined := by
  have : ¬ (-2 ^ 31 ≤ x ∧ x < 2 ^ 31) := by omega
  rw [checkedInt32, if_neg this]
  rfl

theorem readUtf8String_inside (data : List Byte) (q : Nat) (length : Int)
    (h0 : 0 ≤ length) (h1 : length < 2 ^ 31)
    (h : q + (length - 1).toNat + 1 ≤ data.length) :
    BinaryReader.readUtf8String length [] ⟨q, some data⟩
      = Outcome.ok ((data.drop q).take (length - 1).toNat,
          ⟨q + (length - 1).toNat + 1, some data⟩) := by
  rw [BinaryReader.readUtf8String, Decoder.bind_apply,
    checkedInt32_inside _ _ (by omega) (by omega)]
  simp only [Outcome.bind_ok]
  rw [Decoder.bind_apply, readCharacters_inside data _ q [] (by omega)]
  simp only [Outcome.bind_ok]
  rw [Decoder.bind_apply, ReadByte_inside data _ (by omega)]
  simp [Decoder.pure_apply]

theorem readUtf8String_outside (data : List Byte) (q : Nat) (length : Int)
    (h0 : 0 ≤ length) (h1 : length < 2 ^ 31)
    (h : data.length < q + (length - 1).toNat + 1) :
    BinaryReader.readUtf8String length [] ⟨q, some data⟩ = Outcome.undefined := by
  rw [BinaryReader.readUtf8String, Decoder.bind_apply,
    checkedInt32_inside _ _ (by omega) (by omega)]
  simp only [Outcome.bind_ok]
  rw [Decoder.bind_apply]
  by_cases hn : (length - 1).toNat = 0
  · rw [hn, BinaryReader.readCharacters, Decoder.pure_apply]
    simp only [Outcome.bind_ok]
    rw [Decoder.bind_apply, ReadByte_outside data _ (by omega)]
    rfl
  · by_cases hc : q + (length - 1).toNat ≤ data.length
    · rw [readCharacters_inside data _ q [] hc]
      simp only [Outcome.bind_ok]
      rw [Decoder.bind_apply, ReadByte_outside data _ (by omega)]
      rfl
    · rw [readCharacters_outside data _ q [] (by omega) (by omega)]
      rfl

theorem readUcs2String_inside (data : List Byte) (q : Nat) (length : Int)
    (h0 : 1 ≤ length) (h1 : length ≤ 2 ^ 30)
    (h : q + 2 * length.toNat ≤ data.length) :
    BinaryReader.readUcs2StringAndConvertToUtf8 length [] ⟨q, some data⟩
      = Outcome.ok (transcodeCharacterStringToUTF8 ((data.drop q).take (2 * (length.toNat - 1))),
          ⟨q + 2 * length.toNat, some data⟩) := by
  have e : ((length - 1) * 2).toNat = 2 * (length.toNat - 1) := by omega
  rw [BinaryReader.readUcs2StringAndConvertToUtf8, Decoder.bind_apply,
    checkedInt32_inside _ _ (by omega) (by omega)]
  simp only [Outcome.bind_ok]
  rw [Decoder.bind_apply, checkedInt32_inside _ _ (by omega) (by omega)]
  simp only [Outcome.bind_ok]
  rw [Decoder.bind_apply, e, readCharacters_inside data _ q [] (by omega)]
  simp only [Outcome.bind_ok]
  rw [Decoder.bind_apply, BinaryReader.ReadUint16, readPrimitive_inside data _ 2 (by omega)]
  simp only [Outcome.bind_ok, Decoder.pure_apply, List.nil_append]
  have : q + 2 * (length.toNat - 1) + 2 = q + 2 * length.toNat := by omega
  rw [this]

theorem readUcs2String_outside (data : List Byte) (q : Nat) (length : Int)
    (h0 : 1 ≤ length) (h : data.length < q + 2 * length.toNat) :
    BinaryReader.readUcs2StringAndConvertToUtf8 length [] ⟨q, some data⟩ = Outcome.undefined := by
  rw [BinaryReader.readUcs2StringAndConvertToUtf8, Decoder.bind_apply]
  by_cases hu : length - 1 < 2 ^ 31
  · rw [checkedInt32_inside _ _ (by omega) hu]
    simp only [Outcome.bind_ok]
    rw [Decoder.bind_apply]
    by_cases hb : (length - 1) * 2 < 2 ^ 31
    · have e : ((length - 1) * 2).toNat = 2 * (length.toNat - 1) := by omega
      rw [checkedInt32_inside _ _ (by omega) hb]
      simp only [Outcome.bind_ok]
      rw [Decoder.bind_apply, e]
      by_cases hn : 2 * (length.toNat - 1) = 0
      · rw [hn, BinaryReader.readCharacters, Decoder.pure_apply]
        simp only [Outcome.bind_ok]
        rw [Decoder.bind_apply, BinaryReader.ReadUint16,
          readPrimitive_outside data _ 2 (by omega)]
        rfl
      · by_cases hc : q + 2 * (length.toNat - 1) ≤ data.length
        · rw [readCharacters_inside data _ q [] hc]
          simp only [Outcome.bind_ok]
          rw [Decoder.bind_apply, BinaryReader.ReadUint16,
            readPrimitive_outside data _ 2 (by omega)]
          rfl
        · rw [readCharacters_outside data _ q [] (by omega) (by omega)]
          rfl
    · rw [checkedInt32_outside _ _ (by omega)]
      rfl
  · rw [checkedInt32_outside _ _ (by omega)]
    rfl

theorem ReadInlineUnrealString_unfold (data : List Byte) (p : Nat) (h : p + 4 ≤ data.length) :
    BinaryReader.ReadInlineUnrealString ⟨p, some data⟩
      = if signedAt data p 4 < 0 then
          (checkedInt32 (-signedAt data p 4) ⟨p + 4, some data⟩).bind
            (fun x => BinaryReader.readUcs2StringAndConvertToUtf8 x.1 [] x.2)
        else BinaryReader.readUtf8String (signedAt data p 4) [] ⟨p + 4, some data⟩ := by
  rw [BinaryReader.ReadInlineUnrealString, Decoder.bind_apply, ReadInt32_inside data p h]
  simp only [Outcome.bind_ok]
  split
  · rfl
  · rfl

theorem signedAt_encodeUint32 (n : Nat) (rest : List Byte) (h : n < 2 ^ 31) :
    signedAt (encodeUint32 n ++ rest) 0 4 = (n : Int) := by
  have hu : unsignedAt (encodeUint32 n ++ rest) 0 4 = n := by
    simp [unsignedAt, Finset.sum_range_succ, encodeUint32, Fin.ofNat]
    omega
  have h' : n < 2147483648 := by norm_num at h; exact h
  simp [signedAt, hu, h']

theorem ReadInlineUnrealString_overflow (data : List Byte) (p M : Nat)
    (h4 : p + 4 ≤ data.length) (hM : signedAt data p 4 = -(M : Int)) (hbig : 2 ^ 30 < M) :
    BinaryReader.ReadInlineUnrealString ⟨p, some data⟩ = Outcome.undefined := by
  have hr := signedAt_four_range data p
  rw [ReadInlineUnrealString_unfold data p h4, hM, if_pos (by omega), neg_neg]
  by_cases hm : (M : Int) < 2 ^ 31
  · rw [checkedInt32_inside _ _ (by omega) hm]
    simp only [Outcome.bind_ok]
    rw [BinaryReader.readUcs2StringAndConvertToUtf8, Decoder.bind_apply,
      checkedInt32_inside _ _ (by omega) (by omega)]
    simp only [Outcome.bind_ok]
    rw [Decoder.bind_apply, checkedInt32_outside _ _ (by omega)]
    rfl
  · rw [checkedInt32_outside _ _ (by omega)]
    rfl

theorem signedAt_prefix_bfffffff (rest : List Byte) :
    signedAt ([0xff, 0xff, 0xff, 0xbf] ++ rest) 0 4 = -((2 ^ 30 + 1 : Nat) : Int) := by
  have hu : unsignedAt ([0xff, 0xff, 0xff, 0xbf] ++ rest) 0 4 = 3221225471 := by
    simp [unsignedAt, Finset.sum_range_succ]
    rfl
  unfold signedAt
  rw [hu]
  norm_num

theorem readElements_of_succession {T : Type} (elementReader : Decoder T)
    {r rEnd : BinaryReader} {xs : List T}
    (h : DecodesInSuccession elementReader r xs rEnd) :
    ∀ output : List T,
      BinaryReader.readElements elementReader xs.length output r
        = Outcome.ok (output ++ xs, rEnd) := by
  induction h with
  | nil r => intro output; simp [BinaryReader.readElements, Decoder.pure_apply]
  | cons first _ ih =>
    intro output
    rw [List.length_cons, BinaryReader.readElements, Decoder.bind_apply, first]
    simp only [Outcome.bind_ok]
    rw [ih]
    simp

theorem succession_of_readElements {T : Type} (elementReader : Decoder T) (n : Nat) :
    ∀ (output ys : List T) (r rEnd : BinaryReader),
      BinaryReader.readElements elementReader n output r = Outcome.ok (ys, rEnd) →
      ∃ xs, ys = output ++ xs ∧ xs.length = n ∧ DecodesInSuccession elementReader r xs rEnd := by
  induction n with
  | zero =>
    intro output ys r rEnd h
    simp only [BinaryReader.readElements, Decoder.pure_apply, Outcome.ok.injEq,
      Prod.mk.injEq] at h
    exact ⟨[], by simp [h.1], rfl, h.2 ▸ DecodesInSuccession.nil r⟩
  | succ n ih =>
    intro output ys r rEnd h
    rw [BinaryReader.readElements, Decoder.bind_apply] at h
    cases hfirst : elementReader r with
    | ok v =>
      rw [hfirst] at h
      simp only [Outcome.bind_ok] at h
      obtain ⟨xs, hys, hlen, hsucc⟩ := ih _ _ _ _ h
      refine ⟨v.1 :: xs, by simp [hys], by simp [hlen], ?_⟩
      exact DecodesInSuccession.cons hfirst hsucc
    | thrown e => rw [hfirst] at h; cases h
    | undefined => rw [hfirst] at h; cases h

theorem ReadDeferredUnrealArray_apply {T : Type} (elementReader : Decoder T) (r : BinaryReader) :
    BinaryReader.ReadDeferredUnrealArray elementReader r
      = (BinaryReader.ReadInt32 r).bind (fun count =>
          (BinaryReader.ReadInt32 count.2).bind (fun offset =>
            (BinaryReader.readUnrealArray elementReader count.1
                { offset.2 with SeekPos := toSizeT offset.1 }).bind (fun output =>
              Outcome.ok (output.1, { output.2 with SeekPos := offset.2.SeekPos })))) := rfl

theorem advanceSeekPos_eq (n : Int) (r : BinaryReader) :
    advanceSeekPos n r
      = Outcome.ok ((), { r with SeekPos := toSizeT ((r.SeekPos : Int) + n) }) := rfl

theorem advanceSeekPos_apply (n : Nat) (r : BinaryReader) :
    advanceSeekPos (n : Int) r
      = Outcome.ok ((), { r with SeekPos := (r.SeekPos + n) % sizeModulus }) := by
  have e : toSizeT ((r.SeekPos : Int) + (n : Int)) = (r.SeekPos + n) % sizeModulus := by
    unfold toSizeT
    rw [← Int.natCast_add, ← Int.natCast_mod, Int.toNat_natCast]
  rw [advanceSeekPos_eq, e]

theorem skipCustomVersions_optimized (n : Nat) :
    ∀ r : BinaryReader, r.SeekPos < sizeModulus →
      AssetHeader.skipCustomVersions Archive.CustomVersionSerializationFormat.Optimized n r
        = Outcome.ok ((), { r with SeekPos := (r.SeekPos + 20 * n) % sizeModulus }) := by
  induction n with
  | zero =>
    intro r hr
    simp only [AssetHeader.skipCustomVersions, Decoder.pure_apply, Nat.mul_zero, Nat.add_zero,
      Nat.mod_eq_of_lt hr]
  | succ n ih =>
    intro r _
    rw [AssetHeader.skipCustomVersions, Decoder.bind_apply, AssetHeader.skipCustomVersion]
    have h20 : Archive.CustomVersionSize = ((20 : Nat) : Int) := rfl
    rw [h20, advanceSeekPos_apply]
    simp only [Outcome.bind_ok]
    rw [ih _ (Nat.mod_lt _ (by decide))]
    simp only [Nat.add_mod_mod, Nat.mod_add_mod]
    have : r.SeekPos + 20 + 20 * n = r.SeekPos + 20 * (n + 1) := by ring
    rw [this]

theorem skipCustomVersions_of_succession (format : Archive.CustomVersionSerializationFormat)
    {r rEnd : BinaryReader} {units : List Unit}
    (h : DecodesInSuccession (AssetHeader.skipCustomVersion format) r units rEnd) :
    AssetHeader.skipCustomVersions format units.length r = Outcome.ok ((), rEnd) := by
  induction h with
  | nil r => rfl
  | cons first _ ih =>
    rw [List.length_cons, AssetHeader.skipCustomVersions, Decoder.bind_apply, first]
    exact ih

theorem Decoder.prop_of_bind {α β : Type} {P : β → Prop} (x : Decoder α) (f : α → Decoder β)
    (hf : ∀ a, ∀ (r : BinaryReader) (b : β) (r1 : BinaryReader),
      f a r = Outcome.ok (b, r1) → P b) :
    ∀ (r : BinaryReader) (b : β) (r1 : BinaryReader),
      (x >>= f) r = Outcome.ok (b, r1) → P b := by
  intro r b r1 h
  rw [Decoder.bind_apply] at h
  cases hx : x r with
  | ok v => rw [hx] at h; exact hf v.1 v.2 b r1 h
  | thrown e => rw [hx] at h; cases h
  | undefined => rw [hx] at h; cases h

theorem AssetHeader.ReadFrom_totalHeaderSize (archive : Archive) (r : BinaryReader)
    (h : AssetHeader) (r1 : BinaryReader)
    (hr : AssetHeader.ReadFrom archive r = Outcome.ok (h, r1)) :
    ∃ rb rt, AssetHeader.readCustomVersionBlock archive r = Outcome.ok ((), rb) ∧
      BinaryReader.ReadInt32 rb = Outcome.ok (h.TotalHeaderSize, rt) := by
  rw [AssetHeader.ReadFrom, Decoder.bind_apply] at hr
  cases hb : AssetHeader.readCustomVersionBlock archive r with
  | thrown e => rw [hb] at hr; cases hr
  | undefined => rw [hb] at hr; cases hr
  | ok v =>
    rw [hb] at hr
    simp only [Outcome.bind_ok] at hr
    rw [Decoder.bind_apply] at hr
    cases ht : BinaryReader.ReadInt32 v.2 with
    | thrown e => rw [ht] at hr; cases hr
    | undefined => rw [ht] at hr; cases hr
    | ok t =>
      rw [ht] at hr
      simp only [Outcome.bind_ok] at hr
      have key : h.TotalHeaderSize = t.1 := by
        revert hr
        generalize t.2 = r2
        revert r1
        revert h
        revert r2
        repeat (apply Decoder.prop_of_bind; intro _)
        intro r2 h r1 hr
        simp only [Decoder.pure_apply, Outcome.ok.injEq, Prod.mk.injEq] at hr
        rw [← hr.1]
      exact ⟨v.2, t.2, rfl, by rw [key]; exact ht⟩

theorem toSizeT_of_nonneg (i : Int) (h0 : 0 ≤ i) (h1 : i < 2 ^ 64) : toSizeT i = i.toNat := by
  unfold toSizeT sizeModulus
  have : i % ((2 ^ 64 : Nat) : Int) = i := Int.emod_eq_of_lt h0 (by norm_num; omega)
  rw [this]

theorem toSizeT_of_neg (i : Int) (h0 : -2 ^ 63 ≤ i) (h1 : i < 0) : 2 ^ 63 ≤ toSizeT i := by
  unfold toSizeT sizeModulus
  norm_num
  omega

theorem vectorAt_outside {T : Type} (v : List T) (i : Int) (h0 : 0 ≤ i) (h1 : i < 2 ^ 64)
    (h : (v.length : Int) ≤ i) : vectorAt v i = Outcome.undefined := by
  have hn : v.get? (toSizeT i) = none := by
    rw [List.get?_eq_none, toSizeT_of_nonneg i h0 h1]
    omega
  rw [vectorAt, hn]

theorem vectorAt_negative {T : Type} (v : List T) (i : Int) (h0 : -2 ^ 63 ≤ i) (h1 : i < 0)
    (h : v.length < 2 ^ 63) : vectorAt v i = Outcome.undefined := by
  have hn : v.get? (toSizeT i) = none := by
    rw [List.get?_eq_none]
    have := toSizeT_of_neg i h0 h1
    omega
  rw [vectorAt, hn]

theorem Outcome.checkedInt32_in_range (x : Int) (h1 : -2 ^ 31 ≤ x) (h2 : x < 2 ^ 31) :
    Outcome.checkedInt32 x = Outcome.ok x := by
  rw [Outcome.checkedInt32, if_pos ⟨h1, h2⟩]

theorem Outcome.checkedInt32_overflow (x : Int) (h : 2 ^ 31 ≤ x) :
    Outcome.checkedInt32 x = Outcome.undefined := by
  have : ¬ (-2 ^ 31 ≤ x ∧ x < 2 ^ 31) := by omega
  rw [Outcome.checkedInt32, if_neg this]

theorem Outcome.bind_unfold {α β : Type} (x : Outcome α) (f : α → Outcome β) :
    (x >>= f) = x.bind f := rfl

theorem leValue_lt (l : List Byte) : leValue l < 256 ^ l.length := by
  induction l with
  | nil => simp [leValue]
  | cons b bs ih =>
    have hb := b.isLt
    rw [leValue, List.length_cons, pow_succ]
    omega

theorem readPrimitive_four_lt (r r1 : BinaryReader) (v : Nat)
    (h : BinaryReader.readPrimitive 4 r = Outcome.ok (v, r1)) : v < 2 ^ 32 := by
  unfold BinaryReader.readPrimitive at h
  cases hd : r.Data with
  | none =>
    rw [hd] at h
    simp only [Outcome.ok.injEq, Prod.mk.injEq] at h
    omega
  | some data =>
    rw [hd] at h
    simp only at h
    split at h
    · simp only [Outcome.ok.injEq, Prod.mk.injEq] at h
      have hl := leValue_lt ((data.drop r.SeekPos).take 4)
      have hlen : ((data.drop r.SeekPos).take 4).length ≤ 4 := by
        rw [List.length_take]
        omega
      have : 256 ^ ((data.drop r.SeekPos).take 4).length ≤ 256 ^ 4 :=
        Nat.pow_le_pow_right (by decide) hlen
      have h3 : leValue ((data.drop r.SeekPos).take 4) < 256 ^ 4 := lt_of_lt_of_le hl this
      rw [← h.1]
      norm_num at h3 ⊢
      exact h3
    · cases h

theorem ReadInt32_lt (r r1 : BinaryReader) (v : Int)
    (h : BinaryReader.ReadInt32 r = Outcome.ok (v, r1)) : v < 2 ^ 31 := by
  rw [BinaryReader.ReadInt32, Decoder.map_apply] at h
  cases hp : BinaryReader.readPrimitive 4 r with
  | ok u =>
    rw [hp] at h
    simp only [Outcome.bind_ok, Outcome.ok.injEq, Prod.mk.injEq] at h
    have hu := readPrimitive_four_lt r u.2 u.1 hp
    rw [← h.1]
    unfold toSigned
    norm_num at hu ⊢
    split <;> omega
  | thrown e => rw [hp] at h; cases h
  | undefined => rw [hp] at h; cases h

theorem ReadDeferredUnrealArray_length_lt {T : Type} (elementReader : Decoder T) (xs : List T)
    (h : ∃ r xs1, ∃ r1 : BinaryReader,
      BinaryReader.ReadDeferredUnrealArray elementReader r = Outcome.ok (xs1, r1) ∧ xs1 = xs) :
    xs.length < 2 ^ 31 := by
  obtain ⟨r, xs1, r1, h, rfl⟩ := h
  rw [ReadDeferredUnrealArray_apply] at h
  cases hc : BinaryReader.ReadInt32 r with
  | thrown e => rw [hc] at h; cases h
  | undefined => rw [hc] at h; cases h
  | ok c =>
    rw [hc] at h
    simp only [Outcome.bind_ok] at h
    have hlt := ReadInt32_lt r c.2 c.1 hc
    cases ho : BinaryReader.ReadInt32 c.2 with
    | thrown e => rw [ho] at h; cases h
    | undefined => rw [ho] at h; cases h
    | ok o =>
      rw [ho] at h
      simp only [Outcome.bind_ok] at h
      unfold BinaryReader.readUnrealArray at h
      split at h
      · cases h
      · cases he : BinaryReader.readElements elementReader c.1.toNat []
            { o.2 with SeekPos := toSizeT o.1 } with
        | thrown e => rw [he] at h; cases h
        | undefined => rw [he] at h; cases h
        | ok v =>
          rw [he] at h
          simp only [Outcome.bind_ok, Outcome.ok.injEq, Prod.mk.injEq] at h
          obtain ⟨ys, hys, hlen, _⟩ :=
            succession_of_readElements elementReader c.1.toNat [] v.1 _ v.2 he
          rw [← h.1, hys, List.nil_append, hlen]
          omega

theorem Decoder.prop_of_bind_result {α β : Type} {P : β → Prop} (x : Decoder α)
    (f : α → Decoder β)
    (hf : ∀ a, (∃ r a1, ∃ r1 : BinaryReader, x r = Outcome.ok (a1, r1) ∧ a1 = a) →
      ∀ (r : BinaryReader) (b : β) (r1 : BinaryReader), f a r = Outcome.ok (b, r1) → P b) :
    ∀ (r : BinaryReader) (b : β) (r1 : BinaryReader),
      (x >>= f) r = Outcome.ok (b, r1) → P b := by
  intro r b r1 h
  rw [Decoder.bind_apply] at h
  cases hx : x r with
  | ok v => rw [hx] at h; exact hf v.1 ⟨r, v.1, v.2, hx, rfl⟩ v.2 b r1 h
  | thrown e => rw [hx] at h; cases h
  | undefined => rw [hx] at h; cases h

/-- A decoded header has tables of fewer than `2^31` entries: every count is an
`Int32`. -/
theorem AssetHeader.ReadFrom_tables_fit (archive : Archive) (r : BinaryReader)
    (h : AssetHeader) (r1 : BinaryReader)
    (hr : AssetHeader.ReadFrom archive r = Outcome.ok (h, r1)) :
    h.Names.length < 2 ^ 31 ∧ h.Exports.length < 2 ^ 31 ∧ h.Imports.length < 2 ^ 31 := by
  revert hr
  revert r1
  revert h
  revert r
  unfold AssetHeader.ReadFrom
  repeat (apply Decoder.prop_of_bind_result; intro _ _)
  intro r2 h r1 hr
  simp only [Decoder.pure_apply, Outcome.ok.injEq, Prod.mk.injEq] at hr
  rw [← hr.1]
  refine ⟨?_, ?_, ?_⟩ <;>
    exact ReadDeferredUnrealArray_length_lt _ _ (by assumption)

theorem vectorAt_inside {T : Type} (v : List T) (i : Int) (x : T) (h0 : 0 ≤ i) (h1 : i < 2 ^ 64)
    (h : v.get? i.toNat = some x) : vectorAt v i = Outcome.ok x := by
  rw [vectorAt, toSizeT_of_nonneg i h0 h1, h]

theorem Decoder.ofOutcome_ok {α : Type} (a : α) (r : BinaryReader) :
    Decoder.ofOutcome (Outcome.ok a) r = Outcome.ok (a, r) := rfl

theorem UnrealName.readName_inside (data : List Byte) (p : Nat) (h : p + 8 ≤ data.length) :
    UnrealName.ReadFrom ⟨p, some data⟩ = Outcome.ok (nameAt data p, ⟨p + 8, some data⟩) := by
  simp (disch := omega) [UnrealName.ReadFrom, Decoder.bind_apply, Decoder.pure_apply,
    ReadUint32_inside, ReadInt32_inside, nameAt, Nat.add_assoc]

theorem UnrealGuid.readGuid_inside (data : List Byte) (p : Nat) (h : p + 16 ≤ data.length) :
    UnrealGuid.ReadFrom ⟨p, some data⟩ = Outcome.ok (guidAt data p, ⟨p + 16, some data⟩) := by
  simp (disch := omega) [UnrealGuid.ReadFrom, Decoder.bind_apply, Decoder.pure_apply,
    ReadInt32_inside, guidAt, Nat.add_assoc]

theorem UnrealPropertyTag.ReadFrom_sentinel (archive : Archive) (assetHeader : AssetHeader)
    (data : List Byte) (p : Nat) (h8 : p + 8 ≤ data.length)
    (hnone : assetHeader.NameToString (nameAt data p) = Outcome.ok (literal "None")) :
    UnrealPropertyTag.ReadFrom archive assetHeader ⟨p, some data⟩
      = Outcome.ok ({ Name := nameAt data p }, ⟨p + 8, some data⟩) := by
  rw [AssetHeader.NameToString] at hnone
  rw [UnrealPropertyTag.ReadFrom, Decoder.bind_apply, UnrealName.readName_inside data p h8]
  simp only [Outcome.bind_ok]
  rw [Decoder.bind_apply, hnone, Decoder.ofOutcome_ok]
  simp only [Outcome.bind_ok, if_true]
  rfl

theorem UnrealPropertyTag.ReadFrom_nonsentinel (archive : Archive) (assetHeader : AssetHeader)
    (data : List Byte) (p : Nat) (nameStr typeStr : List Byte) (h24 : p + 24 ≤ data.length)
    (hname : assetHeader.NameToString (nameAt data p) = Outcome.ok nameStr)
    (hnn : nameStr ≠ literal "None")
    (htype : assetHeader.NameToString (nameAt data (p + 8)) = Outcome.ok typeStr) :
    UnrealPropertyTag.ReadFrom archive assetHeader ⟨p, some data⟩
      = ((if (nameAt data (p + 8)).Number = 0 then
            UnrealPropertyTag.readExtraData archive typeStr
          else pure none) ⟨p + 24, some data⟩).bind (fun extraData =>
          (UnrealPropertyTag.readPropertyGuid archive extraData.2).bind (fun propertyGuid =>
            Outcome.ok ({ Name := nameAt data p, Type_ := nameAt data (p + 8),
                          Size := signedAt data (p + 16) 4,
                          ArrayIndex := signedAt data (p + 20) 4,
                          ExtraData := extraData.1, PropertyGuid := propertyGuid.1 },
                        propertyGuid.2))) := by
  rw [AssetHeader.NameToString] at hname htype
  rw [UnrealPropertyTag.ReadFrom, Decoder.bind_apply, UnrealName.readName_inside data p (by omega)]
  simp only [Outcome.bind_ok]
  rw [Decoder.bind_apply, hname, Decoder.ofOutcome_ok]
  simp only [Outcome.bind_ok]
  rw [if_neg hnn, Decoder.bind_apply, UnrealName.readName_inside data (p + 8) (by omega)]
  simp only [Outcome.bind_ok]
  rw [Decoder.bind_apply, ReadInt32_inside data (p + 8 + 8) (by omega)]
  simp only [Outcome.bind_ok]
  rw [Decoder.bind_apply, ReadInt32_inside data (p + 8 + 8 + 4) (by omega)]
  simp only [Outcome.bind_ok]
  rw [Decoder.bind_apply, htype, Decoder.ofOutcome_ok]
  simp only [Outcome.bind_ok]
  rw [Decoder.bind_apply]
  simp only [Nat.add_assoc, Nat.reduceAdd]
  rfl

theorem parseBinaryInput.walk_succ_continue (archive : Archive) (assetHeader : AssetHeader)
    (fuel : Nat) (r t : BinaryReader)
    (h : parseBinaryInput.walkStep archive assetHeader r = Outcome.ok (true, t)) :
    parseBinaryInput.walkPropertyTags archive assetHeader (fuel + 1) r
      = parseBinaryInput.walkPropertyTags archive assetHeader fuel t := by
  rw [parseBinaryInput.walkPropertyTags, h]

theorem parseBinaryInput.walk_succ_break (archive : Archive) (assetHeader : AssetHeader)
    (fuel : Nat) (r s : BinaryReader)
    (h : parseBinaryInput.walkStep archive assetHeader r = Outcome.ok (false, s)) :
    parseBinaryInput.walkPropertyTags archive assetHeader (fuel + 1) r
      = some (Outcome.ok ((), s)) := by
  rw [parseBinaryInput.walkPropertyTags, h]

theorem parseBinaryInput.walk_succ_undefined (archive : Archive) (assetHeader : AssetHeader)
    (fuel : Nat) (r : BinaryReader)
    (h : parseBinaryInput.walkStep archive assetHeader r = Outcome.undefined) :
    parseBinaryInput.walkPropertyTags archive assetHeader (fuel + 1) r
      = some Outcome.undefined := by
  rw [parseBinaryInput.walkPropertyTags, h]

theorem parseBinaryInput.walk_of_streamEnds (archive : Archive) (assetHeader : AssetHeader)
    {r s : BinaryReader} {k : Nat} (h : TagStreamEnds archive assetHeader r k s) :
    ∀ fuel, k < fuel →
      parseBinaryInput.walkPropertyTags archive assetHeader fuel r = some (Outcome.ok ((), s)) := by
  induction h with
  | sentinel last =>
    intro fuel hf
    obtain ⟨f, rfl⟩ : ∃ f, fuel = f + 1 := ⟨fuel - 1, by omega⟩
    exact parseBinaryInput.walk_succ_break archive assetHeader f _ _ last
  | tag first _ ih =>
    intro fuel hf
    obtain ⟨f, rfl⟩ : ∃ f, fuel = f + 1 := ⟨fuel - 1, by omega⟩
    rw [parseBinaryInput.walk_succ_continue archive assetHeader f _ _ first]
    exact ih f (by omega)

theorem parseBinaryInput.streamEnds_of_walk (archive : Archive) (assetHeader : AssetHeader)
    (fuel : Nat) :
    ∀ (r s : BinaryReader),
      parseBinaryInput.walkPropertyTags archive assetHeader fuel r = some (Outcome.ok ((), s)) →
      ∃ k, k < fuel ∧ TagStreamEnds archive assetHeader r k s := by
  induction fuel with
  | zero => intro r s h; simp [parseBinaryInput.walkPropertyTags] at h
  | succ f ih =>
    intro r s h
    cases hstep : parseBinaryInput.walkStep archive assetHeader r with
    | ok v =>
      obtain ⟨b, t⟩ := v
      cases b with
      | true =>
        rw [parseBinaryInput.walk_succ_continue archive assetHeader f r t hstep] at h
        obtain ⟨k, hk, hs⟩ := ih t s h
        exact ⟨k + 1, by omega, TagStreamEnds.tag hstep hs⟩
      | false =>
        rw [parseBinaryInput.walk_succ_break archive assetHeader f r t hstep] at h
        simp only [Option.some.injEq, Outcome.ok.injEq, Prod.mk.injEq, true_and] at h
        exact ⟨0, by omega, TagStreamEnds.sentinel (h ▸ hstep)⟩
    | thrown e =>
      rw [parseBinaryInput.walkPropertyTags, hstep] at h
      simp at h
    | undefined =>
      rw [parseBinaryInput.walkPropertyTags, hstep] at h
      simp at h

theorem parseBinaryInput.walk_of_loop (archive : Archive) (assetHeader : AssetHeader)
    (r : BinaryReader)
    (h : parseBinaryInput.walkStep archive assetHeader r = Outcome.ok (true, r)) :
    ∀ fuel, parseBinaryInput.walkPropertyTags archive assetHeader fuel r = none := by
  intro fuel
  induction fuel with
  | zero => rfl
  | succ f ih => rw [parseBinaryInput.walk_succ_continue archive assetHeader f r r h, ih]

theorem parseBinaryInput.walk_mono (archive : Archive) (assetHeader : AssetHeader)
    (fuel : Nat) :
    ∀ (r : BinaryReader) (o : Outcome (Unit × BinaryReader)),
      parseBinaryInput.walkPropertyTags archive assetHeader fuel r = some o →
      ∀ more, parseBinaryInput.walkPropertyTags archive assetHeader (fuel + more) r = some o := by
  induction fuel with
  | zero => intro r o h; simp [parseBinaryInput.walkPropertyTags] at h
  | succ f ih =>
    intro r o h more
    have e : f + 1 + more = (f + more) + 1 := by omega
    rw [e]
    cases hstep : parseBinaryInput.walkStep archive assetHeader r with
    | ok v =>
      obtain ⟨b, t⟩ := v
      cases b with
      | true =>
        rw [parseBinaryInput.walk_succ_continue archive assetHeader f r t hstep] at h
        rw [parseBinaryInput.walk_succ_continue archive assetHeader (f + more) r t hstep]
        exact ih t o h more
      | false =>
        rw [parseBinaryInput.walk_succ_break archive assetHeader f r t hstep] at h
        rw [parseBinaryInput.walk_succ_break archive assetHeader (f + more) r t hstep]
        exact h
    | thrown e =>
      rw [parseBinaryInput.walkPropertyTags, hstep] at h ⊢
      exact h
    | undefined =>
      rw [parseBinaryInput.walkPropertyTags, hstep] at h ⊢
      exact h

theorem Decoder.NoThrow.pure {α : Type} (a : α) : Decoder.NoThrow (pure a : Decoder α) := by
  intro r e h
  cases h

theorem Decoder.NoThrow.bind {α β : Type} {x : Decoder α} {f : α → Decoder β}
    (hx : Decoder.NoThrow x) (hf : ∀ a, Decoder.NoThrow (f a)) : Decoder.NoThrow (x >>= f) := by
  intro r e h
  rw [Decoder.bind_apply] at h
  cases hxr : x r with
  | ok v => rw [hxr] at h; exact hf v.1 v.2 e h
  | thrown e1 => exact hx r e1 hxr
  | undefined => rw [hxr] at h; cases h

theorem Decoder.NoThrow.map {α β : Type} {x : Decoder α} (g : α → β)
    (hx : Decoder.NoThrow x) : Decoder.NoThrow (g <$> x) := by
  intro r e h
  rw [Decoder.map_apply] at h
  cases hxr : x r with
  | ok v => rw [hxr] at h; cases h
  | thrown e1 => exact hx r e1 hxr
  | undefined => rw [hxr] at h; cases h

theorem Decoder.NoThrow.ite {α : Type} (c : Prop) [Decidable c] {x y : Decoder α}
    (hx : Decoder.NoThrow x) (hy : Decoder.NoThrow y) :
    Decoder.NoThrow (if c then x else y) := by
  split
  · exact hx
  · exact hy

theorem readPrimitive_noThrow (w : Nat) : Decoder.NoThrow (BinaryReader.readPrimitive w) := by
  intro r e h
  unfold BinaryReader.readPrimitive at h
  split at h
  · cases h
  · split at h <;> cases h

theorem ofOutcome_vectorAt_noThrow {T : Type} (v : List T) (i : Int) :
    Decoder.NoThrow (Decoder.ofOutcome (vectorAt v i)) := by
  intro r e h
  unfold Decoder.ofOutcome vectorAt at h
  split at h <;> cases h

theorem advanceSeekPos_noThrow (n : Int) : Decoder.NoThrow (advanceSeekPos n) := by
  intro r e h
  rw [advanceSeekPos_eq] at h
  cases h

theorem ReadInt32_noThrow : Decoder.NoThrow BinaryReader.ReadInt32 :=
  Decoder.NoThrow.map _ (readPrimitive_noThrow 4)

theorem ReadUint32_noThrow : Decoder.NoThrow BinaryReader.ReadUint32 :=
  readPrimitive_noThrow 4

theorem ReadByte_noThrow : Decoder.NoThrow BinaryReader.ReadByte :=
  Decoder.NoThrow.map _ (readPrimitive_noThrow 1)

theorem UnrealName.readName_noThrow : Decoder.NoThrow UnrealName.ReadFrom :=
  Decoder.NoThrow.bind ReadInt32_noThrow (fun _ =>
    Decoder.NoThrow.bind ReadUint32_noThrow (fun _ => Decoder.NoThrow.pure _))

theorem UnrealGuid.readGuid_noThrow : Decoder.NoThrow UnrealGuid.ReadFrom :=
  Decoder.NoThrow.bind ReadInt32_noThrow (fun _ =>
    Decoder.NoThrow.bind ReadInt32_noThrow (fun _ =>
      Decoder.NoThrow.bind ReadInt32_noThrow (fun _ =>
        Decoder.NoThrow.bind ReadInt32_noThrow (fun _ => Decoder.NoThrow.pure _))))

theorem UnrealPropertyTag.readExtraData_noThrow (archive : Archive) (typeStr : List Byte) :
    Decoder.NoThrow (UnrealPropertyTag.readExtraData archive typeStr) := by
  unfold UnrealPropertyTag.readExtraData
  repeat' first
    | exact UnrealName.readName_noThrow
    | exact UnrealGuid.readGuid_noThrow
    | exact ReadByte_noThrow
    | apply Decoder.NoThrow.pure
    | apply Decoder.NoThrow.ite
    | apply Decoder.NoThrow.bind
    | intro _

theorem UnrealPropertyTag.readPropertyGuid_noThrow (archive : Archive) :
    Decoder.NoThrow (UnrealPropertyTag.readPropertyGuid archive) := by
  unfold UnrealPropertyTag.readPropertyGuid
  repeat' first
    | exact UnrealGuid.readGuid_noThrow
    | exact ReadByte_noThrow
    | apply Decoder.NoThrow.pure
    | apply Decoder.NoThrow.ite
    | apply Decoder.NoThrow.bind
    | intro _

theorem UnrealPropertyTag.readTag_noThrow (archive : Archive) (assetHeader : AssetHeader) :
    Decoder.NoThrow (UnrealPropertyTag.ReadFrom archive assetHeader) := by
  unfold UnrealPropertyTag.ReadFrom
  repeat' first
    | exact UnrealName.readName_noThrow
    | exact ReadInt32_noThrow
    | exact ofOutcome_vectorAt_noThrow _ _
    | exact UnrealPropertyTag.readExtraData_noThrow _ _
    | exact UnrealPropertyTag.readPropertyGuid_noThrow _
    | apply Decoder.NoThrow.pure
    | apply Decoder.NoThrow.ite
    | apply Decoder.NoThrow.bind
    | intro _

theorem parseBinaryInput.walkStep_noThrow (archive : Archive) (assetHeader : AssetHeader) :
    Decoder.NoThrow (parseBinaryInput.walkStep archive assetHeader) := by
  unfold parseBinaryInput.walkStep
  repeat' first
    | exact UnrealPropertyTag.readTag_noThrow _ _
    | exact ofOutcome_vectorAt_noThrow _ _
    | exact advanceSeekPos_noThrow _
    | apply Decoder.NoThrow.pure
    | apply Decoder.NoThrow.ite
    | apply Decoder.NoThrow.bind
    | intro _

theorem parseBinaryInput.walk_noThrow (archive : Archive) (assetHeader : AssetHeader)
    (fuel : Nat) :
    ∀ (r : BinaryReader) (e : CppException),
      parseBinaryInput.walkPropertyTags archive assetHeader fuel r ≠ some (Outcome.thrown e) := by
  induction fuel with
  | zero => intro r e h; simp [parseBinaryInput.walkPropertyTags] at h
  | succ f ih =>
    intro r e h
    cases hstep : parseBinaryInput.walkStep archive assetHeader r with
    | ok v =>
      obtain ⟨b, t⟩ := v
      cases b with
      | true =>
        rw [parseBinaryInput.walk_succ_continue archive assetHeader f r t hstep] at h
        exact ih t e h
      | false =>
        rw [parseBinaryInput.walk_succ_break archive assetHeader f r t hstep] at h
        simp at h
    | thrown e1 => exact parseBinaryInput.walkStep_noThrow archive assetHeader r e1 hstep
    | undefined =>
      rw [parseBinaryInput.walk_succ_undefined archive assetHeader f r hstep] at h
      simp at h

theorem parseBinaryInput.walkStep_outside (archive : Archive) (assetHeader : AssetHeader)
    (data : List Byte) (p : Nat) (h : data.length < p + 8) :
    parseBinaryInput.walkStep archive assetHeader ⟨p, some data⟩ = Outcome.undefined := by
  rw [parseBinaryInput.walkStep, Decoder.bind_apply, UnrealPropertyTag.ReadFrom,
    Decoder.bind_apply, UnrealName.ReadFrom, Decoder.bind_apply]
  by_cases h4 : p + 4 ≤ data.length
  · rw [ReadInt32_inside data p h4]
    simp only [Outcome.bind_ok]
    rw [Decoder.bind_apply, BinaryReader.ReadUint32, readPrimitive_outside data (p + 4) 4 (by omega)]
    rfl
  · rw [ReadInt32_outside data p (by omega)]
    rfl

theorem parseBinaryInput.exportBody_blueprint (archive : Archive) (assetHeader : AssetHeader)
    (fuel : Nat) (i : Int) (r s : BinaryReader) (objectExport : ObjectExport)
    (hclass : assetHeader.ClassIndexToClassNameString i = Outcome.ok (literal "Blueprint"))
    (hexport : vectorAt assetHeader.Exports (i - 1) = Outcome.ok objectExport)
    (hwalk : parseBinaryInput.walkPropertyTags archive assetHeader fuel
        { r with SeekPos := toSizeT objectExport.SerialOffset } = some (Outcome.ok ((), s))) :
    parseBinaryInput.exportBody archive assetHeader fuel i r
      = some (Outcome.ok ((), { s with SeekPos := r.SeekPos })) := by
  unfold parseBinaryInput.exportBody
  rw [hclass]
  simp only [if_true]
  rw [hexport]
  simp only
  rw [hwalk]

theorem Decoder.ReadsExactly.of_pure {α : Type} (a : α) :
    Decoder.ReadsExactly (pure a : Decoder α) 0 (fun _ _ => a) := by
  intro data p _
  rfl

theorem Decoder.ReadsExactly.of_bind {α β : Type} {x : Decoder α} {g : α → Decoder β}
    {n m : Nat} {f : List Byte → Nat → α} {h : α → List Byte → Nat → β}
    (hx : Decoder.ReadsExactly x n f) (hg : ∀ a, Decoder.ReadsExactly (g a) m (h a)) :
    Decoder.ReadsExactly (x >>= g) (n + m) (fun data p => h (f data p) data (p + n)) := by
  intro data p hp
  rw [Decoder.bind_apply, hx data p (by omega)]
  simp only [Outcome.bind_ok]
  rw [hg (f data p) data (p + n) (by omega), Nat.add_assoc]

theorem Decoder.ReadsExactly.of_ite {α : Type} (c : Prop) [Decidable c] {x y : Decoder α}
    {n m : Nat} {f g : List Byte → Nat → α}
    (hx : Decoder.ReadsExactly x n f) (hy : Decoder.ReadsExactly y m g) :
    Decoder.ReadsExactly (if c then x else y) (if c then n else m)
      (fun data p => if c then f data p else g data p) := by
  by_cases hc : c
  · simp only [hc, if_true]; exact hx
  · simp only [hc, if_false]; exact hy

theorem Decoder.ReadsExactly.of_eq {α : Type} {d : Decoder α} {n m : Nat}
    {f g : List Byte → Nat → α}
    (h : Decoder.ReadsExactly d n f) (hn : n = m) (hf : ∀ data p, f data p = g data p) :
    Decoder.ReadsExactly d m g := by
  intro data p hp
  rw [h data p (by omega), hf data p, hn]

theorem ReadInt32_readsExactly :
    Decoder.ReadsExactly BinaryReader.ReadInt32 4 (fun data p => signedAt data p 4) :=
  fun data p hp => ReadInt32_inside data p hp

theorem ReadUint32_readsExactly :
    Decoder.ReadsExactly BinaryReader.ReadUint32 4 (fun data p => unsignedAt data p 4) :=
  fun data p hp => ReadUint32_inside data p hp

theorem ReadInt64_readsExactly :
    Decoder.ReadsExactly BinaryReader.ReadInt64 8 (fun data p => signedAt data p 8) := by
  intro data p hp
  simp [BinaryReader.ReadInt64, Decoder.map_apply, readPrimitive_inside data p 8 hp,
    ← toSigned_eq]

theorem ReadInt32AndConvertToBool_readsExactly :
    Decoder.ReadsExactly BinaryReader.ReadInt32AndConvertToBool 4
      (fun data p => decide (signedAt data p 4 ≠ 0)) := by
  intro data p hp
  rw [BinaryReader.ReadInt32AndConvertToBool, Decoder.bind_apply, ReadInt32_inside data p hp]
  rfl

theorem UnrealName.readName_readsExactly :
    Decoder.ReadsExactly UnrealName.ReadFrom 8 nameAt :=
  fun data p hp => UnrealName.readName_inside data p hp

theorem UnrealGuid.readGuid_readsExactly :
    Decoder.ReadsExactly UnrealGuid.ReadFrom 16 guidAt :=
  fun data p hp => UnrealGuid.readGuid_inside data p hp

set_option maxHeartbeats 2000000 in
theorem ObjectExport.readExport_readsExactly (archive : Archive) (assetHeader : AssetHeader) :
    Decoder.ReadsExactly (ObjectExport.ReadFrom archive assetHeader)
      (ObjectExport.specifiedSize archive.FileVersion archive.FileVersionUe5)
      (ObjectExport.specifiedAt archive.FileVersion archive.FileVersionUe5) := by
  apply Decoder.ReadsExactly.of_eq
  case h =>
    unfold ObjectExport.ReadFrom
    repeat' first
      | exact ReadInt32_readsExactly
      | exact ReadUint32_readsExactly
      | exact ReadInt64_readsExactly
      | exact ReadInt32AndConvertToBool_readsExactly
      | exact UnrealName.readName_readsExactly
      | exact UnrealGuid.readGuid_readsExactly
      | exact Decoder.ReadsExactly.of_pure _
      | apply Decoder.ReadsExactly.of_ite
      | (apply Decoder.ReadsExactly.of_bind; on_goal 2 => intro _)
  case hn =>
    simp only [ObjectExport.specifiedSize, Archive.Ue4Version.TemplateindexInCookedExports,
      Archive.Ue4Version.SixtyFourBitExportmapSerialsizes,
      Archive.Ue5Version.RemoveObjectExportPackageGuid,
      Archive.Ue5Version.TrackObjectExportIsInherited, Archive.Ue4Version.LoadForEditorGame,
      Archive.Ue4Version.CookedAssetsInEditorSupport, Archive.Ue5Version.OptionalResources,
      Archive.Ue4Version.PreloadDependenciesInCookedExports,
      Nat.add_zero, mul_ite, mul_one, mul_zero, Nat.reduceAdd]
    omega
  case hf =>
    intro data p
    simp only [ObjectExport.specifiedAt, Archive.Ue4Version.TemplateindexInCookedExports,
      Archive.Ue4Version.SixtyFourBitExportmapSerialsizes,
      Archive.Ue5Version.RemoveObjectExportPackageGuid,
      Archive.Ue5Version.TrackObjectExportIsInherited, Archive.Ue4Version.LoadForEditorGame,
      Archive.Ue4Version.CookedAssetsInEditorSupport, Archive.Ue5Version.OptionalResources,
      Archive.Ue4Version.PreloadDependenciesInCookedExports,
      Nat.add_zero, Nat.reduceAdd]
    by_cases h507 : archive.FileVersion ≥ 507
    · by_cases h511 : archive.FileVersion < 511
      · simp only [if_pos h507, if_pos h511]
      · simp only [if_pos h507, if_neg h511]
    · by_cases h511 : archive.FileVersion < 511
      · simp only [if_neg h507, if_pos h511]
      · simp only [if_neg h507, if_neg h511]

theorem ObjectImport.readImport_readsExactly (archive : Archive) (assetHeader : AssetHeader) :
    Decoder.ReadsExactly (ObjectImport.ReadFrom archive assetHeader)
      (ObjectImport.specifiedSize archive.FileVersion archive.FileVersionUe5
        assetHeader.PackageFlags)
      (ObjectImport.specifiedAt archive.FileVersion archive.FileVersionUe5
        assetHeader.PackageFlags) := by
  apply Decoder.ReadsExactly.of_eq
  case h =>
    unfold ObjectImport.ReadFrom
    repeat' first
      | exact ReadInt32_readsExactly
      | exact ReadInt32AndConvertToBool_readsExactly
      | exact UnrealName.readName_readsExactly
      | exact Decoder.ReadsExactly.of_pure _
      | apply Decoder.ReadsExactly.of_ite
      | (apply Decoder.ReadsExactly.of_bind; on_goal 2 => intro _)
  case hn =>
    simp only [ObjectImport.specifiedSize, Archive.Ue4Version.NonOuterPackageImport,
      Archive.Ue5Version.OptionalResources, AssetHeader.PackageFlags.FilterEditorOnly,
      decide_eq_true_eq, Nat.add_zero, mul_ite, mul_one, mul_zero, Nat.reduceAdd]
    omega
  case hf =>
    intro data p
    simp only [ObjectImport.specifiedAt, Archive.Ue4Version.NonOuterPackageImport,
      Archive.Ue5Version.OptionalResources, AssetHeader.PackageFlags.FilterEditorOnly,
      decide_eq_true_eq, Nat.add_zero, Nat.reduceAdd]

theorem gated_default {α : Type} {c : Prop} [Decidable c] {x : Decoder α} {d a : α}
    (h : ∃ r a1, ∃ r1 : BinaryReader, (if c then x else pure d) r = Outcome.ok (a1, r1) ∧ a1 = a)
    (hc : ¬ c) : a = d := by
  obtain ⟨r, a1, r1, h, rfl⟩ := h
  rw [if_neg hc, Decoder.pure_apply] at h
  simp only [Outcome.ok.injEq, Prod.mk.injEq] at h
  exact h.1.symm

/-- The members of an export record that no read assigns, or that a gate leaves
out, keep the zero of `ObjectExport()`. -/
theorem ObjectExport.readExport_defaults (archive : Archive) (assetHeader : AssetHeader) :
    ∀ (r : BinaryReader) (e : ObjectExport) (r1 : BinaryReader),
      ObjectExport.ReadFrom archive assetHeader r = Outcome.ok (e, r1) →
      e.OuterIndex = 0 ∧ e.SerializationBeforeSerializationDependencies = 0 ∧
      (archive.FileVersion < 508 → e.TemplateIndex = 0) ∧
      (archive.FileVersionUe5 < 1006 → e.IsInheritedInstance = false) ∧
      (archive.FileVersionUe5 < 1003 → e.GeneratePublicHash = false) := by
  unfold ObjectExport.ReadFrom
  repeat (apply Decoder.prop_of_bind_result; intro _ _)
  split
  · repeat (apply Decoder.prop_of_bind_result; intro _ _)
    intro r e r1 hr
    simp only [Decoder.pure_apply, Outcome.ok.injEq, Prod.mk.injEq] at hr
    rw [← hr.1]
    refine ⟨rfl, rfl, ?_, ?_, ?_⟩
    · intro hlt
      exact gated_default (by assumption)
        (by simp only [Archive.Ue4Version.TemplateindexInCookedExports]; omega)
    · intro hlt
      exact gated_default (by assumption)
        (by simp only [Archive.Ue5Version.TrackObjectExportIsInherited]; omega)
    · intro hlt
      exact gated_default (by assumption)
        (by simp only [Archive.Ue5Version.OptionalResources]; omega)
  · intro r e r1 hr
    simp only [Decoder.pure_apply, Outcome.ok.injEq, Prod.mk.injEq] at hr
    rw [← hr.1]
    refine ⟨rfl, rfl, ?_, ?_, ?_⟩
    · intro hlt
      exact gated_default (by assumption)
        (by simp only [Archive.Ue4Version.TemplateindexInCookedExports]; omega)
    · intro hlt
      exact gated_default (by assumption)
        (by simp only [Archive.Ue5Version.TrackObjectExportIsInherited]; omega)
    · intro hlt
      exact gated_default (by assumption)
        (by simp only [Archive.Ue5Version.OptionalResources]; omega)

theorem ObjectImport.readImport_defaults (archive : Archive) (assetHeader : AssetHeader) :
    ∀ (r : BinaryReader) (i : ObjectImport) (r1 : BinaryReader),
      ObjectImport.ReadFrom archive assetHeader r = Outcome.ok (i, r1) →
      (¬ (assetHeader.PackageFlags &&& 0x80000000 = 0 ∧ archive.FileVersion ≥ 520) →
        i.PackageName = {}) ∧
      (archive.FileVersionUe5 < 1003 → i.ImportOptional = false) := by
  unfold ObjectImport.ReadFrom
  repeat (apply Decoder.prop_of_bind_result; intro _ _)
  intro r i r1 hr
  simp only [Decoder.pure_apply, Outcome.ok.injEq, Prod.mk.injEq] at hr
  rw [← hr.1]
  refine ⟨?_, ?_⟩
  · intro hlt
    exact gated_default (by assumption)
      (by simpa only [Archive.Ue4Version.NonOuterPackageImport,
        AssetHeader.PackageFlags.FilterEditorOnly, decide_eq_true_eq] using hlt)
  · intro hlt
    exact gated_default (by assumption)
      (by simp only [Archive.Ue5Version.OptionalResources]; omega)

theorem Decoder.bind_assoc_fun {α β γ : Type} (x : Decoder α) (f : α → Decoder β)
    (g : β → Decoder γ) : (x >>= f) >>= g = x >>= fun a => f a >>= g := by
  funext r
  simp only [Decoder.bind_apply]
  cases x r <;> rfl

/-- The two renderings of `AssetHeader::ReadFrom` are the same decoder. -/
theorem AssetHeader.ReadFrom_eq_steps (archive : Archive) :
    AssetHeader.ReadFrom archive = AssetHeader.ReadFromInSteps archive := by
  unfold AssetHeader.ReadFrom AssetHeader.ReadFromInSteps
    AssetHeader.readGatherableTextData AssetHeader.readSoftPackageReferences
    AssetHeader.skipGuids AssetHeader.readSavedByEngineVersion
    AssetHeader.readCompatibleWithEngineVersion AssetHeader.readChunkIds
    AssetHeader.readPreloadDependency AssetHeader.readNamesReferencedFromExportDataCount
    AssetHeader.readPayloadTocOffset AssetHeader.readDataResourceOffset
  simp only [Decoder.bind_assoc_fun]

theorem DecodesInSuccession.forall_mem {T : Type} {elementReader : Decoder T} {P : T → Prop}
    (hP : ∀ (r : BinaryReader) (x : T) (s : BinaryReader),
      elementReader r = Outcome.ok (x, s) → P x)
    {r t : BinaryReader} {xs : List T} (h : DecodesInSuccession elementReader r xs t) :
    ∀ x ∈ xs, P x := by
  induction h with
  | nil r => intro x hx; cases hx
  | cons first _ ih =>
    intro x hx
    rcases List.mem_cons.mp hx with rfl | hx
    · exact hP _ _ _ first
    · exact ih x hx

theorem ReadDeferredUnrealArray_forall {T : Type} (elementReader : Decoder T) (P : T → Prop)
    (hP : ∀ (r : BinaryReader) (x : T) (s : BinaryReader),
      elementReader r = Outcome.ok (x, s) → P x)
    (xs : List T)
    (h : ∃ r xs1, ∃ r1 : BinaryReader,
      BinaryReader.ReadDeferredUnrealArray elementReader r = Outcome.ok (xs1, r1) ∧ xs1 = xs) :
    ∀ x ∈ xs, P x := by
  obtain ⟨r, xs1, r1, h, rfl⟩ := h
  rw [ReadDeferredUnrealArray_apply] at h
  cases hc : BinaryReader.ReadInt32 r with
  | thrown e => rw [hc] at h; cases h
  | undefined => rw [hc] at h; cases h
  | ok c =>
    rw [hc] at h
    simp only [Outcome.bind_ok] at h
    cases ho : BinaryReader.ReadInt32 c.2 with
    | thrown e => rw [ho] at h; cases h
    | undefined => rw [ho] at h; cases h
    | ok o =>
      rw [ho] at h
      simp only [Outcome.bind_ok] at h
      unfold BinaryReader.readUnrealArray at h
      split at h
      · cases h
      · cases he : BinaryReader.readElements elementReader c.1.toNat []
            { o.2 with SeekPos := toSizeT o.1 } with
        | thrown e => rw [he] at h; cases h
        | undefined => rw [he] at h; cases h
        | ok v =>
          rw [he] at h
          simp only [Outcome.bind_ok, Outcome.ok.injEq, Prod.mk.injEq] at h
          obtain ⟨ys, hys, _, hsucc⟩ :=
            succession_of_readElements elementReader c.1.toNat [] v.1 _ v.2 he
          rw [← h.1, hys, List.nil_append]
          exact DecodesInSuccession.forall_mem hP hsucc

/-- In a decoded header every member named here is the result of its part of
`AssetHeader::ReadFrom`, run in some reader state. -/
theorem AssetHeader.ReadFrom_provenance (archive : Archive) (r : BinaryReader)
    (h : AssetHeader) (r1 : BinaryReader)
    (hr : AssetHeader.ReadFrom archive r = Outcome.ok (h, r1)) :
    (∃ s v, ∃ s1 : BinaryReader, AssetHeader.readGatherableTextData archive s
        = Outcome.ok (v, s1) ∧ v = (h.GatherableTextDataCount, h.GatherableTextDataOffset)) ∧
    (∃ s v, ∃ s1 : BinaryReader, AssetHeader.readSoftPackageReferences archive s
        = Outcome.ok (v, s1)
        ∧ v = (h.SoftPackageReferencesCount, h.SoftPackageReferencesOffset)) ∧
    (∃ s v, ∃ s1 : BinaryReader, AssetHeader.readPreloadDependency archive s
        = Outcome.ok (v, s1) ∧ v = (h.PreloadDependencyCount, h.PreloadDependencyOffset)) ∧
    (∃ s v, ∃ s1 : BinaryReader, AssetHeader.readSavedByEngineVersion archive s
        = Outcome.ok (v, s1) ∧ v = h.SavedByEngineVersion) ∧
    (∃ s v, ∃ s1 : BinaryReader,
        AssetHeader.readCompatibleWithEngineVersion archive h.SavedByEngineVersion s
        = Outcome.ok (v, s1) ∧ v = h.CompatibleWithEngineVersion) ∧
    (∃ s v, ∃ s1 : BinaryReader, AssetHeader.readChunkIds archive s
        = Outcome.ok (v, s1) ∧ v = h.ChunkIds) ∧
    (∃ s v, ∃ s1 : BinaryReader,
        AssetHeader.readNamesReferencedFromExportDataCount archive h.Names s
        = Outcome.ok (v, s1) ∧ v = h.NamesReferencedFromExportDataCount) ∧
    (∃ s v, ∃ s1 : BinaryReader, AssetHeader.readPayloadTocOffset archive s
        = Outcome.ok (v, s1) ∧ v = h.PayloadTocOffset) ∧
    (∃ s v, ∃ s1 : BinaryReader, AssetHeader.readDataResourceOffset archive s
        = Outcome.ok (v, s1) ∧ v = h.DataResourceOffset) ∧
    (∃ assetHeader : AssetHeader, ∃ s v, ∃ s1 : BinaryReader,
        BinaryReader.ReadDeferredUnrealArray (ObjectExport.ReadFrom archive assetHeader) s
        = Outcome.ok (v, s1) ∧ v = h.Exports) ∧
    (∃ assetHeader : AssetHeader, ∃ s v, ∃ s1 : BinaryReader,
        BinaryReader.ReadDeferredUnrealArray (ObjectImport.ReadFrom archive assetHeader) s
        = Outcome.ok (v, s1) ∧ v = h.Imports) := by
  rw [AssetHeader.ReadFrom_eq_steps] at hr
  revert hr
  revert r1
  revert h
  revert r
  unfold AssetHeader.ReadFromInSteps
  repeat (apply Decoder.prop_of_bind_result; intro _ _)
  intro r2 h r1 hr
  simp only [Decoder.pure_apply, Outcome.ok.injEq, Prod.mk.injEq] at hr
  rw [← hr.1]
  refine ⟨by assumption, by assumption, by assumption, by assumption, by assumption,
    by assumption, by assumption, by assumption, by assumption, ⟨_, by assumption⟩,
    ⟨_, by assumption⟩⟩

theorem AssetHeader.skipGuids_apply (archive : Archive) (packageHasEditorOnlyData : Bool)
    (r : BinaryReader) :
    AssetHeader.skipGuids archive packageHasEditorOnlyData r
      = Outcome.ok ((), { r with SeekPos :=
          (r.SeekPos + (16 + (if archive.FileVersion ≥ 518 ∧ packageHasEditorOnlyData = true
            then 16 + (if archive.FileVersion < 520 then 16 else 0) else 0))) % sizeModulus }) := by
  have h16 : AssetHeader.GuidSize = ((16 : Nat) : Int) := rfl
  unfold AssetHeader.skipGuids
  rw [Decoder.bind_apply, h16, advanceSeekPos_apply]
  simp only [Outcome.bind_ok, Archive.Ue4Version.AddedPackageOwner,
    Archive.Ue4Version.NonOuterPackageImport]
  by_cases h1 : archive.FileVersion ≥ 518 ∧ packageHasEditorOnlyData = true
  · rw [if_pos h1, if_pos h1, Decoder.bind_apply, advanceSeekPos_apply]
    simp only [Outcome.bind_ok]
    by_cases h2 : archive.FileVersion < 520
    · rw [if_pos h2, if_pos h2, advanceSeekPos_apply]
      simp only [Nat.add_mod_mod, Nat.mod_add_mod, Nat.add_assoc]
    · rw [if_neg h2, if_neg h2, Decoder.pure_apply]
      simp only [Nat.add_mod_mod, Nat.mod_add_mod, Nat.add_assoc, Nat.add_zero]
  · rw [if_neg h1, if_neg h1, Decoder.pure_apply]

theorem conditionallyRead_met (defaultCount defaultOffset : Int) (data : List Byte) (p : Nat)
    (h : p + 8 ≤ data.length) :
    AssetHeader.conditionallyReadDeferredArrayCountAndOffset true defaultCount defaultOffset
        ⟨p, some data⟩
      = Outcome.ok ((signedAt data p 4, signedAt data (p + 4) 4), ⟨p + 8, some data⟩) := by
  simp (disch := omega) [AssetHeader.conditionallyReadDeferredArrayCountAndOffset,
    Decoder.bind_apply, Decoder.pure_apply, ReadInt32_inside, Nat.add_assoc]

theorem conditionallyRead_unmet (defaultCount defaultOffset : Int) (r : BinaryReader) :
    AssetHeader.conditionallyReadDeferredArrayCountAndOffset false defaultCount defaultOffset r
      = Outcome.ok ((defaultCount, defaultOffset), r) := rfl

theorem conditionallyRead_default {condition : Bool} {defaultCount defaultOffset : Int}
    {pair : Int × Int}
    (h : ∃ r v, ∃ r1 : BinaryReader,
      AssetHeader.conditionallyReadDeferredArrayCountAndOffset condition defaultCount
        defaultOffset r = Outcome.ok (v, r1) ∧ v = pair)
    (hc : condition = false) : pair = (defaultCount, defaultOffset) := by
  obtain ⟨r, v, r1, h, rfl⟩ := h
  subst hc
  rw [conditionallyRead_unmet] at h
  simp only [Outcome.ok.injEq, Prod.mk.injEq] at h
  exact h.1.symm

theorem readElements_ReadInt32 (data : List Byte) (n : Nat) :
    ∀ (p : Nat) (output : List Int), p + 4 * n ≤ data.length →
      BinaryReader.readElements BinaryReader.ReadInt32 n output ⟨p, some data⟩
        = Outcome.ok (output ++ (List.range n).map (fun j => signedAt data (p + 4 * j) 4),
            ⟨p + 4 * n, some data⟩) := by
  induction n with
  | zero =>
    intro p output _
    simp [BinaryReader.readElements, Decoder.pure_apply]
  | succ n ih =>
    intro p output h
    rw [BinaryReader.readElements, Decoder.bind_apply, ReadInt32_inside data p (by omega)]
    simp only [Outcome.bind_ok]
    rw [ih (p + 4) _ (by omega), List.range_succ_eq_map, List.map_cons, List.map_map,
      List.append_assoc]
    have e1 : p + 4 + 4 * n = p + 4 * (n + 1) := by ring
    have e2 : ((fun j => signedAt data (p + 4 * j) 4) ∘ Nat.succ)
        = (fun j => signedAt data (p + 4 + 4 * j) 4) := by
      funext j
      exact congrArg (fun q => signedAt data q 4) (by simp only [Nat.succ_eq_add_one]; ring)
    rw [e1, e2]
    rfl

theorem ReadUint16_inside (data : List Byte) (p : Nat) (h : p + 2 ≤ data.length) :
    BinaryReader.ReadUint16 ⟨p, some data⟩
      = Outcome.ok (unsignedAt data p 2, ⟨p + 2, some data⟩) :=
  readPrimitive_inside data p 2 h

theorem ReadInt64_inside (data : List Byte) (p : Nat) (h : p + 8 ≤ data.length) :
    BinaryReader.ReadInt64 ⟨p, some data⟩
      = Outcome.ok (signedAt data p 8, ⟨p + 8, some data⟩) :=
  ReadInt64_readsExactly data p h

theorem UnrealEngineVersion.readVersion_inside (data : List Byte) (p : Nat)
    (h : p + 10 ≤ data.length) :
    UnrealEngineVersion.ReadFrom ⟨p, some data⟩
      = (BinaryReader.ReadInlineUnrealString ⟨p + 10, some data⟩).bind (fun branchName =>
          Outcome.ok ({ Major := unsignedAt data p 2, Minor := unsignedAt data (p + 2) 2,
                        Patch := unsignedAt data (p + 4) 2,
                        ChangelistAndLicenseeBit := unsignedAt data (p + 6) 4,
                        BranchName := branchName.1 }, branchName.2)) := by
  simp (disch := omega) only [UnrealEngineVersion.ReadFrom, Decoder.bind_apply,
    Decoder.pure_apply, ReadUint16_inside, ReadUint32_inside, Outcome.bind_ok, Nat.add_assoc,
    Nat.reduceAdd]

theorem toSigned_of_length (n : Nat) (h : n < 2 ^ 31) : toSigned 32 (n % 2 ^ 32) = (n : Int) := by
  have h1 : n % 2 ^ 32 = n := Nat.mod_eq_of_lt (by omega)
  rw [h1, toSigned, if_pos (by simpa using h)]

theorem AssetHeader.readDataResourceOffset_result (archive : Archive) (r s : BinaryReader)
    (v : Int) (h : AssetHeader.readDataResourceOffset archive r = Outcome.ok (v, s)) :
    0 ≤ v ∧ (archive.FileVersionUe5 < 1009 → v = 0) := by
  unfold AssetHeader.readDataResourceOffset at h
  simp only [Archive.Ue5Version.DataResources] at h
  by_cases hc : archive.FileVersionUe5 ≥ 1009
  · rw [if_pos hc, Decoder.bind_apply] at h
    cases ho : BinaryReader.ReadInt32 r with
    | thrown e => rw [ho] at h; cases h
    | undefined => rw [ho] at h; cases h
    | ok o =>
      rw [ho] at h
      simp only [Outcome.bind_ok, Decoder.pure_apply, Outcome.ok.injEq, Prod.mk.injEq] at h
      refine ⟨?_, fun hlt => absurd hc (by omega)⟩
      rw [← h.1]
      split <;> omega
  · rw [if_neg hc, Decoder.pure_apply] at h
    simp only [Outcome.ok.injEq, Prod.mk.injEq] at h
    exact ⟨by omega, fun _ => h.1.symm⟩

theorem gated_result {α : Type} {c : Prop} [Decidable c] {x y : Decoder α} {a : α}
    (h : ∃ r a1, ∃ r1 : BinaryReader, (if c then x else y) r = Outcome.ok (a1, r1) ∧ a1 = a)
    (hc : ¬ c) : ∃ r, ∃ r1 : BinaryReader, y r = Outcome.ok (a, r1) := by
  obtain ⟨r, a1, r1, h, rfl⟩ := h
  rw [if_neg hc] at h
  exact ⟨r, r1, h⟩

/-- The trailing members of a decoded header whose gates on fileVersionUe5 are
not met. -/
theorem AssetHeader.ReadFrom_trailing (archive : Archive) (r : BinaryReader)
    (h : AssetHeader) (r1 : BinaryReader)
    (hr : AssetHeader.ReadFrom archive r = Outcome.ok (h, r1)) :
    (archive.FileVersionUe5 < 1001 →
      h.NamesReferencedFromExportDataCount = (h.Names.length : Int)) ∧
    (archive.FileVersionUe5 < 1002 → h.PayloadTocOffset = -1) ∧
    (archive.FileVersionUe5 < 1009 → h.DataResourceOffset = 0) ∧
    0 ≤ h.DataResourceOffset := by
  have hfit := (AssetHeader.ReadFrom_tables_fit archive r h r1 hr).1
  obtain ⟨_, _, _, _, _, _, hnames, hpayload, hdata, _, _⟩ :=
    AssetHeader.ReadFrom_provenance archive r h r1 hr
  refine ⟨?_, ?_, ?_, ?_⟩
  · intro hlt
    obtain ⟨s, s1, hs⟩ := gated_result hnames
      (by simp only [Archive.Ue5Version.NamesReferencedFromExportData]; omega)
    rw [Decoder.pure_apply] at hs
    simp only [Outcome.ok.injEq, Prod.mk.injEq] at hs
    rw [← hs.1, toSigned_of_length _ hfit]
  · intro hlt
    obtain ⟨s, s1, hs⟩ := gated_result hpayload
      (by simp only [Archive.Ue5Version.PayloadToc]; omega)
    rw [Decoder.pure_apply] at hs
    simp only [Outcome.ok.injEq, Prod.mk.injEq] at hs
    exact hs.1.symm
  · intro hlt
    obtain ⟨s, v, s1, hs, rfl⟩ := hdata
    exact (AssetHeader.readDataResourceOffset_result archive s s1 _ hs).2 hlt
  · obtain ⟨s, v, s1, hs, rfl⟩ := hdata
    exact (AssetHeader.readDataResourceOffset_result archive s s1 _ hs).1

/-- A gated member of a record of the export or import table of a decoded header
is zero when its gate is not met. -/
theorem AssetHeader.ReadFrom_records (archive : Archive) (r : BinaryReader)
    (h : AssetHeader) (r1 : BinaryReader)
    (hr : AssetHeader.ReadFrom archive r = Outcome.ok (h, r1)) :
    (∀ e ∈ h.Exports,
      e.OuterIndex = 0 ∧ e.SerializationBeforeSerializationDependencies = 0 ∧
      (archive.FileVersion < 508 → e.TemplateIndex = 0) ∧
      (archive.FileVersionUe5 < 1006 → e.IsInheritedInstance = false) ∧
      (archive.FileVersionUe5 < 1003 → e.GeneratePublicHash = false)) ∧
    (∀ i ∈ h.Imports, archive.FileVersionUe5 < 1003 → i.ImportOptional = false) := by
  obtain ⟨_, _, _, _, _, _, _, _, _, ⟨he, hexports⟩, ⟨hi, himports⟩⟩ :=
    AssetHeader.ReadFrom_provenance archive r h r1 hr
  constructor
  · exact ReadDeferredUnrealArray_forall _ _ (ObjectExport.readExport_defaults archive he) _
      hexports
  · exact ReadDeferredUnrealArray_forall _ _
      (fun s i s1 hs => (ObjectImport.readImport_defaults archive hi s i s1 hs).2) _ himports

theorem Archive.ReadFrom_pre_ue5 :
    ∀ (r : BinaryReader) (archive : Archive) (r1 : BinaryReader),
      Archive.ReadFrom r = Outcome.ok (archive, r1) →
      archive.LegacyVersion > -8 → archive.FileVersionUe5 = 0 := by
  unfold Archive.ReadFrom
  repeat (apply Decoder.prop_of_bind_result; intro _ _)
  intro r archive r1 hr
  simp only [Decoder.pure_apply, Outcome.ok.injEq, Prod.mk.injEq] at hr
  rw [← hr.1]
  intro hl
  exact gated_default (by assumption) (by simp only at hl; omega)

theorem Decoder.pure_bind_fun {α β : Type} (a : α) (f : α → Decoder β) :
    (pure a : Decoder α) >>= f = f a := rfl

theorem AssetHeader.readNameEntry_eq_with (archive : Archive) :
    AssetHeader.readNameEntry archive
      = AssetHeader.readNameEntryWith (AssetHeader.gatedSteps archive.FileVersion) := by
  unfold AssetHeader.readNameEntry AssetHeader.readNameEntryWith
  simp only [AssetHeader.gatedSteps]
  by_cases h : archive.FileVersion ≥ Archive.Ue4Version.NameHashesSerialized
  · simp only [if_pos h, Decoder.bind_assoc_fun, Decoder.pure_bind_fun]
  · simp only [if_neg h, Decoder.pure_bind_fun]

theorem ObjectExport.readExport_eq_with (archive : Archive) (assetHeader : AssetHeader) :
    ObjectExport.ReadFrom archive assetHeader
      = ObjectExport.ReadFromWith archive (AssetHeader.gatedSteps archive.FileVersion)
          assetHeader := by
  unfold ObjectExport.ReadFrom ObjectExport.ReadFromWith
  simp only [AssetHeader.gatedSteps]
  by_cases h : archive.FileVersion ≥ Archive.Ue4Version.PreloadDependenciesInCookedExports
  · simp only [if_pos h, Decoder.bind_assoc_fun, Decoder.pure_bind_fun]
  · simp only [if_neg h, Decoder.pure_bind_fun]

theorem ObjectImport.readImport_eq_with (archive : Archive) (assetHeader : AssetHeader) :
    ObjectImport.ReadFrom archive assetHeader
      = ObjectImport.ReadFromWith archive (AssetHeader.gatedSteps archive.FileVersion)
          assetHeader := by
  unfold ObjectImport.ReadFrom ObjectImport.ReadFromWith
  simp only [AssetHeader.gatedSteps]

theorem Decoder.nested_if_bind {β : Type} (c d : Prop) [Decidable c] [Decidable d]
    (a b : Decoder Unit) (k : Unit → Decoder β) :
    ((if c then (a >>= fun _ => if d then b else pure ()) else pure ()) >>= k)
      = ((if c then a else pure ()) >>= fun _ =>
          (if c then (if d then b else pure ()) else pure ()) >>= k) := by
  by_cases hc : c
  · simp only [if_pos hc, Decoder.bind_assoc_fun]
  · simp only [if_neg hc, Decoder.pure_bind_fun]

/-- `AssetHeader::ReadFrom` is its rendering over the steps that depend on
fileVersion, at the steps of the archive's fileVersion. -/
theorem AssetHeader.ReadFrom_eq_with (archive : Archive) :
    AssetHeader.ReadFrom archive
      = AssetHeader.ReadFromWith archive (AssetHeader.gatedSteps archive.FileVersion) := by
  unfold AssetHeader.ReadFrom AssetHeader.ReadFromWith
  rw [AssetHeader.readNameEntry_eq_with]
  simp only [ObjectExport.readExport_eq_with, ObjectImport.readImport_eq_with,
    Decoder.nested_if_bind]
  rfl

theorem Decoder.not_consumes_of_isNoOp {α : Type} {d : Decoder α} (h : Decoder.IsNoOp d) :
    ¬ Decoder.Consumes d := by
  rintro ⟨r, a, r1, hrun, hne⟩
  obtain ⟨b, hb⟩ := h r
  rw [hb] at hrun
  simp only [Outcome.ok.injEq, Prod.mk.injEq] at hrun
  exact hne (by rw [← hrun.2])

/-- A step whose gate is met consumes bytes: on a buffer of zero bytes it returns
with the cursor moved. -/
theorem AssetHeader.gatedSteps_consumes (fileVersion : Int) (packageHasEditorOnlyData : Bool)
    (step : AssetHeader.GatedStep)
    (h : AssetHeader.GatedStep.specifiedGate fileVersion packageHasEditorOnlyData step) :
    Decoder.Consumes ((AssetHeader.gatedSteps fileVersion).step packageHasEditorOnlyData step) := by
  cases step
  case NameHash =>
    refine ⟨⟨0, some sampleZeroBytes⟩, (), ⟨4, some sampleZeroBytes⟩, ?_, by decide⟩
    simp only [AssetHeader.GatedStep.specifiedGate] at h
    simp only [AssetHeader.GatedSteps.step, AssetHeader.gatedSteps,
      Archive.Ue4Version.NameHashesSerialized, if_pos h]
    rfl
  case LocalizationId =>
    refine ⟨⟨0, some sampleZeroBytes⟩, (), ⟨5, some sampleZeroBytes⟩, ?_, by decide⟩
    simp only [AssetHeader.GatedStep.specifiedGate] at h
    simp only [AssetHeader.GatedSteps.step, AssetHeader.gatedSteps,
      Archive.Ue4Version.AddedPackageSummaryLocalizationId, if_pos h]
    rfl
  case GatherableTextData =>
    refine ⟨⟨0, some sampleZeroBytes⟩, (), ⟨8, some sampleZeroBytes⟩, ?_, by decide⟩
    simp only [AssetHeader.GatedStep.specifiedGate] at h
    simp only [AssetHeader.GatedSteps.step, AssetHeader.gatedSteps,
      Archive.Ue4Version.SerializeTextInPackages, decide_eq_true h]
    rfl
  case ExportTemplateIndex =>
    refine ⟨⟨0, some sampleZeroBytes⟩, (), ⟨4, some sampleZeroBytes⟩, ?_, by decide⟩
    simp only [AssetHeader.GatedStep.specifiedGate] at h
    simp only [AssetHeader.GatedSteps.step, AssetHeader.gatedSteps,
      Archive.Ue4Version.TemplateindexInCookedExports, if_pos h]
    rfl
  case ExportSerial =>
    by_cases hv : fileVersion < 511
    · refine ⟨⟨0, some sampleZeroBytes⟩, (), ⟨8, some sampleZeroBytes⟩, ?_, by decide⟩
      simp only [AssetHeader.GatedSteps.step, AssetHeader.gatedSteps,
        Archive.Ue4Version.SixtyFourBitExportmapSerialsizes, if_pos hv]
      rfl
    · refine ⟨⟨0, some sampleZeroBytes⟩, (), ⟨16, some sampleZeroBytes⟩, ?_, by decide⟩
      simp only [AssetHeader.GatedSteps.step, AssetHeader.gatedSteps,
        Archive.Ue4Version.SixtyFourBitExportmapSerialsizes, if_neg hv]
      rfl
  case ExportNotAlwaysLoadedForEditorGame =>
    refine ⟨⟨0, some sampleZeroBytes⟩, (), ⟨4, some sampleZeroBytes⟩, ?_, by decide⟩
    simp only [AssetHeader.GatedStep.specifiedGate] at h
    simp only [AssetHeader.GatedSteps.step, AssetHeader.gatedSteps,
      Archive.Ue4Version.LoadForEditorGame, if_pos h]
    rfl
  case ExportIsAsset =>
    refine ⟨⟨0, some sampleZeroBytes⟩, (), ⟨4, some sampleZeroBytes⟩, ?_, by decide⟩
    simp only [AssetHeader.GatedStep.specifiedGate] at h
    simp only [AssetHeader.GatedSteps.step, AssetHeader.gatedSteps,
      Archive.Ue4Version.CookedAssetsInEditorSupport, if_pos h]
    rfl
  case ExportDependencies =>
    refine ⟨⟨0, some sampleZeroBytes⟩, (), ⟨20, some sampleZeroBytes⟩, ?_, by decide⟩
    simp only [AssetHeader.GatedStep.specifiedGate] at h
    simp only [AssetHeader.GatedSteps.step, AssetHeader.gatedSteps,
      Archive.Ue4Version.PreloadDependenciesInCookedExports, if_pos h]
    rfl
  case ImportPackageName =>
    refine ⟨⟨0, some sampleZeroBytes⟩, (), ⟨8, some sampleZeroBytes⟩, ?_, by decide⟩
    simp only [AssetHeader.GatedStep.specifiedGate] at h
    simp only [AssetHeader.GatedSteps.step, AssetHeader.gatedSteps,
      Archive.Ue4Version.NonOuterPackageImport, if_pos (And.intro h.2 h.1)]
    rfl
  case SoftPackageReferences =>
    refine ⟨⟨0, some sampleZeroBytes⟩, (), ⟨8, some sampleZeroBytes⟩, ?_, by decide⟩
    simp only [AssetHeader.GatedStep.specifiedGate] at h
    simp only [AssetHeader.GatedSteps.step, AssetHeader.gatedSteps,
      Archive.Ue4Version.AddStringAssetReferencesMap, decide_eq_true h]
    rfl
  case SearchableNamesOffset =>
    refine ⟨⟨0, some sampleZeroBytes⟩, (), ⟨4, some sampleZeroBytes⟩, ?_, by decide⟩
    simp only [AssetHeader.GatedStep.specifiedGate] at h
    simp only [AssetHeader.GatedSteps.step, AssetHeader.gatedSteps,
      Archive.Ue4Version.AddedSearchableNames, if_pos h]
    rfl
  case PersistentGuid =>
    refine ⟨⟨0, some sampleZeroBytes⟩, (), ⟨16, some sampleZeroBytes⟩, ?_, by decide⟩
    simp only [AssetHeader.GatedStep.specifiedGate] at h
    simp only [AssetHeader.GatedSteps.step, AssetHeader.gatedSteps,
      Archive.Ue4Version.AddedPackageOwner, if_pos h]
    rfl
  case OwnerPersistentGuid =>
    refine ⟨⟨0, some sampleZeroBytes⟩, (), ⟨16, some sampleZeroBytes⟩, ?_, by decide⟩
    simp only [AssetHeader.GatedStep.specifiedGate] at h
    simp only [AssetHeader.GatedSteps.step, AssetHeader.gatedSteps,
      Archive.Ue4Version.AddedPackageOwner, Archive.Ue4Version.NonOuterPackageImport,
      if_pos (And.intro h.1 h.2.2), if_pos h.2.1]
    rfl
  case SavedByEngineVersion =>
    by_cases hv : fileVersion ≥ 336
    · refine ⟨⟨0, some sampleZeroBytes⟩, (), ⟨15, some sampleZeroBytes⟩, ?_, by decide⟩
      simp only [AssetHeader.GatedSteps.step, AssetHeader.gatedSteps,
        Archive.Ue4Version.EngineVersionObject, if_pos hv]
      rfl
    · refine ⟨⟨0, some sampleZeroBytes⟩, (), ⟨4, some sampleZeroBytes⟩, ?_, by decide⟩
      simp only [AssetHeader.GatedSteps.step, AssetHeader.gatedSteps,
        Archive.Ue4Version.EngineVersionObject, if_neg hv]
      rfl
  case CompatibleWithEngineVersion =>
    refine ⟨⟨0, some sampleZeroBytes⟩, (), ⟨15, some sampleZeroBytes⟩, ?_, by decide⟩
    simp only [AssetHeader.GatedStep.specifiedGate] at h
    simp only [AssetHeader.GatedSteps.step, AssetHeader.gatedSteps,
      Archive.Ue4Version.PackageSummaryHasCompatibleEngineVersion, if_pos h]
    rfl
  case WorldTileInfoDataOffset =>
    refine ⟨⟨0, some sampleZeroBytes⟩, (), ⟨4, some sampleZeroBytes⟩, ?_, by decide⟩
    simp only [AssetHeader.GatedStep.specifiedGate] at h
    simp only [AssetHeader.GatedSteps.step, AssetHeader.gatedSteps,
      Archive.Ue4Version.WorldLevelInfo, if_pos h]
    rfl
  case ChunkIds =>
    refine ⟨⟨0, some sampleZeroBytes⟩, (), ⟨4, some sampleZeroBytes⟩, ?_, by decide⟩
    simp only [AssetHeader.GatedStep.specifiedGate] at h
    by_cases hv : fileVersion ≥ 326
    · simp only [AssetHeader.GatedSteps.step, AssetHeader.gatedSteps,
        Archive.Ue4Version.AddedChunkidToAssetdataAndUpackage,
        Archive.Ue4Version.ChangedChunkidToBeAnArrayOfChunkids, if_pos h, if_pos hv]
      rfl
    · simp only [AssetHeader.GatedSteps.step, AssetHeader.gatedSteps,
        Archive.Ue4Version.AddedChunkidToAssetdataAndUpackage,
        Archive.Ue4Version.ChangedChunkidToBeAnArrayOfChunkids, if_pos h, if_neg hv]
      rfl
  case PreloadDependency =>
    refine ⟨⟨0, some sampleZeroBytes⟩, (), ⟨8, some sampleZeroBytes⟩, ?_, by decide⟩
    simp only [AssetHeader.GatedStep.specifiedGate] at h
    simp only [AssetHeader.GatedSteps.step, AssetHeader.gatedSteps,
      Archive.Ue4Version.PreloadDependenciesInCookedExports, decide_eq_true h]
    rfl

/-- A step whose gate is not met reads nothing and skips nothing. -/
theorem AssetHeader.gatedSteps_isNoOp (fileVersion : Int) (packageHasEditorOnlyData : Bool)
    (step : AssetHeader.GatedStep)
    (h : ¬ AssetHeader.GatedStep.specifiedGate fileVersion packageHasEditorOnlyData step) :
    Decoder.IsNoOp ((AssetHeader.gatedSteps fileVersion).step packageHasEditorOnlyData step) := by
  intro r
  refine ⟨(), ?_⟩
  cases step
  case NameHash =>
    simp only [AssetHeader.GatedStep.specifiedGate] at h
    simp only [AssetHeader.GatedSteps.step, AssetHeader.gatedSteps,
      Archive.Ue4Version.NameHashesSerialized, if_neg h]
    rfl
  case LocalizationId =>
    simp only [AssetHeader.GatedStep.specifiedGate] at h
    simp only [AssetHeader.GatedSteps.step, AssetHeader.gatedSteps,
      Archive.Ue4Version.AddedPackageSummaryLocalizationId, if_neg h]
    rfl
  case GatherableTextData =>
    simp only [AssetHeader.GatedStep.specifiedGate] at h
    simp only [AssetHeader.GatedSteps.step, AssetHeader.gatedSteps,
      Archive.Ue4Version.SerializeTextInPackages, decide_eq_false h]
    rfl
  case ExportTemplateIndex =>
    simp only [AssetHeader.GatedStep.specifiedGate] at h
    simp only [AssetHeader.GatedSteps.step, AssetHeader.gatedSteps,
      Archive.Ue4Version.TemplateindexInCookedExports, if_neg h]
    rfl
  case ExportSerial =>
    exact absurd trivial h
  case ExportNotAlwaysLoadedForEditorGame =>
    simp only [AssetHeader.GatedStep.specifiedGate] at h
    simp only [AssetHeader.GatedSteps.step, AssetHeader.gatedSteps,
      Archive.Ue4Version.LoadForEditorGame, if_neg h]
    rfl
  case ExportIsAsset =>
    simp only [AssetHeader.GatedStep.specifiedGate] at h
    simp only [AssetHeader.GatedSteps.step, AssetHeader.gatedSteps,
      Archive.Ue4Version.CookedAssetsInEditorSupport, if_neg h]
    rfl
  case ExportDependencies =>
    simp only [AssetHeader.GatedStep.specifiedGate] at h
    simp only [AssetHeader.GatedSteps.step, AssetHeader.gatedSteps,
      Archive.Ue4Version.PreloadDependenciesInCookedExports, if_neg h]
    rfl
  case ImportPackageName =>
    simp only [AssetHeader.GatedStep.specifiedGate] at h
    have hn : ¬ (packageHasEditorOnlyData = true ∧ fileVersion ≥ 520) :=
      fun hc => h (And.intro hc.2 hc.1)
    simp only [AssetHeader.GatedSteps.step, AssetHeader.gatedSteps,
      Archive.Ue4Version.NonOuterPackageImport, if_neg hn]
    rfl
  case SoftPackageReferences =>
    simp only [AssetHeader.GatedStep.specifiedGate] at h
    simp only [AssetHeader.GatedSteps.step, AssetHeader.gatedSteps,
      Archive.Ue4Version.AddStringAssetReferencesMap, decide_eq_false h]
    rfl
  case SearchableNamesOffset =>
    simp only [AssetHeader.GatedStep.specifiedGate] at h
    simp only [AssetHeader.GatedSteps.step, AssetHeader.gatedSteps,
      Archive.Ue4Version.AddedSearchableNames, if_neg h]
    rfl
  case PersistentGuid =>
    simp only [AssetHeader.GatedStep.specifiedGate] at h
    simp only [AssetHeader.GatedSteps.step, AssetHeader.gatedSteps,
      Archive.Ue4Version.AddedPackageOwner, if_neg h]
    rfl
  case OwnerPersistentGuid =>
    simp only [AssetHeader.GatedStep.specifiedGate] at h
    by_cases hc : fileVersion ≥ 518 ∧ packageHasEditorOnlyData = true
    · have hv : ¬ fileVersion < 520 := fun hlt => h (And.intro hc.1 (And.intro hlt hc.2))
      simp only [AssetHeader.GatedSteps.step, AssetHeader.gatedSteps,
        Archive.Ue4Version.AddedPackageOwner, Archive.Ue4Version.NonOuterPackageImport,
        if_pos hc, if_neg hv]
      rfl
    · simp only [AssetHeader.GatedSteps.step, AssetHeader.gatedSteps,
        Archive.Ue4Version.AddedPackageOwner, if_neg hc]
      rfl
  case SavedByEngineVersion =>
    exact absurd trivial h
  case CompatibleWithEngineVersion =>
    simp only [AssetHeader.GatedStep.specifiedGate] at h
    simp only [AssetHeader.GatedSteps.step, AssetHeader.gatedSteps,
      Archive.Ue4Version.PackageSummaryHasCompatibleEngineVersion, if_neg h]
    rfl
  case WorldTileInfoDataOffset =>
    simp only [AssetHeader.GatedStep.specifiedGate] at h
    simp only [AssetHeader.GatedSteps.step, AssetHeader.gatedSteps,
      Archive.Ue4Version.WorldLevelInfo, if_neg h]
    rfl
  case ChunkIds =>
    simp only [AssetHeader.GatedStep.specifiedGate] at h
    simp only [AssetHeader.GatedSteps.step, AssetHeader.gatedSteps,
      Archive.Ue4Version.AddedChunkidToAssetdataAndUpackage, if_neg h]
    rfl
  case PreloadDependency =>
    simp only [AssetHeader.GatedStep.specifiedGate] at h
    simp only [AssetHeader.GatedSteps.step, AssetHeader.gatedSteps,
      Archive.Ue4Version.PreloadDependenciesInCookedExports, decide_eq_false h]
    rfl

theorem AssetHeader.gatedSteps_consumes_iff (fileVersion : Int)
    (packageHasEditorOnlyData : Bool) (step : AssetHeader.GatedStep) :
    Decoder.Consumes ((AssetHeader.gatedSteps fileVersion).step packageHasEditorOnlyData step)
      ↔ AssetHeader.GatedStep.specifiedGate fileVersion packageHasEditorOnlyData step := by
  constructor
  · intro hc
    by_contra hn
    exact Decoder.not_consumes_of_isNoOp
      (AssetHeader.gatedSteps_isNoOp fileVersion packageHasEditorOnlyData step hn) hc
  · exact AssetHeader.gatedSteps_consumes fileVersion packageHasEditorOnlyData step

theorem AssetHeader.specifiedGate_mono (v w : Int) (packageHasEditorOnlyData : Bool)
    (step : AssetHeader.GatedStep) (hvw : v ≤ w)
    (hstep : step ≠ AssetHeader.GatedStep.OwnerPersistentGuid)
    (h : AssetHeader.GatedStep.specifiedGate v packageHasEditorOnlyData step) :
    AssetHeader.GatedStep.specifiedGate w packageHasEditorOnlyData step := by
  cases step <;> simp only [AssetHeader.GatedStep.specifiedGate, ne_eq, not_true_eq_false]
    at h hstep ⊢ <;>
    first
      | omega
      | exact ⟨by omega, h.2⟩

/-! ## The claims -/

/-- C1: inside the buffer every primitive read returns the little-endian value
of the bytes at the cursor (two's complement for the signed types) and leaves
the cursor right after them. -/
theorem C1_primitive_read_inside (data : List Byte) (p : Nat) :
    (p + 1 ≤ data.length →
      BinaryReader.ReadByte ⟨p, some data⟩ = Outcome.ok (data.getD p 0, ⟨p + 1, some data⟩)
      ∧ (data.getD p 0).val = unsignedAt data p 1) ∧
    (p + 2 ≤ data.length →
      BinaryReader.ReadUint16 ⟨p, some data⟩
        = Outcome.ok (unsignedAt data p 2, ⟨p + 2, some data⟩) ∧
      BinaryReader.ReadInt16 ⟨p, some data⟩
        = Outcome.ok (signedAt data p 2, ⟨p + 2, some data⟩)) ∧
    (p + 4 ≤ data.length →
      BinaryReader.ReadUint32 ⟨p, some data⟩
        = Outcome.ok (unsignedAt data p 4, ⟨p + 4, some data⟩) ∧
      BinaryReader.ReadInt32 ⟨p, some data⟩
        = Outcome.ok (signedAt data p 4, ⟨p + 4, some data⟩)) ∧
    (p + 8 ≤ data.length →
      BinaryReader.ReadUint64 ⟨p, some data⟩
        = Outcome.ok (unsignedAt data p 8, ⟨p + 8, some data⟩) ∧
      BinaryReader.ReadInt64 ⟨p, some data⟩
        = Outcome.ok (signedAt data p 8, ⟨p + 8, some data⟩)) := by
  refine ⟨fun h => ⟨ReadByte_inside data p h, (unsignedAt_one data p).symm⟩,
    fun h => ⟨?_, ?_⟩, fun h => ⟨ReadUint32_inside data p h, ReadInt32_inside data p h⟩,
    fun h => ⟨?_, ?_⟩⟩
  · simp [BinaryReader.ReadUint16, readPrimitive_inside data p 2 h]
  · simp [BinaryReader.ReadInt16, Decoder.map_apply, readPrimitive_inside data p 2 h,
      ← toSigned_eq]
  · simp [BinaryReader.ReadUint64, readPrimitive_inside data p 8 h]
  · simp [BinaryReader.ReadInt64, Decoder.map_apply, readPrimitive_inside data p 8 h,
      ← toSigned_eq]

/-- C1 at the buffer `09 fd ff ff ff 07 00 00 80 01`, cursor 1. -/
theorem C1_primitive_read_inside_witness :
    BinaryReader.ReadByte ⟨1, some [9, 0xfd, 0xff, 0xff, 0xff, 7, 0, 0, 0x80, 1]⟩
      = Outcome.ok (0xfd, ⟨2, some [9, 0xfd, 0xff, 0xff, 0xff, 7, 0, 0, 0x80, 1]⟩) ∧
    BinaryReader.ReadInt16 ⟨1, some [9, 0xfd, 0xff, 0xff, 0xff, 7, 0, 0, 0x80, 1]⟩
      = Outcome.ok (signedAt [9, 0xfd, 0xff, 0xff, 0xff, 7, 0, 0, 0x80, 1] 1 2,
          ⟨3, some [9, 0xfd, 0xff, 0xff, 0xff, 7, 0, 0, 0x80, 1]⟩) ∧
    BinaryReader.ReadInt32 ⟨1, some [9, 0xfd, 0xff, 0xff, 0xff, 7, 0, 0, 0x80, 1]⟩
      = Outcome.ok (signedAt [9, 0xfd, 0xff, 0xff, 0xff, 7, 0, 0, 0x80, 1] 1 4,
          ⟨5, some [9, 0xfd, 0xff, 0xff, 0xff, 7, 0, 0, 0x80, 1]⟩) ∧
    BinaryReader.ReadInt64 ⟨1, some [9, 0xfd, 0xff, 0xff, 0xff, 7, 0, 0, 0x80, 1]⟩
      = Outcome.ok (signedAt [9, 0xfd, 0xff, 0xff, 0xff, 7, 0, 0, 0x80, 1] 1 8,
          ⟨9, some [9, 0xfd, 0xff, 0xff, 0xff, 7, 0, 0, 0x80, 1]⟩) :=
  ⟨((C1_primitive_read_inside _ 1).1 (by decide)).1,
   ((C1_primitive_read_inside _ 1).2.1 (by decide)).2,
   ((C1_primitive_read_inside _ 1).2.2.1 (by decide)).2,
   ((C1_primitive_read_inside _ 1).2.2.2 (by decide)).2⟩

/-- C2, as stated, fails: on the two-byte buffer `01 02` a four-byte read at
cursor 1 does not end in a reported error; it is an unchecked access past the
end of the buffer. -/
theorem C2_counterexample :
    ¬ (BinaryReader.ReadInt32 ⟨1, some [1, 2]⟩).isReportedError ∧
    BinaryReader.ReadInt32 ⟨1, some [1, 2]⟩ = Outcome.undefined := by
  have h : BinaryReader.ReadInt32 ⟨1, some [1, 2]⟩ = Outcome.undefined := by decide
  refine ⟨?_, h⟩
  rintro ⟨e, he⟩
  rw [h] at he
  cases he

/-- C2 amended: a primitive read for which fewer than `w` bytes remain is an
unchecked access past the end of the buffer, which is undefined behaviour and no
reported error; so is a string read whose declared length (`L ≥ 1` bytes, or
`M = -L` code units) runs past the end. -/
theorem C2_read_outside_is_undefined (data : List Byte) (p : Nat) :
    (∀ w, data.length < p + w →
      BinaryReader.readPrimitive w ⟨p, some data⟩ = Outcome.undefined) ∧
    (data.length < p + 1 → BinaryReader.ReadByte ⟨p, some data⟩ = Outcome.undefined) ∧
    (data.length < p + 2 →
      BinaryReader.ReadUint16 ⟨p, some data⟩ = Outcome.undefined ∧
      BinaryReader.ReadInt16 ⟨p, some data⟩ = Outcome.undefined) ∧
    (data.length < p + 4 →
      BinaryReader.ReadUint32 ⟨p, some data⟩ = Outcome.undefined ∧
      BinaryReader.ReadInt32 ⟨p, some data⟩ = Outcome.undefined) ∧
    (data.length < p + 8 →
      BinaryReader.ReadUint64 ⟨p, some data⟩ = Outcome.undefined ∧
      BinaryReader.ReadInt64 ⟨p, some data⟩ = Outcome.undefined) ∧
    (∀ L : Nat, p + 4 ≤ data.length → signedAt data p 4 = (L : Int) → 1 ≤ L →
      data.length < p + 4 + L →
      BinaryReader.ReadInlineUnrealString ⟨p, some data⟩ = Outcome.undefined) ∧
    (∀ M : Nat, p + 4 ≤ data.length → signedAt data p 4 = -(M : Int) → 1 ≤ M →
      data.length < p + 4 + 2 * M →
      BinaryReader.ReadInlineUnrealString ⟨p, some data⟩ = Outcome.undefined) := by
  refine ⟨fun w h => readPrimitive_outside data p w h, fun h => ReadByte_outside data p h,
    fun h => ⟨?_, ?_⟩, fun h => ⟨?_, ReadInt32_outside data p h⟩, fun h => ⟨?_, ?_⟩, ?_, ?_⟩
  · simp [BinaryReader.ReadUint16, readPrimitive_outside data p 2 h]
  · simp [BinaryReader.ReadInt16, Decoder.map_apply, readPrimitive_outside data p 2 h]
  · simp [BinaryReader.ReadUint32, readPrimitive_outside data p 4 h]
  · simp [BinaryReader.ReadUint64, readPrimitive_outside data p 8 h]
  · simp [BinaryReader.ReadInt64, Decoder.map_apply, readPrimitive_outside data p 8 h]
  · intro L h4 hL h1 h
    have hr := signedAt_four_range data p
    rw [ReadInlineUnrealString_unfold data p h4, hL, if_neg (by omega)]
    exact readUtf8String_outside data (p + 4) L (by omega) (by omega) (by omega)
  · intro M h4 hM h1 h
    have hr := signedAt_four_range data p
    rw [ReadInlineUnrealString_unfold data p h4, hM, if_pos (by omega)]
    by_cases hm : (M : Int) < 2 ^ 31
    · rw [neg_neg, checkedInt32_inside _ _ (by omega) hm]
      simp only [Outcome.bind_ok]
      exact readUcs2String_outside data (p + 4) M (by omega) (by omega)
    · rw [neg_neg, checkedInt32_outside _ _ (by omega)]
      rfl

/-- C2 amended, at the buffers `01 02` (a four-byte read at cursor 1) and
`05 00 00 00 41` (a string of declared length 5 with one byte left). -/
theorem C2_read_outside_is_undefined_witness :
    BinaryReader.ReadInt32 ⟨1, some [1, 2]⟩ = Outcome.undefined ∧
    BinaryReader.ReadInlineUnrealString ⟨0, some [5, 0, 0, 0, 0x41]⟩ = Outcome.undefined :=
  ⟨((C2_read_outside_is_undefined [1, 2] 1).2.2.2.1 (by decide)).2,
   (C2_read_outside_is_undefined [5, 0, 0, 0, 0x41] 0).2.2.2.2.2.1 5 (by decide)
     (signedAt_encodeUint32 5 [0x41] (by norm_num)) (by decide) (by decide)⟩

/-- C3: with a length prefix `L ≥ 1` and `L` bytes after it, the string read
returns the first `L - 1` of those bytes and leaves the cursor `4 + L` further;
the last of the `L` bytes is consumed and does not enter the result. -/
theorem C3_string_positive_length (data : List Byte) (p L : Nat)
    (hL : signedAt data p 4 = (L : Int)) (h1 : 1 ≤ L) (h : p + 4 + L ≤ data.length) :
    BinaryReader.ReadInlineUnrealString ⟨p, some data⟩
      = Outcome.ok ((data.drop (p + 4)).take (L - 1), ⟨p + 4 + L, some data⟩) ∧
    ((data.drop (p + 4)).take (L - 1)).length = L - 1 := by
  have hr := signedAt_four_range data p
  have e : ((L : Int) - 1).toNat = L - 1 := by omega
  constructor
  · rw [ReadInlineUnrealString_unfold data p (by omega), hL, if_neg (by omega),
      readUtf8String_inside data (p + 4) L (by omega) (by omega) (by omega), e]
    have : p + 4 + (L - 1) + 1 = p + 4 + L := by omega
    rw [this]
  · simp
    omega

/-- C3 at the buffer `07 | 03 00 00 00 | 41 42 58 | 09`, cursor 1: the result is
`41 42` although the third byte is not NUL. -/
theorem C3_string_positive_length_witness :
    BinaryReader.ReadInlineUnrealString ⟨1, some [7, 3, 0, 0, 0, 0x41, 0x42, 0x58, 9]⟩
      = Outcome.ok ([0x41, 0x42], ⟨8, some [7, 3, 0, 0, 0, 0x41, 0x42, 0x58, 9]⟩) :=
  (C3_string_positive_length [7, 3, 0, 0, 0, 0x41, 0x42, 0x58, 9] 1 3
    (by decide) (by decide) (by decide)).1

/-- C4: with a length prefix of 0 the source still runs the terminator read: on
`00 00 00 00 41` the string is empty and the cursor ends at 5, not 4; and when
nothing follows the prefix the read runs past the end of the buffer. -/
theorem C4_zero_length_consumes_a_byte :
    BinaryReader.ReadInlineUnrealString ⟨0, some [0, 0, 0, 0, 0x41]⟩
      = Outcome.ok ([], ⟨5, some [0, 0, 0, 0, 0x41]⟩) ∧
    BinaryReader.ReadInlineUnrealString ⟨0, some [0, 0, 0, 0]⟩ = Outcome.undefined := by
  constructor <;> decide

/-- C5, as stated, fails for long strings: with the prefix `-(2^30 + 1)` and
`2 * (2^30 + 1)` bytes after it, the loop bound `(length - 1) * 2` overflows
`int` and the call does not return the string. -/
theorem C5_counterexample :
    signedAt ([0xff, 0xff, 0xff, 0xbf] ++ List.replicate (2 ^ 31 + 2) (0 : Byte)) 0 4
      = -((2 ^ 30 + 1 : Nat) : Int) ∧
    0 + 4 + 2 * (2 ^ 30 + 1)
      ≤ ([0xff, 0xff, 0xff, 0xbf] ++ List.replicate (2 ^ 31 + 2) (0 : Byte)).length ∧
    BinaryReader.ReadInlineUnrealString
        ⟨0, some ([0xff, 0xff, 0xff, 0xbf] ++ List.replicate (2 ^ 31 + 2) (0 : Byte))⟩
      = Outcome.undefined := by
  have hlen : ([0xff, 0xff, 0xff, 0xbf] ++ List.replicate (2 ^ 31 + 2) (0 : Byte)).length
      = 4 + (2 ^ 31 + 2) := by
    rw [List.length_append, List.length_replicate]
    rfl
  refine ⟨signedAt_prefix_bfffffff _, ?_, ?_⟩
  · rw [hlen]; norm_num
  · exact ReadInlineUnrealString_overflow _ 0 (2 ^ 30 + 1) (by rw [hlen]; norm_num)
      (signedAt_prefix_bfffffff _) (by norm_num)

/-- C5 amended: with a prefix `-M`, `1 ≤ M ≤ 2^30`, and `2 * M` bytes after it,
the string read returns the transcoding of the first `M - 1` code units and
leaves the cursor `4 + 2 * M` further; a field of length -3 holding `H`, `i`,
NUL decodes to `Hi`. -/
theorem C5_string_negative_length (data : List Byte) (p M : Nat)
    (hM : signedAt data p 4 = -(M : Int)) (h1 : 1 ≤ M) (h30 : M ≤ 2 ^ 30)
    (h : p + 4 + 2 * M ≤ data.length) :
    BinaryReader.ReadInlineUnrealString ⟨p, some data⟩
      = Outcome.ok (transcodeCharacterStringToUTF8 ((data.drop (p + 4)).take (2 * (M - 1))),
          ⟨p + 4 + 2 * M, some data⟩) ∧
    BinaryReader.ReadInlineUnrealString
        ⟨0, some [0xfd, 0xff, 0xff, 0xff, 0x48, 0, 0x69, 0, 0, 0]⟩
      = Outcome.ok ([0x48, 0x69], ⟨10, some [0xfd, 0xff, 0xff, 0xff, 0x48, 0, 0x69, 0, 0, 0]⟩) := by
  constructor
  · rw [ReadInlineUnrealString_unfold data p (by omega), hM, if_pos (by omega), neg_neg,
      checkedInt32_inside _ _ (by omega) (by omega)]
    simp only [Outcome.bind_ok]
    rw [readUcs2String_inside data (p + 4) M (by omega) (by omega) (by simpa using h)]
    simp
  · decide

/-- C5 amended, at the buffer `07 | fe ff ff ff | e9 00 | 00 00`, cursor 1: one
code unit U+00E9, transcoded to `c3 a9`. -/
theorem C5_string_negative_length_witness :
    BinaryReader.ReadInlineUnrealString ⟨1, some [7, 0xfe, 0xff, 0xff, 0xff, 0xe9, 0, 0, 0]⟩
      = Outcome.ok ([0xc3, 0xa9], ⟨9, some [7, 0xfe, 0xff, 0xff, 0xff, 0xe9, 0, 0, 0]⟩) :=
  (C5_string_negative_length [7, 0xfe, 0xff, 0xff, 0xff, 0xe9, 0, 0, 0] 1 2
    (by decide) (by decide) (by norm_num) (by decide)).1

/-- C6: a byte string `S` with `|S| + 1 ≤ 2^31 - 1`, written as the little-endian
length `|S| + 1`, the bytes of `S` and one NUL, decodes from position 0 to `S`
with the cursor at the end of the buffer. -/
theorem C6_string_round_trip (S : List Byte) (h : S.length + 1 ≤ 2 ^ 31 - 1) :
    BinaryReader.ReadInlineUnrealString ⟨0, some (encodeUint32 (S.length + 1) ++ (S ++ [0]))⟩
      = Outcome.ok (S, ⟨4 + S.length + 1, some (encodeUint32 (S.length + 1) ++ (S ++ [0]))⟩) ∧
    (encodeUint32 (S.length + 1) ++ (S ++ [0])).length = 4 + S.length + 1 := by
  have hlen : (encodeUint32 (S.length + 1) ++ (S ++ [0])).length = 4 + S.length + 1 := by
    simp [encodeUint32]
    omega
  have hL := signedAt_encodeUint32 (S.length + 1) (S ++ [0]) (by omega)
  have e : (((S.length + 1 : Nat) : Int) - 1).toNat = S.length := by omega
  refine ⟨?_, hlen⟩
  rw [ReadInlineUnrealString_unfold _ 0 (by omega), hL, if_neg (by omega),
    readUtf8String_inside _ (0 + 4) _ (by omega) (by omega) (by omega), e]
  have hd : (encodeUint32 (S.length + 1) ++ (S ++ [0])).drop (0 + 4) = S ++ [0] := by
    simp [encodeUint32]
  rw [hd, List.take_left' rfl]

/-- C6 at `S = 41 00 42` (a string holding a NUL byte). -/
theorem C6_string_round_trip_witness :
    BinaryReader.ReadInlineUnrealString ⟨0, some [4, 0, 0, 0, 0x41, 0, 0x42, 0]⟩
      = Outcome.ok ([0x41, 0, 0x42], ⟨8, some [4, 0, 0, 0, 0x41, 0, 0x42, 0]⟩) :=
  (C6_string_round_trip [0x41, 0, 0x42] (by norm_num)).1

/-- C7, as stated, fails for a negative count: on `ff ff ff ff | 00 00 00 00`
the count is -1, `resize` throws `std::length_error`, and no sequence and no
cursor at `p + 8` results. -/
theorem C7_counterexample :
    signedAt [0xff, 0xff, 0xff, 0xff, 0, 0, 0, 0] 0 4 = -1 ∧
    BinaryReader.ReadDeferredUnrealArray BinaryReader.ReadByte
        ⟨0, some [0xff, 0xff, 0xff, 0xff, 0, 0, 0, 0]⟩
      = Outcome.thrown CppException.length_error := by
  constructor <;> decide

/-- C7 amended: when the count `N ≥ 0` and the offset lie inside the buffer at
`p`, the deferred array read returns exactly the `N` elements decoded in
succession from the offset, and leaves the cursor at `p + 8` whatever the offset
and the bytes the element decodes consumed; and whenever it returns, it returns
such a sequence. -/
theorem C7_deferred_array {T : Type} (elementReader : Decoder T) (data : List Byte)
    (p N : Nat) (offset : Int) (h8 : p + 8 ≤ data.length)
    (hN : signedAt data p 4 = (N : Int)) (hO : signedAt data (p + 4) 4 = offset) :
    (∀ xs rEnd, DecodesInSuccession elementReader ⟨toSizeT offset, some data⟩ xs rEnd →
        xs.length = N →
        BinaryReader.ReadDeferredUnrealArray elementReader ⟨p, some data⟩
          = Outcome.ok (xs, { rEnd with SeekPos := p + 8 })) ∧
    (∀ xs r1, BinaryReader.ReadDeferredUnrealArray elementReader ⟨p, some data⟩
          = Outcome.ok (xs, r1) →
        xs.length = N ∧ r1.SeekPos = p + 8 ∧
        ∃ rEnd, DecodesInSuccession elementReader ⟨toSizeT offset, some data⟩ xs rEnd) := by
  have hunfold : BinaryReader.ReadDeferredUnrealArray elementReader ⟨p, some data⟩
      = (BinaryReader.readElements elementReader N [] ⟨toSizeT offset, some data⟩).bind
          (fun output => Outcome.ok (output.1, { output.2 with SeekPos := p + 8 })) := by
    rw [ReadDeferredUnrealArray_apply, ReadInt32_inside data p (by omega)]
    simp only [Outcome.bind_ok]
    rw [ReadInt32_inside data (p + 4) (by omega)]
    simp only [Outcome.bind_ok]
    rw [hN, hO, BinaryReader.readUnrealArray, if_neg (by omega)]
    simp [Nat.add_assoc]
  constructor
  · intro xs rEnd hs hlen
    rw [hunfold, ← hlen, readElements_of_succession elementReader hs []]
    simp
  · intro xs r1 hr
    rw [hunfold] at hr
    cases hre : BinaryReader.readElements elementReader N [] ⟨toSizeT offset, some data⟩ with
    | ok v =>
      rw [hre] at hr
      simp only [Outcome.bind_ok, Outcome.ok.injEq, Prod.mk.injEq] at hr
      obtain ⟨ys, hys, hlen, hsucc⟩ := succession_of_readElements elementReader N [] v.1 _ v.2 hre
      simp only [List.nil_append] at hys
      refine ⟨by rw [← hr.1, hys, hlen], by rw [← hr.2], v.2, ?_⟩
      rw [← hr.1, hys]
      exact hsucc
    | thrown e => rw [hre] at hr; cases hr
    | undefined => rw [hre] at hr; cases hr

/-- C7 amended, at the buffer `02 00 00 00 | 09 00 00 00 | 00 | 0a 0b | 0c` with
bytes as elements: the two elements come from offset 9 and the cursor returns
to 8. -/
theorem C7_deferred_array_witness :
    BinaryReader.ReadDeferredUnrealArray BinaryReader.ReadByte
        ⟨0, some [2, 0, 0, 0, 9, 0, 0, 0, 0, 0x0a, 0x0b, 0x0c]⟩
      = Outcome.ok ([0x0a, 0x0b], ⟨8, some [2, 0, 0, 0, 9, 0, 0, 0, 0, 0x0a, 0x0b, 0x0c]⟩) :=
  (C7_deferred_array BinaryReader.ReadByte [2, 0, 0, 0, 9, 0, 0, 0, 0, 0x0a, 0x0b, 0x0c] 0 2 9
    (by decide) (by decide) (by decide)).1 [0x0a, 0x0b]
    ⟨11, some [2, 0, 0, 0, 9, 0, 0, 0, 0, 0x0a, 0x0b, 0x0c]⟩
    (DecodesInSuccession.cons (s := ⟨10, some [2, 0, 0, 0, 9, 0, 0, 0, 0, 0x0a, 0x0b, 0x0c]⟩)
      (by decide)
      (DecodesInSuccession.cons (s := ⟨11, some [2, 0, 0, 0, 9, 0, 0, 0, 0, 0x0a, 0x0b, 0x0c]⟩)
        (by decide) (DecodesInSuccession.nil _)))
    rfl

/-- C8: `Archive::ReadFrom` reads magic, legacyVersion, one unused i32 and
fileVersion, then fileVersionUe5 exactly when legacyVersion ≤ -8 (otherwise it is
0 and nothing is read for it), then fileLicenseeVersion: 24 bytes in the first
case and 20 in the second. -/
theorem C8_archive_read (data : List Byte) (p : Nat) :
    (signedAt data (p + 4) 4 ≤ -8 → p + 24 ≤ data.length →
      Archive.ReadFrom ⟨p, some data⟩
        = Outcome.ok ({ Magic := unsignedAt data p 4,
                        LegacyVersion := signedAt data (p + 4) 4,
                        FileVersion := signedAt data (p + 12) 4,
                        FileVersionUe5 := signedAt data (p + 16) 4,
                        FileLicenseeVersion := signedAt data (p + 20) 4 },
                      ⟨p + 24, some data⟩)) ∧
    (¬ signedAt data (p + 4) 4 ≤ -8 → p + 20 ≤ data.length →
      Archive.ReadFrom ⟨p, some data⟩
        = Outcome.ok ({ Magic := unsignedAt data p 4,
                        LegacyVersion := signedAt data (p + 4) 4,
                        FileVersion := signedAt data (p + 12) 4,
                        FileVersionUe5 := 0,
                        FileLicenseeVersion := signedAt data (p + 16) 4 },
                      ⟨p + 20, some data⟩)) := by
  constructor
  · intro hl h
    simp (disch := omega) [Archive.ReadFrom, Decoder.bind_apply, Decoder.pure_apply,
      ReadUint32_inside, ReadInt32_inside, hl, Nat.add_assoc]
  · intro hl h
    simp (disch := omega) [Archive.ReadFrom, Decoder.bind_apply, Decoder.pure_apply,
      ReadUint32_inside, ReadInt32_inside, hl, Nat.add_assoc]

/-- C8 at a 24-byte preamble with legacyVersion -8 and a 20-byte preamble with
legacyVersion -7. -/
theorem C8_archive_read_witness :
    Archive.ReadFrom ⟨0, some [0xc1, 0x83, 0x2a, 0x9e, 0xf8, 0xff, 0xff, 0xff, 0, 0, 0, 0,
        0x0a, 0x02, 0, 0, 0xea, 0x03, 0, 0, 5, 0, 0, 0]⟩
      = Outcome.ok ({ Magic := 0x9E2A83C1, LegacyVersion := -8, FileVersion := 522,
                      FileVersionUe5 := 1002, FileLicenseeVersion := 5 },
          ⟨24, some [0xc1, 0x83, 0x2a, 0x9e, 0xf8, 0xff, 0xff, 0xff, 0, 0, 0, 0,
            0x0a, 0x02, 0, 0, 0xea, 0x03, 0, 0, 5, 0, 0, 0]⟩) ∧
    Archive.ReadFrom ⟨0, some [0xc1, 0x83, 0x2a, 0x9e, 0xf9, 0xff, 0xff, 0xff, 0, 0, 0, 0,
        0x0a, 0x02, 0, 0, 5, 0, 0, 0]⟩
      = Outcome.ok ({ Magic := 0x9E2A83C1, LegacyVersion := -7, FileVersion := 522,
                      FileVersionUe5 := 0, FileLicenseeVersion := 5 },
          ⟨20, some [0xc1, 0x83, 0x2a, 0x9e, 0xf9, 0xff, 0xff, 0xff, 0, 0, 0, 0,
            0x0a, 0x02, 0, 0, 5, 0, 0, 0]⟩) :=
  ⟨(C8_archive_read [0xc1, 0x83, 0x2a, 0x9e, 0xf8, 0xff, 0xff, 0xff, 0, 0, 0, 0,
      0x0a, 0x02, 0, 0, 0xea, 0x03, 0, 0, 5, 0, 0, 0] 0).1 (by decide) (by decide),
   (C8_archive_read [0xc1, 0x83, 0x2a, 0x9e, 0xf9, 0xff, 0xff, 0xff, 0, 0, 0, 0,
      0x0a, 0x02, 0, 0, 5, 0, 0, 0] 0).2 (by decide) (by decide)⟩

/-- C9: `AssetHeader::ReadFrom` starts with the custom-version block.  The count
is read first.  For legacyVersion < -5 every entry moves the cursor by 20 bytes
(in `size_t` arithmetic), so the block ends `4 + 20 * count` bytes after its
start; for legacyVersion ≥ -5 every entry moves the cursor by 20 bytes and then
decodes one inline string, which is dropped.  TotalHeaderSize is the i32 read
where the block ends. -/
theorem C9_custom_version_block (archive : Archive) (data : List Byte) (p : Nat)
    (hsize : data.length < sizeModulus) (h4 : p + 4 ≤ data.length) :
    (archive.LegacyVersion < -5 →
      (∀ r : BinaryReader, AssetHeader.skipCustomVersion archive.GetCustomVersionSerializationFormat r
          = Outcome.ok ((), { r with SeekPos := (r.SeekPos + 20) % sizeModulus })) ∧
      AssetHeader.readCustomVersionBlock archive ⟨p, some data⟩
        = Outcome.ok ((), ⟨(p + 4 + 20 * (signedAt data p 4).toNat) % sizeModulus, some data⟩)) ∧
    (¬ archive.LegacyVersion < -5 →
      (∀ r : BinaryReader, AssetHeader.skipCustomVersion archive.GetCustomVersionSerializationFormat r
          = (BinaryReader.ReadInlineUnrealString
              { r with SeekPos := (r.SeekPos + 20) % sizeModulus }).bind
              (fun s => Outcome.ok ((), s.2))) ∧
      (∀ units rEnd,
        DecodesInSuccession
          (AssetHeader.skipCustomVersion archive.GetCustomVersionSerializationFormat)
          ⟨p + 4, some data⟩ units rEnd →
        units.length = (signedAt data p 4).toNat →
        AssetHeader.readCustomVersionBlock archive ⟨p, some data⟩ = Outcome.ok ((), rEnd))) ∧
    (∀ h r1, AssetHeader.ReadFrom archive ⟨p, some data⟩ = Outcome.ok (h, r1) →
      ∃ rb rt, AssetHeader.readCustomVersionBlock archive ⟨p, some data⟩ = Outcome.ok ((), rb) ∧
        BinaryReader.ReadInt32 rb = Outcome.ok (h.TotalHeaderSize, rt)) := by
  have hblock : AssetHeader.readCustomVersionBlock archive ⟨p, some data⟩
      = AssetHeader.skipCustomVersions archive.GetCustomVersionSerializationFormat
          (signedAt data p 4).toNat ⟨p + 4, some data⟩ := by
    rw [AssetHeader.readCustomVersionBlock, Decoder.bind_apply, ReadInt32_inside data p h4]
    rfl
  have h20 : Archive.GuidCustomVersionPrefixSize = ((20 : Nat) : Int) := rfl
  have h20o : Archive.CustomVersionSize = ((20 : Nat) : Int) := rfl
  refine ⟨fun hl => ⟨fun r => ?_, ?_⟩, fun hl => ⟨fun r => ?_, fun units rEnd hs hlen => ?_⟩,
    fun h r1 hr => AssetHeader.ReadFrom_totalHeaderSize archive _ h r1 hr⟩
  · rw [Archive.GetCustomVersionSerializationFormat, if_pos hl, AssetHeader.skipCustomVersion,
      h20o, advanceSeekPos_apply]
  · rw [hblock, Archive.GetCustomVersionSerializationFormat, if_pos hl,
      skipCustomVersions_optimized _ _ (by show p + 4 < sizeModulus; omega)]
  · rw [Archive.GetCustomVersionSerializationFormat, if_neg hl, AssetHeader.skipCustomVersion,
      Decoder.bind_apply, h20, advanceSeekPos_apply]
    rfl
  · rw [hblock, ← hlen]
    exact skipCustomVersions_of_succession _ hs

/-- C9 at `sampleHeaderBytes` (legacyVersion -7: the block is 24 bytes and
TotalHeaderSize 42 is read at 24) and at `sampleGuidsBlock` (legacyVersion -5:
the entry ends after its string, at 30). -/
theorem C9_custom_version_block_witness :
    AssetHeader.readCustomVersionBlock { LegacyVersion := -7 } ⟨0, some sampleHeaderBytes⟩
      = Outcome.ok ((), ⟨24, some sampleHeaderBytes⟩) ∧
    AssetHeader.readCustomVersionBlock { LegacyVersion := -5 } ⟨0, some sampleGuidsBlock⟩
      = Outcome.ok ((), ⟨30, some sampleGuidsBlock⟩) ∧
    (∃ rb rt, AssetHeader.readCustomVersionBlock { LegacyVersion := -7 }
          ⟨0, some sampleHeaderBytes⟩ = Outcome.ok ((), rb) ∧
        BinaryReader.ReadInt32 rb = Outcome.ok (sampleHeader.TotalHeaderSize, rt)) :=
  ⟨((C9_custom_version_block { LegacyVersion := -7 } sampleHeaderBytes 0
      (by decide) (by decide)).1 (by decide)).2,
   ((C9_custom_version_block { LegacyVersion := -5 } sampleGuidsBlock 0
      (by decide) (by decide)).2.1 (by decide)).2 [()] ⟨30, some sampleGuidsBlock⟩
      (DecodesInSuccession.cons (s := ⟨30, some sampleGuidsBlock⟩) (by decide)
        (DecodesInSuccession.nil _)) (by decide),
   (C9_custom_version_block { LegacyVersion := -7 } sampleHeaderBytes 0
      (by decide) (by decide)).2.2 sampleHeader ⟨129, some sampleHeaderBytes⟩ (by decide!)⟩

/-- C10, as stated, fails: for a header whose only export has ClassIndex 0,
`ClassIndexToClassNameString` on that export's index does not end in a reported
error; it indexes `Imports` at position -1, an unchecked access outside the
vector. -/
theorem C10_counterexample :
    ¬ (sampleLookupHeader.ClassIndexToClassNameString 1).isReportedError ∧
    sampleLookupHeader.ClassIndexToClassNameString 1 = Outcome.undefined := by
  have h : sampleLookupHeader.ClassIndexToClassNameString 1 = Outcome.undefined := by decide
  refine ⟨?_, h⟩
  rintro ⟨e, he⟩
  rw [h] at he
  cases he

/-- C10 amended: the two lookups check no index.  For a header whose tables fit
a C++ vector, index 0, a positive index beyond the exports, a negative index
whose magnitude exceeds the imports, and a name reference whose ComparisonIndex
lies outside the name table all make the lookup index a vector out of range,
which is undefined behaviour and no reported error; so does the class-name
lookup of an export whose ClassIndex is 0. -/
theorem C10_lookup_outside_is_undefined (h : AssetHeader)
    (hn : h.Names.length < 2 ^ 63) (hi : h.Imports.length < 2 ^ 63) :
    (h.ClassIndexToClassNameString 0 = Outcome.undefined ∧
      h.ClassIndexToObjectNameString 0 = Outcome.undefined) ∧
    (∀ index : Int, index < 2 ^ 31 → (h.Exports.length : Int) < index →
      h.ClassIndexToClassNameString index = Outcome.undefined ∧
      h.ClassIndexToObjectNameString index = Outcome.undefined) ∧
    (∀ index : Int, -2 ^ 31 ≤ index → index < 0 → (h.Imports.length : Int) < -index →
      h.ClassIndexToClassNameString index = Outcome.undefined ∧
      h.ClassIndexToObjectNameString index = Outcome.undefined) ∧
    (∀ name : UnrealName, -2 ^ 31 ≤ name.ComparisonIndex → name.ComparisonIndex < 2 ^ 31 →
      (name.ComparisonIndex < 0 ∨ (h.Names.length : Int) ≤ name.ComparisonIndex) →
      h.NameToString name = Outcome.undefined) ∧
    (∀ (index : Int) (e : ObjectExport), 0 < index →
      vectorAt h.Exports (index - 1) = Outcome.ok e →
      (h.NameToString e.ObjectName = Outcome.undefined →
        h.ClassIndexToObjectNameString index = Outcome.undefined) ∧
      (h.ClassIndexToObjectNameString e.ClassIndex = Outcome.undefined →
        h.ClassIndexToClassNameString index = Outcome.undefined) ∧
      (e.ClassIndex = 0 → h.ClassIndexToClassNameString index = Outcome.undefined)) ∧
    (∀ (index : Int) (i : ObjectImport), -2 ^ 31 < index → index < 0 →
      vectorAt h.Imports (-index - 1) = Outcome.ok i →
      (h.NameToString i.ObjectName = Outcome.undefined →
        h.ClassIndexToObjectNameString index = Outcome.undefined) ∧
      (h.NameToString i.ClassName = Outcome.undefined →
        h.ClassIndexToClassNameString index = Outcome.undefined)) := by
  have hzero : h.ClassIndexToObjectNameString 0 = Outcome.undefined := by
    rw [AssetHeader.ClassIndexToObjectNameString, if_neg (by decide), Outcome.bind_unfold,
      Outcome.checkedInt32_in_range _ (by decide) (by decide)]
    simp only [Outcome.bind_ok]
    rw [Outcome.bind_unfold, vectorAt_negative _ _ (by decide) (by decide) hi]
    rfl
  refine ⟨⟨?_, hzero⟩, ?_, ?_, ?_, ?_, ?_⟩
  · rw [AssetHeader.ClassIndexToClassNameString, if_neg (by decide), Outcome.bind_unfold,
      Outcome.checkedInt32_in_range _ (by decide) (by decide)]
    simp only [Outcome.bind_ok]
    rw [Outcome.bind_unfold, vectorAt_negative _ _ (by decide) (by decide) hi]
    rfl
  · intro index h31 hlen
    have hv : vectorAt h.Exports (index - 1) = Outcome.undefined :=
      vectorAt_outside _ _ (by omega) (by omega) (by omega)
    constructor
    · rw [AssetHeader.ClassIndexToClassNameString, if_pos (by omega), Outcome.bind_unfold, hv]
      rfl
    · rw [AssetHeader.ClassIndexToObjectNameString, if_pos (by omega), Outcome.bind_unfold, hv]
      rfl
  · intro index h31 hneg hlen
    have hc : (Outcome.checkedInt32 (-index)).bind
        (fun negated => vectorAt h.Imports (negated - 1)) = Outcome.undefined := by
      by_cases hm : -index < 2 ^ 31
      · rw [Outcome.checkedInt32_in_range _ (by omega) hm]
        exact vectorAt_outside _ _ (by omega) (by omega) (by omega)
      · rw [Outcome.checkedInt32_overflow _ (by omega)]
        rfl
    constructor
    · rw [AssetHeader.ClassIndexToClassNameString, if_neg (by omega), Outcome.bind_unfold]
      cases hx : Outcome.checkedInt32 (-index) with
      | ok v =>
        rw [hx] at hc
        simp only [Outcome.bind_ok] at hc ⊢
        rw [Outcome.bind_unfold, hc]
        rfl
      | thrown e => rw [hx] at hc; cases hc
      | undefined => rfl
    · rw [AssetHeader.ClassIndexToObjectNameString, if_neg (by omega), Outcome.bind_unfold]
      cases hx : Outcome.checkedInt32 (-index) with
      | ok v =>
        rw [hx] at hc
        simp only [Outcome.bind_ok] at hc ⊢
        rw [Outcome.bind_unfold, hc]
        rfl
      | thrown e => rw [hx] at hc; cases hc
      | undefined => rfl
  · intro name h0 h1 hout
    rw [AssetHeader.NameToString]
    rcases hout with hneg | hbig
    · exact vectorAt_negative _ _ (by omega) hneg hn
    · exact vectorAt_outside _ _ (by omega) (by omega) hbig
  · intro index e hpos he
    refine ⟨fun hname => ?_, fun hobj => ?_, fun hci => ?_⟩
    · rw [AssetHeader.ClassIndexToObjectNameString, if_pos hpos, Outcome.bind_unfold, he]
      exact hname
    · rw [AssetHeader.ClassIndexToClassNameString, if_pos hpos, Outcome.bind_unfold, he]
      exact hobj
    · rw [AssetHeader.ClassIndexToClassNameString, if_pos hpos, Outcome.bind_unfold, he]
      simp only [Outcome.bind_ok]
      rw [hci]
      exact hzero
  · intro index i h31 hneg hi2
    have hc : Outcome.checkedInt32 (-index) = Outcome.ok (-index) :=
      Outcome.checkedInt32_in_range _ (by omega) (by omega)
    refine ⟨fun hname => ?_, fun hname => ?_⟩
    · rw [AssetHeader.ClassIndexToObjectNameString, if_neg (by omega), Outcome.bind_unfold, hc]
      simp only [Outcome.bind_ok]
      rw [Outcome.bind_unfold, hi2]
      exact hname
    · rw [AssetHeader.ClassIndexToClassNameString, if_neg (by omega), Outcome.bind_unfold, hc]
      simp only [Outcome.bind_ok]
      rw [Outcome.bind_unfold, hi2]
      exact hname

/-- C10 amended, at `sampleLookupHeader`: index 0, index 2 (one export), index -2
(one import), the export's object name (entry 5 of a one-entry table), the
import's class name (entry -1), and the export whose ClassIndex is 0. -/
theorem C10_lookup_outside_is_undefined_witness :
    sampleLookupHeader.ClassIndexToObjectNameString 0 = Outcome.undefined ∧
    sampleLookupHeader.ClassIndexToClassNameString 2 = Outcome.undefined ∧
    sampleLookupHeader.ClassIndexToObjectNameString (-2) = Outcome.undefined ∧
    sampleLookupHeader.ClassIndexToObjectNameString 1 = Outcome.undefined ∧
    sampleLookupHeader.ClassIndexToClassNameString (-1) = Outcome.undefined ∧
    sampleLookupHeader.ClassIndexToClassNameString 1 = Outcome.undefined :=
  ⟨(C10_lookup_outside_is_undefined sampleLookupHeader (by decide) (by decide)).1.2,
   ((C10_lookup_outside_is_undefined sampleLookupHeader (by decide) (by decide)).2.1 2
      (by decide) (by decide)).1,
   ((C10_lookup_outside_is_undefined sampleLookupHeader (by decide) (by decide)).2.2.1 (-2)
      (by decide) (by decide) (by decide)).2,
   ((C10_lookup_outside_is_undefined sampleLookupHeader (by decide) (by decide)).2.2.2.2.1 1
      { ClassIndex := 0, ObjectName := { ComparisonIndex := 5 } } (by decide) (by decide)).1
      ((C10_lookup_outside_is_undefined sampleLookupHeader (by decide) (by decide)).2.2.2.1
        { ComparisonIndex := 5 } (by decide) (by decide) (Or.inr (by decide))),
   ((C10_lookup_outside_is_undefined sampleLookupHeader (by decide) (by decide)).2.2.2.2.2 (-1)
      { ClassName := { ComparisonIndex := -1 } } (by decide) (by decide) (by decide)).2
      ((C10_lookup_outside_is_undefined sampleLookupHeader (by decide) (by decide)).2.2.2.1
        { ComparisonIndex := -1 } (by decide) (by decide) (Or.inl (by decide))),
   ((C10_lookup_outside_is_undefined sampleLookupHeader (by decide) (by decide)).2.2.2.2.1 1
      { ClassIndex := 0, ObjectName := { ComparisonIndex := 5 } } (by decide) (by decide)).2.2
      rfl⟩

/-- C11: when the lookups are in range, `ClassIndexToObjectNameString` returns
the name-table entry of the export's (index > 0) or import's (index < 0) object
name, and `ClassIndexToClassNameString` returns what
`ClassIndexToObjectNameString` returns for the export's ClassIndex (index > 0),
or the name-table entry of the import's class name (index < 0). -/
theorem C11_lookup_in_range (h : AssetHeader) (index : Int)
    (hlo : -2 ^ 31 < index) (hhi : index < 2 ^ 31) :
    (0 < index → ∀ e : ObjectExport, h.Exports.get? (index - 1).toNat = some e →
      h.ClassIndexToClassNameString index = h.ClassIndexToObjectNameString e.ClassIndex ∧
      (∀ s : List Byte, 0 ≤ e.ObjectName.ComparisonIndex →
        e.ObjectName.ComparisonIndex < 2 ^ 31 →
        h.Names.get? e.ObjectName.ComparisonIndex.toNat = some s →
        h.ClassIndexToObjectNameString index = Outcome.ok s)) ∧
    (index < 0 → ∀ i : ObjectImport, h.Imports.get? (-index - 1).toNat = some i →
      (∀ s : List Byte, 0 ≤ i.ObjectName.ComparisonIndex →
        i.ObjectName.ComparisonIndex < 2 ^ 31 →
        h.Names.get? i.ObjectName.ComparisonIndex.toNat = some s →
        h.ClassIndexToObjectNameString index = Outcome.ok s) ∧
      (∀ s : List Byte, 0 ≤ i.ClassName.ComparisonIndex →
        i.ClassName.ComparisonIndex < 2 ^ 31 →
        h.Names.get? i.ClassName.ComparisonIndex.toNat = some s →
        h.ClassIndexToClassNameString index = Outcome.ok s)) := by
  constructor
  · intro hpos e he
    have hv : vectorAt h.Exports (index - 1) = Outcome.ok e :=
      vectorAt_inside _ _ _ (by omega) (by omega) he
    constructor
    · rw [AssetHeader.ClassIndexToClassNameString, if_pos hpos, Outcome.bind_unfold, hv]
      rfl
    · intro s h0 h1 hs
      rw [AssetHeader.ClassIndexToObjectNameString, if_pos hpos, Outcome.bind_unfold, hv]
      exact vectorAt_inside _ _ _ h0 (by omega) hs
  · intro hneg i hi
    have hc : Outcome.checkedInt32 (-index) = Outcome.ok (-index) :=
      Outcome.checkedInt32_in_range _ (by omega) (by omega)
    have hv : vectorAt h.Imports (-index - 1) = Outcome.ok i :=
      vectorAt_inside _ _ _ (by omega) (by omega) hi
    constructor
    · intro s h0 h1 hs
      rw [AssetHeader.ClassIndexToObjectNameString, if_neg (by omega), Outcome.bind_unfold, hc]
      simp only [Outcome.bind_ok]
      rw [Outcome.bind_unfold, hv]
      exact vectorAt_inside _ _ _ h0 (by omega) hs
    · intro s h0 h1 hs
      rw [AssetHeader.ClassIndexToClassNameString, if_neg (by omega), Outcome.bind_unfold, hc]
      simp only [Outcome.bind_ok]
      rw [Outcome.bind_unfold, hv]
      exact vectorAt_inside _ _ _ h0 (by omega) hs

/-- C11 at `sampleSelfClassHeader`: export 1 is named `Foo`; import 1 has object
name `Foo` and class name `Bar`. -/
theorem C11_lookup_in_range_witness :
    sampleSelfClassHeader.ClassIndexToObjectNameString 1 = Outcome.ok [0x46, 0x6f, 0x6f] ∧
    sampleSelfClassHeader.ClassIndexToClassNameString 1
      = sampleSelfClassHeader.ClassIndexToObjectNameString 1 ∧
    sampleSelfClassHeader.ClassIndexToObjectNameString (-1) = Outcome.ok [0x46, 0x6f, 0x6f] ∧
    sampleSelfClassHeader.ClassIndexToClassNameString (-1) = Outcome.ok [0x42, 0x61, 0x72] :=
  ⟨((C11_lookup_in_range sampleSelfClassHeader 1 (by decide) (by decide)).1 (by decide)
      { ClassIndex := 1, ObjectName := { ComparisonIndex := 0 } } (by decide)).2
      [0x46, 0x6f, 0x6f] (by decide) (by decide) (by decide),
   ((C11_lookup_in_range sampleSelfClassHeader 1 (by decide) (by decide)).1 (by decide)
      { ClassIndex := 1, ObjectName := { ComparisonIndex := 0 } } (by decide)).1,
   ((C11_lookup_in_range sampleSelfClassHeader (-1) (by decide) (by decide)).2 (by decide)
      { ObjectName := { ComparisonIndex := 0 }, ClassName := { ComparisonIndex := 1 } }
      (by decide)).1 [0x46, 0x6f, 0x6f] (by decide) (by decide) (by decide),
   ((C11_lookup_in_range sampleSelfClassHeader (-1) (by decide) (by decide)).2 (by decide)
      { ObjectName := { ComparisonIndex := 0 }, ClassName := { ComparisonIndex := 1 } }
      (by decide)).2 [0x42, 0x61, 0x72] (by decide) (by decide) (by decide)⟩

/-- C12, as stated, fails: in `sampleSelfClassHeader` export 1 has ClassIndex 1,
and class-name resolution of index 1 is not rejected: it returns the name `Foo`
of that export. -/
theorem C12_counterexample :
    sampleSelfClassHeader.Exports.get? 0
      = some { ClassIndex := 1, ObjectName := { ComparisonIndex := 0 } } ∧
    sampleSelfClassHeader.ClassIndexToClassNameString 1 = Outcome.ok [0x46, 0x6f, 0x6f] := by
  constructor <;> decide

/-- C12 amended: for an export index whose ClassIndex is that same index,
class-name resolution neither loops nor is rejected: the lookup makes one call
of `ClassIndexToObjectNameString`, which does not call back, and the result is
the export's own object name. -/
theorem C12_self_class_index (h : AssetHeader) (index : Int) (e : ObjectExport)
    (hpos : 0 < index) (hhi : index < 2 ^ 31)
    (he : h.Exports.get? (index - 1).toNat = some e) (hself : e.ClassIndex = index) :
    h.ClassIndexToClassNameString index = h.NameToString e.ObjectName ∧
    h.ClassIndexToClassNameString index = h.ClassIndexToObjectNameString index := by
  have hv : vectorAt h.Exports (index - 1) = Outcome.ok e :=
    vectorAt_inside _ _ _ (by omega) (by omega) he
  have hobj : h.ClassIndexToObjectNameString index = h.NameToString e.ObjectName := by
    rw [AssetHeader.ClassIndexToObjectNameString, if_pos hpos, Outcome.bind_unfold, hv]
    rfl
  have hcls : h.ClassIndexToClassNameString index = h.ClassIndexToObjectNameString index := by
    rw [AssetHeader.ClassIndexToClassNameString, if_pos hpos, Outcome.bind_unfold, hv]
    simp only [Outcome.bind_ok]
    rw [hself]
  exact ⟨by rw [hcls, hobj], hcls⟩

/-- C12 amended, at `sampleSelfClassHeader`, index 1. -/
theorem C12_self_class_index_witness :
    sampleSelfClassHeader.ClassIndexToClassNameString 1
      = sampleSelfClassHeader.NameToString { ComparisonIndex := 0 } :=
  (C12_self_class_index sampleSelfClassHeader 1
    { ClassIndex := 1, ObjectName := { ComparisonIndex := 0 } }
    (by decide) (by decide) (by decide) rfl).1

/-- C13: when the name at the cursor resolves to `"None"`, the tag read stops
after the 8 bytes of the name: the cursor is at `p + 8` and every other field
of the tag keeps its default. -/
theorem C13_sentinel_tag (archive : Archive) (assetHeader : AssetHeader)
    (data : List Byte) (p : Nat) (h8 : p + 8 ≤ data.length)
    (hnone : assetHeader.NameToString (nameAt data p) = Outcome.ok (literal "None")) :
    UnrealPropertyTag.ReadFrom archive assetHeader ⟨p, some data⟩
      = Outcome.ok ({ Name := nameAt data p, Type_ := { ComparisonIndex := 0, Number := 0 },
                      Size := 0, ArrayIndex := 0, ExtraData := none, PropertyGuid := none },
                    ⟨p + 8, some data⟩) :=
  UnrealPropertyTag.ReadFrom_sentinel archive assetHeader data p h8 hnone

/-- C13 at the stream `07 | 00 00 00 00 00 00 00 00 | 09 09`, cursor 1, with the
name table of `sampleTagHeader`. -/
theorem C13_sentinel_tag_witness :
    UnrealPropertyTag.ReadFrom sampleArchive sampleTagHeader
        ⟨1, some [7, 0, 0, 0, 0, 0, 0, 0, 0, 9, 9]⟩
      = Outcome.ok ({ Name := { ComparisonIndex := 0, Number := 0 } },
          ⟨9, some [7, 0, 0, 0, 0, 0, 0, 0, 0, 9, 9]⟩) :=
  C13_sentinel_tag sampleArchive sampleTagHeader [7, 0, 0, 0, 0, 0, 0, 0, 0, 9, 9] 1
    (by decide) (by decide)

/-- C14, as stated, fails: in `sampleBoolTag` the name has instance number 1,
and the extra data of the `BoolProperty` type is decoded all the same (one byte
consumed, cursor 26 with the GUID presence byte); the test is on the instance
number of the type. -/
theorem C14_counterexample :
    (nameAt sampleBoolTag 0).Number = 1 ∧
    UnrealPropertyTag.ReadFrom sampleArchive sampleTagHeader ⟨0, some sampleBoolTag⟩
      = Outcome.ok ({ Name := { ComparisonIndex := 4, Number := 1 },
                      Type_ := { ComparisonIndex := 2, Number := 0 },
                      Size := 0, ArrayIndex := 0,
                      ExtraData := some (UnrealPropertyTag.ExtraDataVariant.Bool
                        { BoolVal := true }),
                      PropertyGuid := none },
                    ⟨26, some sampleBoolTag⟩) := by
  constructor <;> decide

/-- C14 amended: for a tag whose name is not `"None"`, extra data is decoded only
if the instance number of the tag's type is 0.  When that number is not 0,
ExtraData is absent and the trailing-GUID read starts right after ArrayIndex, at
`p + 24`, whatever the type string; when it is 0 the dispatch on the type string
runs there. -/
theorem C14_extra_data_gate (archive : Archive) (assetHeader : AssetHeader)
    (data : List Byte) (p : Nat) (nameStr typeStr : List Byte) (h24 : p + 24 ≤ data.length)
    (hname : assetHeader.NameToString (nameAt data p) = Outcome.ok nameStr)
    (hnn : nameStr ≠ literal "None")
    (htype : assetHeader.NameToString (nameAt data (p + 8)) = Outcome.ok typeStr) :
    ((nameAt data (p + 8)).Number ≠ 0 →
      UnrealPropertyTag.ReadFrom archive assetHeader ⟨p, some data⟩
        = (UnrealPropertyTag.readPropertyGuid archive ⟨p + 24, some data⟩).bind
            (fun propertyGuid =>
              Outcome.ok ({ Name := nameAt data p, Type_ := nameAt data (p + 8),
                            Size := signedAt data (p + 16) 4,
                            ArrayIndex := signedAt data (p + 20) 4,
                            ExtraData := none, PropertyGuid := propertyGuid.1 },
                          propertyGuid.2))) ∧
    ((nameAt data (p + 8)).Number = 0 →
      UnrealPropertyTag.ReadFrom archive assetHeader ⟨p, some data⟩
        = (UnrealPropertyTag.readExtraData archive typeStr ⟨p + 24, some data⟩).bind
            (fun extraData =>
              (UnrealPropertyTag.readPropertyGuid archive extraData.2).bind
                (fun propertyGuid =>
                  Outcome.ok ({ Name := nameAt data p, Type_ := nameAt data (p + 8),
                                Size := signedAt data (p + 16) 4,
                                ArrayIndex := signedAt data (p + 20) 4,
                                ExtraData := extraData.1, PropertyGuid := propertyGuid.1 },
                              propertyGuid.2)))) := by
  have hmain :=
    UnrealPropertyTag.ReadFrom_nonsentinel archive assetHeader data p nameStr typeStr h24
      hname hnn htype
  constructor
  · intro hnum
    rw [hmain, if_neg hnum]
    rfl
  · intro hnum
    rw [hmain, if_pos hnum]

/-- C14 amended, at `sampleNumberedTypeTag` (type `BoolProperty` with instance
number 1: no extra data, cursor 25 after the GUID presence byte) and at
`sampleBoolTag` (instance number 0: the bool byte is decoded). -/
theorem C14_extra_data_gate_witness :
    UnrealPropertyTag.ReadFrom sampleArchive sampleTagHeader ⟨0, some sampleNumberedTypeTag⟩
      = Outcome.ok ({ Name := { ComparisonIndex := 4, Number := 0 },
                      Type_ := { ComparisonIndex := 2, Number := 1 },
                      Size := 0, ArrayIndex := 0, ExtraData := none, PropertyGuid := none },
                    ⟨25, some sampleNumberedTypeTag⟩) ∧
    UnrealPropertyTag.ReadFrom sampleArchive sampleTagHeader ⟨0, some sampleBoolTag⟩
      = Outcome.ok ({ Name := { ComparisonIndex := 4, Number := 1 },
                      Type_ := { ComparisonIndex := 2, Number := 0 },
                      Size := 0, ArrayIndex := 0,
                      ExtraData := some (UnrealPropertyTag.ExtraDataVariant.Bool
                        { BoolVal := true }),
                      PropertyGuid := none },
                    ⟨26, some sampleBoolTag⟩) :=
  ⟨(C14_extra_data_gate sampleArchive sampleTagHeader sampleNumberedTypeTag 0
      (literal "Health") (literal "BoolProperty") (by decide) (by decide) (by decide)
      (by decide)).1 (by decide),
   (C14_extra_data_gate sampleArchive sampleTagHeader sampleBoolTag 0
      (literal "Health") (literal "BoolProperty") (by decide) (by decide) (by decide)
      (by decide)).2 (by decide)⟩

/-- C15: where the dispatch applies (tag not named `"None"`, instance number of
the type 0) it runs right after ArrayIndex, and the type string fixes the shape
and the bytes of the extra data: `StructProperty` a name and, from fileVersion
441, a GUID; `BoolProperty` one byte, true iff non-zero; `EnumName` a name;
`ArrayProperty` an inner type from fileVersion 282 and nothing below;
`OptionalProperty` a name; `SetProperty` a name and `MapProperty` two names from
fileVersion 509, and nothing below; any other string nothing. -/
theorem C15_extra_data_dispatch (archive : Archive) (data : List Byte) (q : Nat) :
    (∀ (assetHeader : AssetHeader) (p : Nat) (nameStr typeStr : List Byte),
      p + 24 ≤ data.length →
      assetHeader.NameToString (nameAt data p) = Outcome.ok nameStr →
      nameStr ≠ literal "None" →
      assetHeader.NameToString (nameAt data (p + 8)) = Outcome.ok typeStr →
      (nameAt data (p + 8)).Number = 0 →
      UnrealPropertyTag.ReadFrom archive assetHeader ⟨p, some data⟩
        = (UnrealPropertyTag.readExtraData archive typeStr ⟨p + 24, some data⟩).bind
            (fun extraData =>
              (UnrealPropertyTag.readPropertyGuid archive extraData.2).bind
                (fun propertyGuid =>
                  Outcome.ok ({ Name := nameAt data p, Type_ := nameAt data (p + 8),
                                Size := signedAt data (p + 16) 4,
                                ArrayIndex := signedAt data (p + 20) 4,
                                ExtraData := extraData.1, PropertyGuid := propertyGuid.1 },
                              propertyGuid.2)))) ∧
    (archive.FileVersion ≥ 441 → q + 24 ≤ data.length →
      UnrealPropertyTag.readExtraData archive (literal "StructProperty") ⟨q, some data⟩
        = Outcome.ok (some (UnrealPropertyTag.ExtraDataVariant.Struct
            { StructName := nameAt data q, StructGuid := some (guidAt data (q + 8)) }),
            ⟨q + 24, some data⟩)) ∧
    (archive.FileVersion < 441 → q + 8 ≤ data.length →
      UnrealPropertyTag.readExtraData archive (literal "StructProperty") ⟨q, some data⟩
        = Outcome.ok (some (UnrealPropertyTag.ExtraDataVariant.Struct
            { StructName := nameAt data q, StructGuid := none }),
            ⟨q + 8, some data⟩)) ∧
    (q + 1 ≤ data.length →
      UnrealPropertyTag.readExtraData archive (literal "BoolProperty") ⟨q, some data⟩
        = Outcome.ok (some (UnrealPropertyTag.ExtraDataVariant.Bool
            { BoolVal := decide (data.getD q 0 ≠ 0) }),
            ⟨q + 1, some data⟩)) ∧
    (q + 8 ≤ data.length →
      UnrealPropertyTag.readExtraData archive (literal "EnumName") ⟨q, some data⟩
        = Outcome.ok (some (UnrealPropertyTag.ExtraDataVariant.Enum
            { EnumName := nameAt data q }),
            ⟨q + 8, some data⟩)) ∧
    (archive.FileVersion ≥ 282 → q + 8 ≤ data.length →
      UnrealPropertyTag.readExtraData archive (literal "ArrayProperty") ⟨q, some data⟩
        = Outcome.ok (some (UnrealPropertyTag.ExtraDataVariant.Array
            { InnerType := some (nameAt data q) }),
            ⟨q + 8, some data⟩)) ∧
    (archive.FileVersion < 282 → ∀ r : BinaryReader,
      UnrealPropertyTag.readExtraData archive (literal "ArrayProperty") r
        = Outcome.ok (some (UnrealPropertyTag.ExtraDataVariant.Array
            { InnerType := none }), r)) ∧
    (q + 8 ≤ data.length →
      UnrealPropertyTag.readExtraData archive (literal "OptionalProperty") ⟨q, some data⟩
        = Outcome.ok (some (UnrealPropertyTag.ExtraDataVariant.Optional
            { InnerType := nameAt data q }),
            ⟨q + 8, some data⟩)) ∧
    (archive.FileVersion ≥ 509 → q + 8 ≤ data.length →
      UnrealPropertyTag.readExtraData archive (literal "SetProperty") ⟨q, some data⟩
        = Outcome.ok (some (UnrealPropertyTag.ExtraDataVariant.Set
            { InnerType := nameAt data q }),
            ⟨q + 8, some data⟩)) ∧
    (archive.FileVersion ≥ 509 → q + 16 ≤ data.length →
      UnrealPropertyTag.readExtraData archive (literal "MapProperty") ⟨q, some data⟩
        = Outcome.ok (some (UnrealPropertyTag.ExtraDataVariant.Map
            { KeyType := nameAt data q, ValueType := nameAt data (q + 8) }),
            ⟨q + 16, some data⟩)) ∧
    (archive.FileVersion < 509 → ∀ r : BinaryReader,
      UnrealPropertyTag.readExtraData archive (literal "SetProperty") r = Outcome.ok (none, r) ∧
      UnrealPropertyTag.readExtraData archive (literal "MapProperty") r = Outcome.ok (none, r)) ∧
    (∀ (typeStr : List Byte) (r : BinaryReader),
      typeStr ≠ literal "StructProperty" → typeStr ≠ literal "BoolProperty" →
      typeStr ≠ literal "EnumName" → typeStr ≠ literal "ArrayProperty" →
      typeStr ≠ literal "OptionalProperty" → typeStr ≠ literal "SetProperty" →
      typeStr ≠ literal "MapProperty" →
      UnrealPropertyTag.readExtraData archive typeStr r = Outcome.ok (none, r)) := by
  have h441 : Archive.Ue4Version.StructGuidInPropertyTag = 441 := rfl
  have h282 : Archive.Ue4Version.ArrayPropertyInnerTags = 282 := rfl
  have h509 : Archive.Ue4Version.PropertyTagSetMapSupport = 509 := rfl
  refine ⟨?_, ?_, ?_, ?_, ?_, ?_, ?_, ?_, ?_, ?_, ?_, ?_⟩
  · intro assetHeader p nameStr typeStr h24 hname hnn htype hnum
    rw [UnrealPropertyTag.ReadFrom_nonsentinel archive assetHeader data p nameStr typeStr h24
      hname hnn htype, if_pos hnum]
  · intro hfv h
    rw [UnrealPropertyTag.readExtraData, if_pos rfl, Decoder.bind_apply,
      UnrealName.readName_inside data q (by omega)]
    simp only [Outcome.bind_ok]
    rw [Decoder.bind_apply, h441, if_pos hfv, Decoder.bind_apply,
      UnrealGuid.readGuid_inside data (q + 8) (by omega)]
    simp [Decoder.pure_apply, Nat.add_assoc]
  · intro hfv h
    rw [UnrealPropertyTag.readExtraData, if_pos rfl, Decoder.bind_apply,
      UnrealName.readName_inside data q (by omega)]
    simp only [Outcome.bind_ok]
    rw [Decoder.bind_apply, h441, if_neg (by omega)]
    rfl
  · intro h
    rw [UnrealPropertyTag.readExtraData, if_neg (by decide), if_pos rfl, Decoder.bind_apply,
      ReadByte_inside data q h]
    rfl
  · intro h
    rw [UnrealPropertyTag.readExtraData, if_neg (by decide), if_neg (by decide), if_pos rfl,
      Decoder.bind_apply, UnrealName.readName_inside data q h]
    rfl
  · intro hfv h
    rw [UnrealPropertyTag.readExtraData, if_neg (by decide), if_neg (by decide),
      if_neg (by decide), if_pos rfl, Decoder.bind_apply, h282, if_pos hfv, Decoder.bind_apply,
      UnrealName.readName_inside data q h]
    rfl
  · intro hfv r
    rw [UnrealPropertyTag.readExtraData, if_neg (by decide), if_neg (by decide),
      if_neg (by decide), if_pos rfl, Decoder.bind_apply, h282, if_neg (by omega)]
    rfl
  · intro h
    rw [UnrealPropertyTag.readExtraData, if_neg (by decide), if_neg (by decide),
      if_neg (by decide), if_neg (by decide), if_pos rfl, Decoder.bind_apply,
      UnrealName.readName_inside data q h]
    rfl
  · intro hfv h
    rw [UnrealPropertyTag.readExtraData, if_neg (by decide), if_neg (by decide),
      if_neg (by decide), if_neg (by decide), if_neg (by decide), h509, if_pos hfv,
      if_pos rfl, Decoder.bind_apply, UnrealName.readName_inside data q h]
    rfl
  · intro hfv h
    rw [UnrealPropertyTag.readExtraData, if_neg (by decide), if_neg (by decide),
      if_neg (by decide), if_neg (by decide), if_neg (by decide), h509, if_pos hfv,
      if_neg (by decide), if_pos rfl, Decoder.bind_apply,
      UnrealName.readName_inside data q (by omega)]
    simp only [Outcome.bind_ok]
    rw [Decoder.bind_apply, UnrealName.readName_inside data (q + 8) (by omega)]
    simp [Decoder.pure_apply, Nat.add_assoc]
  · intro hfv r
    constructor
    · rw [UnrealPropertyTag.readExtraData, if_neg (by decide), if_neg (by decide),
        if_neg (by decide), if_neg (by decide), if_neg (by decide), h509, if_neg (by omega)]
      rfl
    · rw [UnrealPropertyTag.readExtraData, if_neg (by decide), if_neg (by decide),
        if_neg (by decide), if_neg (by decide), if_neg (by decide), h509, if_neg (by omega)]
      rfl
  · intro typeStr r h1 h2 h3 h4 h5 h6 h7
    rw [UnrealPropertyTag.readExtraData, if_neg h1, if_neg h2, if_neg h3, if_neg h4, if_neg h5]
    by_cases hfv : archive.FileVersion ≥ Archive.Ue4Version.PropertyTagSetMapSupport
    · rw [if_pos hfv, if_neg h6, if_neg h7]
      rfl
    · rw [if_neg hfv]
      rfl

/-- C15 at `sampleStructExtraData` with fileVersion 522 (name and GUID, 24
bytes), at the byte `02` as a bool, and at the type string `IntProperty`. -/
theorem C15_extra_data_dispatch_witness :
    UnrealPropertyTag.readExtraData sampleArchive (literal "StructProperty")
        ⟨0, some sampleStructExtraData⟩
      = Outcome.ok (some (UnrealPropertyTag.ExtraDataVariant.Struct
          { StructName := { ComparisonIndex := 4, Number := 0 },
            StructGuid := some { A := 1, B := 2, C := 3, D := 4 } }),
          ⟨24, some sampleStructExtraData⟩) ∧
    UnrealPropertyTag.readExtraData sampleArchive (literal "BoolProperty") ⟨0, some [2]⟩
      = Outcome.ok (some (UnrealPropertyTag.ExtraDataVariant.Bool { BoolVal := true }),
          ⟨1, some [2]⟩) ∧
    UnrealPropertyTag.readExtraData sampleArchive (literal "IntProperty") ⟨0, some [2]⟩
      = Outcome.ok (none, ⟨0, some [2]⟩) :=
  ⟨(C15_extra_data_dispatch sampleArchive sampleStructExtraData 0).2.1 (by decide) (by decide),
   (C15_extra_data_dispatch sampleArchive [2] 0).2.2.2.1 (by decide),
   (C15_extra_data_dispatch sampleArchive [2] 0).2.2.2.2.2.2.2.2.2.2.2 (literal "IntProperty")
     ⟨0, some [2]⟩ (by decide) (by decide) (by decide) (by decide) (by decide) (by decide)
     (by decide)⟩

/-- C16: the trailing property GUID of a tag not named `"None"` is read where
the extra data ends.  Below fileVersion 503 nothing is read and PropertyGuid is
absent; from 503 one presence byte is read, and the GUID (16 more bytes) is
present exactly when that byte is not zero. -/
theorem C16_property_guid (archive : Archive) (data : List Byte) (q : Nat) :
    (∀ (assetHeader : AssetHeader) (p : Nat) (nameStr typeStr : List Byte),
      p + 24 ≤ data.length →
      assetHeader.NameToString (nameAt data p) = Outcome.ok nameStr →
      nameStr ≠ literal "None" →
      assetHeader.NameToString (nameAt data (p + 8)) = Outcome.ok typeStr →
      UnrealPropertyTag.ReadFrom archive assetHeader ⟨p, some data⟩
        = ((if (nameAt data (p + 8)).Number = 0 then
              UnrealPropertyTag.readExtraData archive typeStr
            else pure none) ⟨p + 24, some data⟩).bind (fun extraData =>
            (UnrealPropertyTag.readPropertyGuid archive extraData.2).bind (fun propertyGuid =>
              Outcome.ok ({ Name := nameAt data p, Type_ := nameAt data (p + 8),
                            Size := signedAt data (p + 16) 4,
                            ArrayIndex := signedAt data (p + 20) 4,
                            ExtraData := extraData.1, PropertyGuid := propertyGuid.1 },
                          propertyGuid.2)))) ∧
    (archive.FileVersion < 503 → ∀ r : BinaryReader,
      UnrealPropertyTag.readPropertyGuid archive r = Outcome.ok (none, r)) ∧
    (archive.FileVersion ≥ 503 → q + 1 ≤ data.length → data.getD q 0 = 0 →
      UnrealPropertyTag.readPropertyGuid archive ⟨q, some data⟩
        = Outcome.ok (none, ⟨q + 1, some data⟩)) ∧
    (archive.FileVersion ≥ 503 → q + 17 ≤ data.length → data.getD q 0 ≠ 0 →
      UnrealPropertyTag.readPropertyGuid archive ⟨q, some data⟩
        = Outcome.ok (some (guidAt data (q + 1)), ⟨q + 17, some data⟩)) := by
  have h503 : Archive.Ue4Version.PropertyGuidInPropertyTag = 503 := rfl
  refine ⟨?_, ?_, ?_, ?_⟩
  · intro assetHeader p nameStr typeStr h24 hname hnn htype
    exact UnrealPropertyTag.ReadFrom_nonsentinel archive assetHeader data p nameStr typeStr h24
      hname hnn htype
  · intro hfv r
    rw [UnrealPropertyTag.readPropertyGuid, h503, if_neg (by omega)]
    rfl
  · intro hfv h hb
    rw [UnrealPropertyTag.readPropertyGuid, h503, if_pos hfv, Decoder.bind_apply,
      ReadByte_inside data q h]
    simp only [Outcome.bind_ok]
    rw [if_neg (not_not.mpr hb)]
    rfl
  · intro hfv h hb
    rw [UnrealPropertyTag.readPropertyGuid, h503, if_pos hfv, Decoder.bind_apply,
      ReadByte_inside data q (by omega)]
    simp only [Outcome.bind_ok]
    rw [if_pos hb, Decoder.bind_apply, UnrealGuid.readGuid_inside data (q + 1) (by omega)]
    simp [Decoder.pure_apply, Nat.add_assoc]

/-- C16 at fileVersion 522 with the presence byte 0 and with the presence byte 1
followed by a GUID, and at fileVersion 502. -/
theorem C16_property_guid_witness :
    UnrealPropertyTag.readPropertyGuid sampleArchive ⟨0, some [0, 9]⟩
      = Outcome.ok (none, ⟨1, some [0, 9]⟩) ∧
    UnrealPropertyTag.readPropertyGuid sampleArchive
        ⟨0, some [1, 1, 0, 0, 0, 2, 0, 0, 0, 3, 0, 0, 0, 4, 0, 0, 0]⟩
      = Outcome.ok (some { A := 1, B := 2, C := 3, D := 4 },
          ⟨17, some [1, 1, 0, 0, 0, 2, 0, 0, 0, 3, 0, 0, 0, 4, 0, 0, 0]⟩) ∧
    UnrealPropertyTag.readPropertyGuid { FileVersion := 502 } ⟨0, some [1, 9]⟩
      = Outcome.ok (none, ⟨0, some [1, 9]⟩) :=
  ⟨(C16_property_guid sampleArchive [0, 9] 0).2.2.1 (by decide) (by decide) (by decide),
   (C16_property_guid sampleArchive [1, 1, 0, 0, 0, 2, 0, 0, 0, 3, 0, 0, 0, 4, 0, 0, 0] 0).2.2.2
     (by decide) (by decide) (by decide),
   (C16_property_guid { FileVersion := 502 } [1, 9] 0).2.1 (by decide) ⟨0, some [1, 9]⟩⟩

/-- C18, as stated, fails: on `sampleLoopingTagStream` (one tag whose declared
size is -25) every pass of the loop stays inside the buffer and ends where it
began, so the walk ends after no number of passes. -/
theorem C18_counterexample :
    parseBinaryInput.walkStep sampleArchive sampleTagHeader ⟨0, some sampleLoopingTagStream⟩
      = Outcome.ok (true, ⟨0, some sampleLoopingTagStream⟩) ∧
    ¬ ∃ fuel, parseBinaryInput.walkPropertyTags sampleArchive sampleTagHeader fuel
        ⟨0, some sampleLoopingTagStream⟩ ≠ none := by
  have hstep : parseBinaryInput.walkStep sampleArchive sampleTagHeader
      ⟨0, some sampleLoopingTagStream⟩ = Outcome.ok (true, ⟨0, some sampleLoopingTagStream⟩) := by
    decide
  refine ⟨hstep, ?_⟩
  rintro ⟨fuel, hfuel⟩
  exact hfuel (parseBinaryInput.walk_of_loop sampleArchive sampleTagHeader _ hstep fuel)

/-- C18 amended: the walk ends with a result exactly when its stream holds
finitely many tags followed by a tag named `"None"`, and the result does not
depend on the number of passes allowed.  It has no failure of its own: when
fewer than 8 bytes are left for a tag's name the read is an unchecked access past
the end of the buffer, no pass ever ends in a thrown exception, and a pass that
ends where it began makes the walk run forever. -/
theorem C18_walk_termination (archive : Archive) (assetHeader : AssetHeader) :
    (∀ r s : BinaryReader,
      (∃ fuel, parseBinaryInput.walkPropertyTags archive assetHeader fuel r
          = some (Outcome.ok ((), s))) ↔
      ∃ k, TagStreamEnds archive assetHeader r k s) ∧
    (∀ (fuel : Nat) (r : BinaryReader) (o : Outcome (Unit × BinaryReader)),
      parseBinaryInput.walkPropertyTags archive assetHeader fuel r = some o →
      ∀ more, parseBinaryInput.walkPropertyTags archive assetHeader (fuel + more) r = some o) ∧
    (∀ (data : List Byte) (p : Nat), data.length < p + 8 → ∀ fuel,
      parseBinaryInput.walkPropertyTags archive assetHeader (fuel + 1) ⟨p, some data⟩
        = some Outcome.undefined) ∧
    (∀ (fuel : Nat) (r : BinaryReader) (e : CppException),
      parseBinaryInput.walkPropertyTags archive assetHeader fuel r ≠ some (Outcome.thrown e)) ∧
    (∀ r : BinaryReader,
      parseBinaryInput.walkStep archive assetHeader r = Outcome.ok (true, r) →
      ∀ fuel, parseBinaryInput.walkPropertyTags archive assetHeader fuel r = none) := by
  refine ⟨?_, ?_, ?_, ?_, ?_⟩
  · intro r s
    constructor
    · rintro ⟨fuel, h⟩
      obtain ⟨k, _, hs⟩ := parseBinaryInput.streamEnds_of_walk archive assetHeader fuel r s h
      exact ⟨k, hs⟩
    · rintro ⟨k, hs⟩
      exact ⟨k + 1, parseBinaryInput.walk_of_streamEnds archive assetHeader hs (k + 1) (by omega)⟩
  · intro fuel r o h more
    exact parseBinaryInput.walk_mono archive assetHeader fuel r o h more
  · intro data p h fuel
    exact parseBinaryInput.walk_succ_undefined archive assetHeader fuel _
      (parseBinaryInput.walkStep_outside archive assetHeader data p h)
  · intro fuel r e
    exact parseBinaryInput.walk_noThrow archive assetHeader fuel r e
  · intro r h fuel
    exact parseBinaryInput.walk_of_loop archive assetHeader r h fuel

/-- C18 amended, at `sampleIntTagStream` (one tag and the sentinel: the walk
ends), at the same stream from position 30 (7 bytes left: undefined), and at
`sampleLoopingTagStream` (no end). -/
theorem C18_walk_termination_witness :
    (∃ fuel, parseBinaryInput.walkPropertyTags sampleArchive sampleTagHeader fuel
        ⟨0, some sampleIntTagStream⟩ = some (Outcome.ok ((), ⟨37, some sampleIntTagStream⟩))) ∧
    parseBinaryInput.walkPropertyTags sampleArchive sampleTagHeader (2 + 5)
        ⟨0, some sampleIntTagStream⟩ = some (Outcome.ok ((), ⟨37, some sampleIntTagStream⟩)) ∧
    parseBinaryInput.walkPropertyTags sampleArchive sampleTagHeader (0 + 1)
        ⟨30, some sampleIntTagStream⟩ = some Outcome.undefined ∧
    parseBinaryInput.walkPropertyTags sampleArchive sampleTagHeader 1000
        ⟨0, some sampleLoopingTagStream⟩ = none :=
  ⟨((C18_walk_termination sampleArchive sampleTagHeader).1 ⟨0, some sampleIntTagStream⟩
      ⟨37, some sampleIntTagStream⟩).2
      ⟨1, TagStreamEnds.tag (t := ⟨29, some sampleIntTagStream⟩) (by decide)
        (TagStreamEnds.sentinel (by decide))⟩,
   (C18_walk_termination sampleArchive sampleTagHeader).2.1 2 ⟨0, some sampleIntTagStream⟩
      _ (by decide) 5,
   (C18_walk_termination sampleArchive sampleTagHeader).2.2.1 sampleIntTagStream 30
      (by decide) 0,
   (C18_walk_termination sampleArchive sampleTagHeader).2.2.2.2 ⟨0, some sampleLoopingTagStream⟩
      (by decide) 1000⟩

/-- C19: scenario A.  On `sampleScenarioA` the preamble decodes to
`sampleArchive` (magic 0x9E2A83C1, legacyVersion -7, fileVersion 522) with the
cursor at 20, the header decodes with the cursor at 212 inside the 225-byte
buffer, and the header has Names = ["None"], Exports = [] and Imports = []; the
whole of `parseBinaryInput` succeeds on it. -/
theorem C19_scenario_a :
    Archive.ReadFrom ⟨0, some sampleScenarioA⟩
      = Outcome.ok ({ Magic := 0x9E2A83C1, LegacyVersion := -7, FileVersion := 522,
                      FileVersionUe5 := 0, FileLicenseeVersion := 0 },
                    ⟨20, some sampleScenarioA⟩) ∧
    AssetHeader.ReadFrom { Magic := 0x9E2A83C1, LegacyVersion := -7, FileVersion := 522,
                           FileVersionUe5 := 0, FileLicenseeVersion := 0 }
        ⟨20, some sampleScenarioA⟩
      = Outcome.ok (sampleScenarioAHeader, ⟨212, some sampleScenarioA⟩) ∧
    sampleScenarioAHeader.Names = [[0x4e, 0x6f, 0x6e, 0x65]] ∧
    sampleScenarioAHeader.Exports = [] ∧
    sampleScenarioAHeader.Imports = [] ∧
    sampleScenarioA.length = 225 ∧
    parseBinaryInput 0 sampleScenarioA
      = some (Outcome.ok (sampleScenarioAHeader, ⟨212, some sampleScenarioA⟩)) := by
  refine ⟨by decide, by decide!, by decide, rfl, rfl, by decide, by decide!⟩

/-- C20, as stated, fails: the step that skips the OwnerPersistentGuid record
consumes bytes at fileVersion 518 and 519 and is a no-op from 520 on, for a
package with editor-only data.  On 208 zero bytes, with legacyVersion -7, the
header ends at 208 for fileVersion 519 and at 192 for fileVersion 520. -/
theorem C20_counterexample :
    Decoder.Consumes
      ((AssetHeader.gatedSteps 518).step true AssetHeader.GatedStep.OwnerPersistentGuid) ∧
    Decoder.IsNoOp
      ((AssetHeader.gatedSteps 520).step true AssetHeader.GatedStep.OwnerPersistentGuid) ∧
    ¬ Decoder.Consumes
      ((AssetHeader.gatedSteps 520).step true AssetHeader.GatedStep.OwnerPersistentGuid) ∧
    AssetHeader.ReadFrom { LegacyVersion := -7, FileVersion := 519 } ⟨0, some sampleZeroBytes⟩
      = Outcome.ok ({ PayloadTocOffset := -1 }, ⟨208, some sampleZeroBytes⟩) ∧
    AssetHeader.ReadFrom { LegacyVersion := -7, FileVersion := 520 } ⟨0, some sampleZeroBytes⟩
      = Outcome.ok ({ PayloadTocOffset := -1 }, ⟨192, some sampleZeroBytes⟩) := by
  have hnoop : Decoder.IsNoOp
      ((AssetHeader.gatedSteps 520).step true AssetHeader.GatedStep.OwnerPersistentGuid) :=
    AssetHeader.gatedSteps_isNoOp 520 true AssetHeader.GatedStep.OwnerPersistentGuid
      (by simp only [AssetHeader.GatedStep.specifiedGate]; decide)
  refine ⟨?_, hnoop, Decoder.not_consumes_of_isNoOp hnoop, by decide!, by decide!⟩
  exact AssetHeader.gatedSteps_consumes 518 true AssetHeader.GatedStep.OwnerPersistentGuid
    (by simp only [AssetHeader.GatedStep.specifiedGate]; decide)

/-- C20 amended.  `AssetHeader::ReadFrom`, with the readers of the elements of
its Names, Exports and Imports tables, depends on fileVersion through the
eighteen steps of `AssetHeader.gatedSteps` and through nothing else.  Each step
consumes bytes exactly when the gate the specification gives for it is met, and
reads and skips nothing otherwise.  A step that consumes bytes at a fileVersion
`v` consumes bytes at every `w ≥ v`, for the same editor-only-data bit, with one
exception: the skip of the OwnerPersistentGuid record, made only for 518 ≤ v <
520 with editor-only data.  Three steps consume bytes in an encoding that
changes: the serial pair of an export is two i32 below 511 and two i64 from 511
on, SavedByEngineVersion is a u32 changelist below 336 and the structured
version from 336 on, ChunkIds is one i32 for 278 ≤ v < 326 and an inline array
from 326 on. -/
theorem C20_gate_monotonicity :
    (∀ archive : Archive,
      AssetHeader.ReadFrom archive
        = AssetHeader.ReadFromWith archive (AssetHeader.gatedSteps archive.FileVersion)) ∧
    (∀ (archive : Archive) (v : Int) (steps : AssetHeader.GatedSteps),
      AssetHeader.ReadFromWith { archive with FileVersion := v } steps
        = AssetHeader.ReadFromWith archive steps) ∧
    (∀ (v : Int) (packageHasEditorOnlyData : Bool) (step : AssetHeader.GatedStep),
      (Decoder.Consumes ((AssetHeader.gatedSteps v).step packageHasEditorOnlyData step)
        ↔ AssetHeader.GatedStep.specifiedGate v packageHasEditorOnlyData step) ∧
      (¬ AssetHeader.GatedStep.specifiedGate v packageHasEditorOnlyData step →
        Decoder.IsNoOp ((AssetHeader.gatedSteps v).step packageHasEditorOnlyData step))) ∧
    (∀ (v w : Int) (packageHasEditorOnlyData : Bool) (step : AssetHeader.GatedStep),
      v ≤ w →
      step ≠ AssetHeader.GatedStep.OwnerPersistentGuid →
      Decoder.Consumes ((AssetHeader.gatedSteps v).step packageHasEditorOnlyData step) →
      Decoder.Consumes ((AssetHeader.gatedSteps w).step packageHasEditorOnlyData step)) ∧
    (∀ (v : Int) (packageHasEditorOnlyData : Bool),
      Decoder.Consumes ((AssetHeader.gatedSteps v).step packageHasEditorOnlyData
          AssetHeader.GatedStep.OwnerPersistentGuid)
        ↔ 518 ≤ v ∧ v < 520 ∧ packageHasEditorOnlyData = true) ∧
    (∀ v : Int,
      (v < 511 →
        Decoder.ReadsExactly (AssetHeader.gatedSteps v).ExportSerial 8
          (fun data p => (signedAt data p 4, signedAt data (p + 4) 4))) ∧
      (v ≥ 511 →
        Decoder.ReadsExactly (AssetHeader.gatedSteps v).ExportSerial 16
          (fun data p => (signedAt data p 8, signedAt data (p + 8) 8))) ∧
      (v < 336 →
        Decoder.ReadsExactly (AssetHeader.gatedSteps v).SavedByEngineVersion 4
          (fun data p => UnrealEngineVersion.CreateFromChangelist (unsignedAt data p 4))) ∧
      (v ≥ 336 →
        (AssetHeader.gatedSteps v).SavedByEngineVersion = UnrealEngineVersion.ReadFrom) ∧
      (v ≥ 278 → v < 326 →
        Decoder.ReadsExactly (AssetHeader.gatedSteps v).ChunkIds 4
          (fun data p => [signedAt data p 4])) ∧
      (v ≥ 326 →
        (AssetHeader.gatedSteps v).ChunkIds
          = BinaryReader.ReadInlineUnrealArray BinaryReader.ReadInt32)) := by
  refine ⟨AssetHeader.ReadFrom_eq_with, ?_, ?_, ?_, ?_, ?_⟩
  · intro archive v steps
    rfl
  · intro v ed step
    exact ⟨AssetHeader.gatedSteps_consumes_iff v ed step,
      AssetHeader.gatedSteps_isNoOp v ed step⟩
  · intro v w ed step hvw hstep hc
    exact AssetHeader.gatedSteps_consumes w ed step
      (AssetHeader.specifiedGate_mono v w ed step hvw hstep
        ((AssetHeader.gatedSteps_consumes_iff v ed step).mp hc))
  · intro v ed
    rw [AssetHeader.gatedSteps_consumes_iff]
    simp only [AssetHeader.GatedStep.specifiedGate, ge_iff_le]
  · intro v
    refine ⟨?_, ?_, ?_, ?_, ?_, ?_⟩
    · intro hv
      simp only [AssetHeader.gatedSteps, Archive.Ue4Version.SixtyFourBitExportmapSerialsizes,
        if_pos hv]
      exact Decoder.ReadsExactly.of_eq
        (Decoder.ReadsExactly.of_bind ReadInt32_readsExactly (fun a =>
          Decoder.ReadsExactly.of_bind ReadInt32_readsExactly (fun b =>
            Decoder.ReadsExactly.of_pure (a, b))))
        rfl (fun _ _ => rfl)
    · intro hv
      simp only [AssetHeader.gatedSteps, Archive.Ue4Version.SixtyFourBitExportmapSerialsizes,
        if_neg (not_lt.mpr hv)]
      exact Decoder.ReadsExactly.of_eq
        (Decoder.ReadsExactly.of_bind ReadInt64_readsExactly (fun a =>
          Decoder.ReadsExactly.of_bind ReadInt64_readsExactly (fun b =>
            Decoder.ReadsExactly.of_pure (a, b))))
        rfl (fun _ _ => rfl)
    · intro hv
      simp only [AssetHeader.gatedSteps, Archive.Ue4Version.EngineVersionObject,
        if_neg (not_le.mpr hv)]
      exact Decoder.ReadsExactly.of_eq
        (Decoder.ReadsExactly.of_bind ReadUint32_readsExactly (fun a =>
          Decoder.ReadsExactly.of_pure (UnrealEngineVersion.CreateFromChangelist a)))
        rfl (fun _ _ => rfl)
    · intro hv
      simp only [AssetHeader.gatedSteps, Archive.Ue4Version.EngineVersionObject, if_pos hv]
    · intro hv1 hv2
      simp only [AssetHeader.gatedSteps, Archive.Ue4Version.AddedChunkidToAssetdataAndUpackage,
        Archive.Ue4Version.ChangedChunkidToBeAnArrayOfChunkids, if_pos hv1,
        if_neg (not_le.mpr hv2)]
      exact Decoder.ReadsExactly.of_eq
        (Decoder.ReadsExactly.of_bind ReadInt32_readsExactly (fun a =>
          Decoder.ReadsExactly.of_pure [a]))
        rfl (fun _ _ => rfl)
    · intro hv
      have hv1 : v ≥ 278 := by omega
      simp only [AssetHeader.gatedSteps, Archive.Ue4Version.AddedChunkidToAssetdataAndUpackage,
        Archive.Ue4Version.ChangedChunkidToBeAnArrayOfChunkids, if_pos hv1, if_pos hv]

/-- C20 amended, at fileVersions 516, 518 and 522: the LocalizationId read at 516
is read at 522, and so is the PersistentGuid skip from 518 to 522; the
OwnerPersistentGuid skip is made at 519; the hash of a name is not read at 503;
at 510 the serial pair of an export is the two i32 at the cursor. -/
theorem C20_gate_monotonicity_witness :
    Decoder.Consumes
      ((AssetHeader.gatedSteps 522).step true AssetHeader.GatedStep.LocalizationId) ∧
    Decoder.Consumes
      ((AssetHeader.gatedSteps 522).step true AssetHeader.GatedStep.PersistentGuid) ∧
    Decoder.Consumes
      ((AssetHeader.gatedSteps 519).step true AssetHeader.GatedStep.OwnerPersistentGuid) ∧
    Decoder.IsNoOp ((AssetHeader.gatedSteps 503).step true AssetHeader.GatedStep.NameHash) ∧
    (AssetHeader.gatedSteps 510).ExportSerial ⟨0, some [248, 255, 255, 255, 9, 0, 0, 0]⟩
      = Outcome.ok ((-8, 9), ⟨8, some [248, 255, 255, 255, 9, 0, 0, 0]⟩) := by
  refine ⟨?_, ?_, ?_, ?_, ?_⟩
  · exact C20_gate_monotonicity.2.2.2.1 516 522 true AssetHeader.GatedStep.LocalizationId
      (by decide) (by decide)
      ((C20_gate_monotonicity.2.2.1 516 true AssetHeader.GatedStep.LocalizationId).1.mpr
        (And.intro (by decide) rfl))
  · exact C20_gate_monotonicity.2.2.2.1 518 522 true AssetHeader.GatedStep.PersistentGuid
      (by decide) (by decide)
      ((C20_gate_monotonicity.2.2.1 518 true AssetHeader.GatedStep.PersistentGuid).1.mpr
        (And.intro (by decide) rfl))
  · exact (C20_gate_monotonicity.2.2.2.2.1 519 true).mpr ⟨by decide, by decide, rfl⟩
  · exact (C20_gate_monotonicity.2.2.1 503 true AssetHeader.GatedStep.NameHash).2
      (show ¬ ((503 : Int) ≥ 504) by decide)
  · rw [(C20_gate_monotonicity.2.2.2.2.2 510).1 (by decide)
      [248, 255, 255, 255, 9, 0, 0, 0] 0 (by decide)]
    decide

/-- C21: the layout of an export record.  At every cursor that leaves room for
the record, `ObjectExport::ReadFrom` returns the record of the specified layout,
the fields in the stated order, and moves the cursor by the specified size, which
is a function of fileVersion and fileVersionUe5 alone.  For fileVersion < 511,
SerialSize and SerialOffset are the values of the two i32 read, as signed
numbers. -/
theorem C21_export_record_layout (archive : Archive) (assetHeader : AssetHeader)
    (data : List Byte) (p : Nat)
    (h : p + ObjectExport.specifiedSize archive.FileVersion archive.FileVersionUe5
          ≤ data.length) :
    ∃ e : ObjectExport,
      ObjectExport.ReadFrom archive assetHeader ⟨p, some data⟩
        = Outcome.ok (e,
            ⟨p + ObjectExport.specifiedSize archive.FileVersion archive.FileVersionUe5,
              some data⟩) ∧
      e = ObjectExport.specifiedAt archive.FileVersion archive.FileVersionUe5 data p ∧
      (archive.FileVersion < 511 →
        e.SerialSize
          = signedAt data (p + 24 + (if archive.FileVersion ≥ 508 then 4 else 0)) 4 ∧
        e.SerialOffset
          = signedAt data (p + 28 + (if archive.FileVersion ≥ 508 then 4 else 0)) 4) := by
  refine ⟨_, ObjectExport.readExport_readsExactly archive assetHeader data p h, rfl, ?_⟩
  intro h511
  simp only [ObjectExport.specifiedAt, if_pos h511]
  constructor
  · exact congrArg (fun q => signedAt data q 4) (by omega)
  · exact congrArg (fun q => signedAt data q 4) (by omega)

/-- C21 on the 96-byte record `sampleExportRecord` at fileVersion 510: the i32
serial size -8 becomes the SerialSize -8, and the cursor ends at 96. -/
theorem C21_export_record_layout_witness :
    0 + ObjectExport.specifiedSize 510 0 ≤ sampleExportRecord.length ∧
    ObjectExport.ReadFrom { FileVersion := 510 } {} ⟨0, some sampleExportRecord⟩
      = Outcome.ok ({ ClassIndex := -1, SuperIndex := 2, TemplateIndex := 3,
                      ObjectName := { ComparisonIndex := 4, Number := 5 }, ObjectFlags := 7,
                      SerialSize := -8, SerialOffset := 9,
                      ForcedExport := true, NotForClient := false, NotForServer := true,
                      PackageFlags := 12, NotAlwaysLoadedForEditorGame := true,
                      IsAsset := false,
                      FirstExportDependency := 21,
                      CreateBeforeSerializationDependencies := 23,
                      SerializationBeforeCreateDependencies := 24,
                      CreateBeforeCreateDependencies := 25 },
                    ⟨96, some sampleExportRecord⟩) := by
  refine ⟨by decide, ?_⟩
  obtain ⟨e, hread, he, _⟩ :=
    C21_export_record_layout { FileVersion := 510 } {} sampleExportRecord 0 (by decide)
  rw [hread, he]
  decide

/-- C22: the layout of an import record.  At every cursor that leaves room for
the record, `ObjectImport::ReadFrom` reads classPackage, className, outerIndex
and objectName, then packageName exactly when the header's packageFlags have the
bit 0x80000000 clear and fileVersion ≥ 520, then importOptional exactly when
fileVersionUe5 ≥ 1003; the cursor moves by 28 bytes plus 8 and 4 for the two
gated fields.  A field whose gate is not met is zero in every record decoded. -/
theorem C22_import_record_layout (archive : Archive) (assetHeader : AssetHeader) :
    (∀ (data : List Byte) (p : Nat),
      p + ObjectImport.specifiedSize archive.FileVersion archive.FileVersionUe5
            assetHeader.PackageFlags ≤ data.length →
      ObjectImport.ReadFrom archive assetHeader ⟨p, some data⟩
        = Outcome.ok
            (ObjectImport.specifiedAt archive.FileVersion archive.FileVersionUe5
              assetHeader.PackageFlags data p,
             ⟨p + ObjectImport.specifiedSize archive.FileVersion archive.FileVersionUe5
                assetHeader.PackageFlags, some data⟩)) ∧
    (∀ (r : BinaryReader) (i : ObjectImport) (r1 : BinaryReader),
      ObjectImport.ReadFrom archive assetHeader r = Outcome.ok (i, r1) →
      (¬ (assetHeader.PackageFlags &&& 0x80000000 = 0 ∧ archive.FileVersion ≥ 520) →
        i.PackageName = {}) ∧
      (archive.FileVersionUe5 < 1003 → i.ImportOptional = false)) :=
  ⟨ObjectImport.readImport_readsExactly archive assetHeader,
   ObjectImport.readImport_defaults archive assetHeader⟩

/-- C22 on `sampleImportRecord`: at fileVersion 522 and fileVersionUe5 1003 with
editor-only data all 40 bytes are read; with the bit 0x80000000 set in the
packageFlags and fileVersionUe5 0 the record ends after 28 bytes and PackageName
and ImportOptional are zero. -/
theorem C22_import_record_layout_witness :
    ObjectImport.ReadFrom { FileVersion := 522, FileVersionUe5 := 1003 } {}
        ⟨0, some sampleImportRecord⟩
      = Outcome.ok ({ ClassPackage := { ComparisonIndex := 1 },
                      ClassName := { ComparisonIndex := 2 }, OuterIndex := -3,
                      ObjectName := { ComparisonIndex := 4 },
                      PackageName := { ComparisonIndex := 5 }, ImportOptional := true },
                    ⟨40, some sampleImportRecord⟩) ∧
    ObjectImport.ReadFrom { FileVersion := 522 } { PackageFlags := 0x80000000 }
        ⟨0, some sampleImportRecord⟩
      = Outcome.ok ({ ClassPackage := { ComparisonIndex := 1 },
                      ClassName := { ComparisonIndex := 2 }, OuterIndex := -3,
                      ObjectName := { ComparisonIndex := 4 } },
                    ⟨28, some sampleImportRecord⟩) := by
  constructor
  · rw [(C22_import_record_layout { FileVersion := 522, FileVersionUe5 := 1003 } {}).1
      sampleImportRecord 0 (by decide)]
    decide
  · rw [(C22_import_record_layout { FileVersion := 522 } { PackageFlags := 0x80000000 }).1
      sampleImportRecord 0 (by decide)]
    decide

/-- C23: the GUID skips of the header.  `AssetHeader::ReadFrom` runs them right
after reading ThumbnailTableOffset.  From a cursor that is 48 below the range of
`size_t`, they move the cursor by 48 bytes when the packageFlags have the bit
0x80000000 clear and fileVersion is 518 or 519, by 32 bytes when that bit is
clear and fileVersion ≥ 520, and by 16 bytes in every other case; no byte of the
buffer is looked at. -/
theorem C23_header_guid_skips (archive : Archive) (packageFlags : Nat) (r : BinaryReader)
    (hroom : r.SeekPos + 48 < sizeModulus) :
    AssetHeader.ReadFrom archive = AssetHeader.ReadFromInSteps archive ∧
    (archive.FileVersion ≥ 518 ∧ archive.FileVersion < 520 ∧ packageFlags &&& 0x80000000 = 0 →
      AssetHeader.skipGuids archive
          (decide (packageFlags &&& AssetHeader.PackageFlags.FilterEditorOnly = 0)) r
        = Outcome.ok ((), { r with SeekPos := r.SeekPos + 48 })) ∧
    (archive.FileVersion ≥ 520 ∧ packageFlags &&& 0x80000000 = 0 →
      AssetHeader.skipGuids archive
          (decide (packageFlags &&& AssetHeader.PackageFlags.FilterEditorOnly = 0)) r
        = Outcome.ok ((), { r with SeekPos := r.SeekPos + 32 })) ∧
    (¬ (archive.FileVersion ≥ 518 ∧ packageFlags &&& 0x80000000 = 0) →
      AssetHeader.skipGuids archive
          (decide (packageFlags &&& AssetHeader.PackageFlags.FilterEditorOnly = 0)) r
        = Outcome.ok ((), { r with SeekPos := r.SeekPos + 16 })) := by
  refine ⟨AssetHeader.ReadFrom_eq_steps archive, ?_, ?_, ?_⟩
  · rintro ⟨h1, h2, h3⟩
    rw [AssetHeader.skipGuids_apply,
      if_pos ⟨h1, by simpa [AssetHeader.PackageFlags.FilterEditorOnly] using h3⟩, if_pos h2,
      Nat.mod_eq_of_lt (by omega)]
  · rintro ⟨h1, h3⟩
    rw [AssetHeader.skipGuids_apply,
      if_pos ⟨by omega, by simpa [AssetHeader.PackageFlags.FilterEditorOnly] using h3⟩,
      if_neg (by omega), Nat.mod_eq_of_lt (by omega)]
  · intro hn
    rw [AssetHeader.skipGuids_apply,
      if_neg (by simpa [AssetHeader.PackageFlags.FilterEditorOnly] using hn),
      Nat.mod_eq_of_lt (by omega)]

/-- C23 from the cursor 82: to 130 at fileVersion 519 with editor-only data, to
114 at fileVersion 520 with editor-only data, to 98 at fileVersion 519 when the
packageFlags have the bit 0x80000000 set. -/
theorem C23_header_guid_skips_witness :
    AssetHeader.skipGuids { FileVersion := 519 } true ⟨82, some sampleZeroBytes⟩
      = Outcome.ok ((), ⟨130, some sampleZeroBytes⟩) ∧
    AssetHeader.skipGuids { FileVersion := 520 } true ⟨82, some sampleZeroBytes⟩
      = Outcome.ok ((), ⟨114, some sampleZeroBytes⟩) ∧
    AssetHeader.skipGuids { FileVersion := 519 } false ⟨82, some sampleZeroBytes⟩
      = Outcome.ok ((), ⟨98, some sampleZeroBytes⟩) :=
  ⟨(C23_header_guid_skips { FileVersion := 519 } 0 ⟨82, some sampleZeroBytes⟩
      (by decide)).2.1 (by decide),
   (C23_header_guid_skips { FileVersion := 520 } 0 ⟨82, some sampleZeroBytes⟩
      (by decide)).2.2.1 (by decide),
   (C23_header_guid_skips { FileVersion := 519 } 0x80000000 ⟨82, some sampleZeroBytes⟩
      (by decide)).2.2.2 (by decide)⟩

/-- C24: the gated count/offset pairs of the header.  GatherableTextData is two
i32 read in place when fileVersion ≥ 459, SoftPackageReferences when fileVersion
≥ 384, PreloadDependency when fileVersion ≥ 507; when the gate is not met the
cursor stays and the pair is (0, 0), (0, 0) and (-1, 0), and a decoded header
holds these values. -/
theorem C24_gated_count_offset_pairs (archive : Archive) :
    AssetHeader.ReadFrom archive = AssetHeader.ReadFromInSteps archive ∧
    (∀ (data : List Byte) (p : Nat), p + 8 ≤ data.length →
      (archive.FileVersion ≥ 459 →
        AssetHeader.readGatherableTextData archive ⟨p, some data⟩
          = Outcome.ok ((signedAt data p 4, signedAt data (p + 4) 4), ⟨p + 8, some data⟩)) ∧
      (archive.FileVersion ≥ 384 →
        AssetHeader.readSoftPackageReferences archive ⟨p, some data⟩
          = Outcome.ok ((signedAt data p 4, signedAt data (p + 4) 4), ⟨p + 8, some data⟩)) ∧
      (archive.FileVersion ≥ 507 →
        AssetHeader.readPreloadDependency archive ⟨p, some data⟩
          = Outcome.ok ((signedAt data p 4, signedAt data (p + 4) 4), ⟨p + 8, some data⟩))) ∧
    (∀ r : BinaryReader,
      (archive.FileVersion < 459 →
        AssetHeader.readGatherableTextData archive r = Outcome.ok ((0, 0), r)) ∧
      (archive.FileVersion < 384 →
        AssetHeader.readSoftPackageReferences archive r = Outcome.ok ((0, 0), r)) ∧
      (archive.FileVersion < 507 →
        AssetHeader.readPreloadDependency archive r = Outcome.ok ((-1, 0), r))) ∧
    (∀ (r : BinaryReader) (h : AssetHeader) (r1 : BinaryReader),
      AssetHeader.ReadFrom archive r = Outcome.ok (h, r1) →
      (archive.FileVersion < 459 →
        h.GatherableTextDataCount = 0 ∧ h.GatherableTextDataOffset = 0) ∧
      (archive.FileVersion < 384 →
        h.SoftPackageReferencesCount = 0 ∧ h.SoftPackageReferencesOffset = 0) ∧
      (archive.FileVersion < 507 →
        h.PreloadDependencyCount = -1 ∧ h.PreloadDependencyOffset = 0)) := by
  have met : ∀ v : Int, archive.FileVersion ≥ v → decide (archive.FileVersion ≥ v) = true :=
    fun v hv => decide_eq_true hv
  have unmet : ∀ v : Int, archive.FileVersion < v → decide (archive.FileVersion ≥ v) = false :=
    fun v hv => decide_eq_false (by omega)
  refine ⟨AssetHeader.ReadFrom_eq_steps archive, ?_, ?_, ?_⟩
  · intro data p hp
    refine ⟨?_, ?_, ?_⟩
    · intro hv
      rw [AssetHeader.readGatherableTextData, Archive.Ue4Version.SerializeTextInPackages,
        met _ hv]
      exact conditionallyRead_met 0 0 data p hp
    · intro hv
      rw [AssetHeader.readSoftPackageReferences, Archive.Ue4Version.AddStringAssetReferencesMap,
        met _ hv]
      exact conditionallyRead_met 0 0 data p hp
    · intro hv
      rw [AssetHeader.readPreloadDependency,
        Archive.Ue4Version.PreloadDependenciesInCookedExports, met _ hv]
      exact conditionallyRead_met (-1) 0 data p hp
  · intro r
    refine ⟨?_, ?_, ?_⟩
    · intro hv
      rw [AssetHeader.readGatherableTextData, Archive.Ue4Version.SerializeTextInPackages,
        unmet _ hv]
      rfl
    · intro hv
      rw [AssetHeader.readSoftPackageReferences, Archive.Ue4Version.AddStringAssetReferencesMap,
        unmet _ hv]
      rfl
    · intro hv
      rw [AssetHeader.readPreloadDependency,
        Archive.Ue4Version.PreloadDependenciesInCookedExports, unmet _ hv]
      rfl
  · intro r h r1 hr
    obtain ⟨hg, hs, hp, _⟩ := AssetHeader.ReadFrom_provenance archive r h r1 hr
    refine ⟨?_, ?_, ?_⟩
    · intro hv
      have e := conditionallyRead_default hg
        (by rw [Archive.Ue4Version.SerializeTextInPackages]; exact unmet _ hv)
      simp only [Prod.mk.injEq] at e
      exact e
    · intro hv
      have e := conditionallyRead_default hs
        (by rw [Archive.Ue4Version.AddStringAssetReferencesMap]; exact unmet _ hv)
      simp only [Prod.mk.injEq] at e
      exact e
    · intro hv
      have e := conditionallyRead_default hp
        (by rw [Archive.Ue4Version.PreloadDependenciesInCookedExports]; exact unmet _ hv)
      simp only [Prod.mk.injEq] at e
      exact e

/-- C24 at fileVersion 522 on the bytes of the pair (1, -2), and at fileVersion
300, where nothing is read and the header decoded from 208 zero bytes has the
PreloadDependency pair (-1, 0). -/
theorem C24_gated_count_offset_pairs_witness :
    AssetHeader.readPreloadDependency { FileVersion := 522 }
        ⟨0, some [1, 0, 0, 0, 254, 255, 255, 255]⟩
      = Outcome.ok ((1, -2), ⟨8, some [1, 0, 0, 0, 254, 255, 255, 255]⟩) ∧
    AssetHeader.readPreloadDependency { FileVersion := 300 }
        ⟨0, some [1, 0, 0, 0, 254, 255, 255, 255]⟩
      = Outcome.ok ((-1, 0), ⟨0, some [1, 0, 0, 0, 254, 255, 255, 255]⟩) ∧
    AssetHeader.ReadFrom { LegacyVersion := -7, FileVersion := 300 } ⟨0, some sampleZeroBytes⟩
      = Outcome.ok (sampleEarlyHeader, ⟨117, some sampleZeroBytes⟩) ∧
    sampleEarlyHeader.PreloadDependencyCount = -1 ∧
    sampleEarlyHeader.PreloadDependencyOffset = 0 := by
  refine ⟨?_, ?_, by decide!, ?_⟩
  · rw [((C24_gated_count_offset_pairs { FileVersion := 522 }).2.1
      [1, 0, 0, 0, 254, 255, 255, 255] 0 (by decide)).2.2 (by decide)]
    decide
  · exact ((C24_gated_count_offset_pairs { FileVersion := 300 }).2.2.1 _).2.2 (by decide)
  · exact ((C24_gated_count_offset_pairs { LegacyVersion := -7, FileVersion := 300 }).2.2.2
      ⟨0, some sampleZeroBytes⟩ sampleEarlyHeader ⟨117, some sampleZeroBytes⟩
      (by decide!)).2.2 (by decide)

/-- C25: the engine versions of the header.  For fileVersion < 336 four bytes are
read as a u32 changelist and SavedByEngineVersion is made from it with major 4,
minor 0, patch 0 and an empty branch name; from 336 on it is
`UnrealEngineVersion::ReadFrom`, which reads three u16, a u32 and an inline
string.  For fileVersion < 444 CompatibleWithEngineVersion is the value of
SavedByEngineVersion and the cursor stays; from 444 on it is
`UnrealEngineVersion::ReadFrom`. -/
theorem C25_engine_versions (archive : Archive) :
    AssetHeader.ReadFrom archive = AssetHeader.ReadFromInSteps archive ∧
    (archive.FileVersion < 336 →
      ∀ (data : List Byte) (p : Nat), p + 4 ≤ data.length →
        AssetHeader.readSavedByEngineVersion archive ⟨p, some data⟩
          = Outcome.ok ({ Major := 4, Minor := 0, Patch := 0,
                          ChangelistAndLicenseeBit := unsignedAt data p 4, BranchName := [] },
                        ⟨p + 4, some data⟩)) ∧
    (archive.FileVersion ≥ 336 →
      AssetHeader.readSavedByEngineVersion archive = UnrealEngineVersion.ReadFrom) ∧
    (archive.FileVersion < 444 →
      ∀ (savedByEngineVersion : UnrealEngineVersion) (r : BinaryReader),
        AssetHeader.readCompatibleWithEngineVersion archive savedByEngineVersion r
          = Outcome.ok (savedByEngineVersion, r)) ∧
    (archive.FileVersion ≥ 444 →
      ∀ savedByEngineVersion : UnrealEngineVersion,
        AssetHeader.readCompatibleWithEngineVersion archive savedByEngineVersion
          = UnrealEngineVersion.ReadFrom) ∧
    (∀ (data : List Byte) (p : Nat), p + 10 ≤ data.length →
      UnrealEngineVersion.ReadFrom ⟨p, some data⟩
        = (BinaryReader.ReadInlineUnrealString ⟨p + 10, some data⟩).bind (fun branchName =>
            Outcome.ok ({ Major := unsignedAt data p 2, Minor := unsignedAt data (p + 2) 2,
                          Patch := unsignedAt data (p + 4) 2,
                          ChangelistAndLicenseeBit := unsignedAt data (p + 6) 4,
                          BranchName := branchName.1 }, branchName.2))) ∧
    (∀ (r : BinaryReader) (h : AssetHeader) (r1 : BinaryReader),
      AssetHeader.ReadFrom archive r = Outcome.ok (h, r1) →
      (archive.FileVersion < 444 → h.CompatibleWithEngineVersion = h.SavedByEngineVersion) ∧
      (archive.FileVersion < 336 →
        h.SavedByEngineVersion.Major = 4 ∧ h.SavedByEngineVersion.Minor = 0 ∧
        h.SavedByEngineVersion.Patch = 0 ∧ h.SavedByEngineVersion.BranchName = [])) := by
  refine ⟨AssetHeader.ReadFrom_eq_steps archive, ?_, ?_, ?_, ?_,
    UnrealEngineVersion.readVersion_inside, ?_⟩
  · intro hv data p hp
    rw [AssetHeader.readSavedByEngineVersion, Archive.Ue4Version.EngineVersionObject,
      if_neg (by omega), Decoder.bind_apply, ReadUint32_inside data p hp]
    rfl
  · intro hv
    rw [AssetHeader.readSavedByEngineVersion, Archive.Ue4Version.EngineVersionObject,
      if_pos hv]
  · intro hv saved r
    rw [AssetHeader.readCompatibleWithEngineVersion,
      Archive.Ue4Version.PackageSummaryHasCompatibleEngineVersion, if_neg (by omega)]
    rfl
  · intro hv saved
    rw [AssetHeader.readCompatibleWithEngineVersion,
      Archive.Ue4Version.PackageSummaryHasCompatibleEngineVersion, if_pos hv]
  · intro r h r1 hr
    obtain ⟨_, _, _, hsaved, hcompatible, _⟩ := AssetHeader.ReadFrom_provenance archive r h r1 hr
    constructor
    · intro hv
      exact gated_default hcompatible
        (by simp only [Archive.Ue4Version.PackageSummaryHasCompatibleEngineVersion]; omega)
    · intro hv
      obtain ⟨s, s1, hs⟩ := gated_result hsaved
        (by simp only [Archive.Ue4Version.EngineVersionObject]; omega)
      rw [Decoder.bind_apply] at hs
      cases hc : BinaryReader.ReadUint32 s with
      | thrown e => rw [hc] at hs; cases hs
      | undefined => rw [hc] at hs; cases hs
      | ok c =>
        rw [hc] at hs
        simp only [Outcome.bind_ok, Decoder.pure_apply, Outcome.ok.injEq, Prod.mk.injEq] at hs
        rw [← hs.1]
        exact ⟨rfl, rfl, rfl, rfl⟩

/-- C25 at fileVersion 300 on the changelist 0x01020304, and in the header
decoded from 208 zero bytes. -/
theorem C25_engine_versions_witness :
    AssetHeader.readSavedByEngineVersion { FileVersion := 300 } ⟨0, some [4, 3, 2, 1, 9]⟩
      = Outcome.ok ({ Major := 4, Minor := 0, Patch := 0,
                      ChangelistAndLicenseeBit := 0x01020304, BranchName := [] },
                    ⟨4, some [4, 3, 2, 1, 9]⟩) ∧
    AssetHeader.readCompatibleWithEngineVersion { FileVersion := 443 } { Major := 4, Minor := 27 }
        ⟨0, some [4, 3, 2, 1, 9]⟩
      = Outcome.ok ({ Major := 4, Minor := 27 }, ⟨0, some [4, 3, 2, 1, 9]⟩) ∧
    UnrealEngineVersion.ReadFrom ⟨0, some [5, 0, 3, 0, 2, 0, 4, 3, 2, 1, 2, 0, 0, 0, 65, 0]⟩
      = Outcome.ok ({ Major := 5, Minor := 3, Patch := 2,
                      ChangelistAndLicenseeBit := 0x01020304, BranchName := [65] },
                    ⟨16, some [5, 0, 3, 0, 2, 0, 4, 3, 2, 1, 2, 0, 0, 0, 65, 0]⟩) ∧
    sampleEarlyHeader.CompatibleWithEngineVersion = sampleEarlyHeader.SavedByEngineVersion := by
  refine ⟨?_, ?_, ?_, ?_⟩
  · rw [(C25_engine_versions { FileVersion := 300 }).2.1 (by decide) [4, 3, 2, 1, 9] 0
      (by decide)]
    decide
  · exact (C25_engine_versions { FileVersion := 443 }).2.2.2.1 (by decide) _ _
  · rw [(C25_engine_versions {}).2.2.2.2.2.1
      [5, 0, 3, 0, 2, 0, 4, 3, 2, 1, 2, 0, 0, 0, 65, 0] 0 (by decide)]
    decide
  · exact ((C25_engine_versions { LegacyVersion := -7, FileVersion := 300 }).2.2.2.2.2.2
      ⟨0, some sampleZeroBytes⟩ sampleEarlyHeader ⟨117, some sampleZeroBytes⟩
      (by decide!)).1 (by decide)

/-- C26: the ChunkIds of the header.  For fileVersion < 278 nothing is read and
the list is empty; for 278 ≤ fileVersion < 326 one i32 is read and the list holds
it alone; for fileVersion ≥ 326 an i32 count `n` is read and then `n` i32, which
make the list in the order read. -/
theorem C26_chunk_ids (archive : Archive) :
    AssetHeader.ReadFrom archive = AssetHeader.ReadFromInSteps archive ∧
    (archive.FileVersion < 278 →
      ∀ r : BinaryReader, AssetHeader.readChunkIds archive r = Outcome.ok ([], r)) ∧
    (archive.FileVersion ≥ 278 → archive.FileVersion < 326 →
      ∀ (data : List Byte) (p : Nat), p + 4 ≤ data.length →
        AssetHeader.readChunkIds archive ⟨p, some data⟩
          = Outcome.ok ([signedAt data p 4], ⟨p + 4, some data⟩)) ∧
    (archive.FileVersion ≥ 326 →
      ∀ (data : List Byte) (p n : Nat), p + 4 ≤ data.length →
        signedAt data p 4 = (n : Int) → p + 4 + 4 * n ≤ data.length →
        AssetHeader.readChunkIds archive ⟨p, some data⟩
          = Outcome.ok ((List.range n).map (fun j => signedAt data (p + 4 + 4 * j) 4),
              ⟨p + 4 + 4 * n, some data⟩)) ∧
    (archive.FileVersion ≥ 326 →
      ∀ (data : List Byte) (p : Nat), p + 4 ≤ data.length → signedAt data p 4 < 0 →
        AssetHeader.readChunkIds archive ⟨p, some data⟩
          = Outcome.thrown CppException.length_error) ∧
    (∀ (r : BinaryReader) (h : AssetHeader) (r1 : BinaryReader),
      AssetHeader.ReadFrom archive r = Outcome.ok (h, r1) →
      (archive.FileVersion < 278 → h.ChunkIds = []) ∧
      (archive.FileVersion ≥ 278 → archive.FileVersion < 326 → h.ChunkIds.length = 1)) := by
  refine ⟨AssetHeader.ReadFrom_eq_steps archive, ?_, ?_, ?_, ?_, ?_⟩
  · intro hv r
    rw [AssetHeader.readChunkIds, Archive.Ue4Version.AddedChunkidToAssetdataAndUpackage,
      if_neg (by omega)]
    rfl
  · intro hv1 hv2 data p hp
    rw [AssetHeader.readChunkIds, Archive.Ue4Version.AddedChunkidToAssetdataAndUpackage,
      Archive.Ue4Version.ChangedChunkidToBeAnArrayOfChunkids, if_pos hv1, if_neg (by omega),
      Decoder.bind_apply, ReadInt32_inside data p hp]
    rfl
  · intro hv data p n hp hn hroom
    rw [AssetHeader.readChunkIds, Archive.Ue4Version.AddedChunkidToAssetdataAndUpackage,
      Archive.Ue4Version.ChangedChunkidToBeAnArrayOfChunkids, if_pos (by omega), if_pos hv,
      BinaryReader.ReadInlineUnrealArray, Decoder.bind_apply, ReadInt32_inside data p hp]
    simp only [Outcome.bind_ok]
    rw [hn, BinaryReader.readUnrealArray, if_neg (by omega), Int.toNat_natCast,
      readElements_ReadInt32 data n (p + 4) [] hroom, List.nil_append]
  · intro hv data p hp hneg
    rw [AssetHeader.readChunkIds, Archive.Ue4Version.AddedChunkidToAssetdataAndUpackage,
      Archive.Ue4Version.ChangedChunkidToBeAnArrayOfChunkids, if_pos (by omega), if_pos hv,
      BinaryReader.ReadInlineUnrealArray, Decoder.bind_apply, ReadInt32_inside data p hp]
    simp only [Outcome.bind_ok]
    rw [BinaryReader.readUnrealArray, if_pos hneg]
    rfl
  · intro r h r1 hr
    obtain ⟨_, _, _, _, _, hchunk, _⟩ := AssetHeader.ReadFrom_provenance archive r h r1 hr
    constructor
    · intro hv
      exact gated_default hchunk
        (by simp only [Archive.Ue4Version.AddedChunkidToAssetdataAndUpackage]; omega)
    · intro hv1 hv2
      obtain ⟨s, v, s1, hs, rfl⟩ := hchunk
      rw [AssetHeader.readChunkIds, Archive.Ue4Version.AddedChunkidToAssetdataAndUpackage,
        Archive.Ue4Version.ChangedChunkidToBeAnArrayOfChunkids, if_pos hv1, if_neg (by omega),
        Decoder.bind_apply] at hs
      cases hc : BinaryReader.ReadInt32 s with
      | thrown e => rw [hc] at hs; cases hs
      | undefined => rw [hc] at hs; cases hs
      | ok c =>
        rw [hc] at hs
        simp only [Outcome.bind_ok, Decoder.pure_apply, Outcome.ok.injEq, Prod.mk.injEq] at hs
        rw [← hs.1]
        rfl

/-- C26 on `sampleChunkIdArray`: nothing at fileVersion 277, the list [3] at
fileVersion 300, the list [7, -1, 9] at fileVersion 522; the header decoded from
208 zero bytes at fileVersion 300 has one chunk id. -/
theorem C26_chunk_ids_witness :
    AssetHeader.readChunkIds { FileVersion := 277 } ⟨0, some sampleChunkIdArray⟩
      = Outcome.ok ([], ⟨0, some sampleChunkIdArray⟩) ∧
    AssetHeader.readChunkIds { FileVersion := 300 } ⟨0, some sampleChunkIdArray⟩
      = Outcome.ok ([3], ⟨4, some sampleChunkIdArray⟩) ∧
    AssetHeader.readChunkIds { FileVersion := 522 } ⟨0, some sampleChunkIdArray⟩
      = Outcome.ok ([7, -1, 9], ⟨16, some sampleChunkIdArray⟩) ∧
    sampleEarlyHeader.ChunkIds.length = 1 := by
  refine ⟨?_, ?_, ?_, ?_⟩
  · exact (C26_chunk_ids { FileVersion := 277 }).2.1 (by decide) _
  · rw [(C26_chunk_ids { FileVersion := 300 }).2.2.1 (by decide) (by decide)
      sampleChunkIdArray 0 (by decide)]
    decide
  · rw [(C26_chunk_ids { FileVersion := 522 }).2.2.2.1 (by decide)
      sampleChunkIdArray 0 3 (by decide) (by decide) (by decide)]
    decide
  · exact ((C26_chunk_ids { LegacyVersion := -7, FileVersion := 300 }).2.2.2.2.2
      ⟨0, some sampleZeroBytes⟩ sampleEarlyHeader ⟨117, some sampleZeroBytes⟩
      (by decide!)).2 (by decide) (by decide)

/-- C27: the trailing header fields gated on fileVersionUe5.
NamesReferencedFromExportDataCount is an i32 read in place when fileVersionUe5 ≥
1001, and otherwise the length of the Names table with the cursor left in place.
PayloadTocOffset is an i64 read in place when fileVersionUe5 ≥ 1002, otherwise
-1.  DataResourceOffset is, when fileVersionUe5 ≥ 1009, the i32 read in place if
that is greater than 0 and otherwise 0; below 1009 nothing is read and it is 0.
In every decoded header DataResourceOffset ≥ 0. -/
theorem C27_ue5_trailing_fields (archive : Archive) :
    AssetHeader.ReadFrom archive = AssetHeader.ReadFromInSteps archive ∧
    (archive.FileVersionUe5 ≥ 1001 →
      ∀ (names : List (List Byte)) (data : List Byte) (p : Nat), p + 4 ≤ data.length →
        AssetHeader.readNamesReferencedFromExportDataCount archive names ⟨p, some data⟩
          = Outcome.ok (signedAt data p 4, ⟨p + 4, some data⟩)) ∧
    (archive.FileVersionUe5 < 1001 →
      ∀ (names : List (List Byte)) (r : BinaryReader), names.length < 2 ^ 31 →
        AssetHeader.readNamesReferencedFromExportDataCount archive names r
          = Outcome.ok ((names.length : Int), r)) ∧
    (archive.FileVersionUe5 ≥ 1002 →
      ∀ (data : List Byte) (p : Nat), p + 8 ≤ data.length →
        AssetHeader.readPayloadTocOffset archive ⟨p, some data⟩
          = Outcome.ok (signedAt data p 8, ⟨p + 8, some data⟩)) ∧
    (archive.FileVersionUe5 < 1002 →
      ∀ r : BinaryReader, AssetHeader.readPayloadTocOffset archive r = Outcome.ok (-1, r)) ∧
    (archive.FileVersionUe5 ≥ 1009 →
      ∀ (data : List Byte) (p : Nat), p + 4 ≤ data.length →
        AssetHeader.readDataResourceOffset archive ⟨p, some data⟩
          = Outcome.ok ((if signedAt data p 4 > 0 then signedAt data p 4 else 0),
              ⟨p + 4, some data⟩)) ∧
    (archive.FileVersionUe5 < 1009 →
      ∀ r : BinaryReader, AssetHeader.readDataResourceOffset archive r = Outcome.ok (0, r)) ∧
    (∀ (r : BinaryReader) (h : AssetHeader) (r1 : BinaryReader),
      AssetHeader.ReadFrom archive r = Outcome.ok (h, r1) →
      (archive.FileVersionUe5 < 1001 →
        h.NamesReferencedFromExportDataCount = (h.Names.length : Int)) ∧
      (archive.FileVersionUe5 < 1002 → h.PayloadTocOffset = -1) ∧
      (archive.FileVersionUe5 < 1009 → h.DataResourceOffset = 0) ∧
      0 ≤ h.DataResourceOffset) := by
  refine ⟨AssetHeader.ReadFrom_eq_steps archive, ?_, ?_, ?_, ?_, ?_, ?_,
    AssetHeader.ReadFrom_trailing archive⟩
  · intro hv names data p hp
    rw [AssetHeader.readNamesReferencedFromExportDataCount,
      Archive.Ue5Version.NamesReferencedFromExportData, if_pos hv, ReadInt32_inside data p hp]
  · intro hv names r hlen
    rw [AssetHeader.readNamesReferencedFromExportDataCount,
      Archive.Ue5Version.NamesReferencedFromExportData, if_neg (by omega),
      toSigned_of_length _ hlen]
    rfl
  · intro hv data p hp
    rw [AssetHeader.readPayloadTocOffset, Archive.Ue5Version.PayloadToc, if_pos hv,
      ReadInt64_inside data p hp]
  · intro hv r
    rw [AssetHeader.readPayloadTocOffset, Archive.Ue5Version.PayloadToc, if_neg (by omega)]
    rfl
  · intro hv data p hp
    rw [AssetHeader.readDataResourceOffset, Archive.Ue5Version.DataResources, if_pos hv,
      Decoder.bind_apply, ReadInt32_inside data p hp]
    rfl
  · intro hv r
    rw [AssetHeader.readDataResourceOffset, Archive.Ue5Version.DataResources,
      if_neg (by omega)]
    rfl

/-- C27 at fileVersionUe5 1009 on the i32 values 5 and -1, at fileVersionUe5 0 on
a table of two names, and in the header decoded from 208 zero bytes. -/
theorem C27_ue5_trailing_fields_witness :
    AssetHeader.readDataResourceOffset { FileVersionUe5 := 1009 } ⟨0, some [5, 0, 0, 0]⟩
      = Outcome.ok (5, ⟨4, some [5, 0, 0, 0]⟩) ∧
    AssetHeader.readDataResourceOffset { FileVersionUe5 := 1009 }
        ⟨0, some [255, 255, 255, 255]⟩
      = Outcome.ok (0, ⟨4, some [255, 255, 255, 255]⟩) ∧
    AssetHeader.readDataResourceOffset { FileVersionUe5 := 1008 } ⟨0, some [5, 0, 0, 0]⟩
      = Outcome.ok (0, ⟨0, some [5, 0, 0, 0]⟩) ∧
    AssetHeader.readNamesReferencedFromExportDataCount { FileVersionUe5 := 1001 } [[78], [79]]
        ⟨0, some [5, 0, 0, 0]⟩
      = Outcome.ok (5, ⟨4, some [5, 0, 0, 0]⟩) ∧
    AssetHeader.readNamesReferencedFromExportDataCount {} [[78], [79]] ⟨0, some [5, 0, 0, 0]⟩
      = Outcome.ok (2, ⟨0, some [5, 0, 0, 0]⟩) ∧
    AssetHeader.readPayloadTocOffset { FileVersionUe5 := 1002 }
        ⟨0, some [254, 255, 255, 255, 255, 255, 255, 255]⟩
      = Outcome.ok (-2, ⟨8, some [254, 255, 255, 255, 255, 255, 255, 255]⟩) ∧
    AssetHeader.readPayloadTocOffset { FileVersionUe5 := 1001 } ⟨0, some [5, 0, 0, 0]⟩
      = Outcome.ok (-1, ⟨0, some [5, 0, 0, 0]⟩) ∧
    sampleEarlyHeader.PayloadTocOffset = -1 := by
  refine ⟨?_, ?_, ?_, ?_, ?_, ?_, ?_, ?_⟩
  · rw [(C27_ue5_trailing_fields { FileVersionUe5 := 1009 }).2.2.2.2.2.1 (by decide)
      [5, 0, 0, 0] 0 (by decide)]
    decide
  · rw [(C27_ue5_trailing_fields { FileVersionUe5 := 1009 }).2.2.2.2.2.1 (by decide)
      [255, 255, 255, 255] 0 (by decide)]
    decide
  · exact (C27_ue5_trailing_fields { FileVersionUe5 := 1008 }).2.2.2.2.2.2.1 (by decide) _
  · rw [(C27_ue5_trailing_fields { FileVersionUe5 := 1001 }).2.1 (by decide)
      [[78], [79]] [5, 0, 0, 0] 0 (by decide)]
    decide
  · exact (C27_ue5_trailing_fields {}).2.2.1 (by decide) [[78], [79]] _ (by decide)
  · rw [(C27_ue5_trailing_fields { FileVersionUe5 := 1002 }).2.2.2.1 (by decide)
      [254, 255, 255, 255, 255, 255, 255, 255] 0 (by decide)]
    decide
  · exact (C27_ue5_trailing_fields { FileVersionUe5 := 1001 }).2.2.2.2.1 (by decide) _
  · exact ((C27_ue5_trailing_fields { LegacyVersion := -7, FileVersion := 300 }).2.2.2.2.2.2.2
      ⟨0, some sampleZeroBytes⟩ sampleEarlyHeader ⟨117, some sampleZeroBytes⟩
      (by decide!)).2.1 (by decide)

/-- C28: the dependency fields of an export record.  For fileVersion ≥ 507 the
last 20 bytes of the record are five i32: the first is FirstExportDependency,
the third CreateBeforeSerializationDependencies, the fifth
CreateBeforeCreateDependencies, and SerializationBeforeCreateDependencies is the
fourth (the second, read into the same member, is overwritten).
SerializationBeforeSerializationDependencies is 0 in every record decoded. -/
theorem C28_export_dependency_fields (archive : Archive) (assetHeader : AssetHeader) :
    (∀ (data : List Byte) (p : Nat),
      archive.FileVersion ≥ 507 →
      p + ObjectExport.specifiedSize archive.FileVersion archive.FileVersionUe5
            ≤ data.length →
      ∃ (e : ObjectExport) (q : Nat),
        q + 20 = p + ObjectExport.specifiedSize archive.FileVersion archive.FileVersionUe5 ∧
        ObjectExport.ReadFrom archive assetHeader ⟨p, some data⟩
          = Outcome.ok (e, ⟨q + 20, some data⟩) ∧
        e.FirstExportDependency = signedAt data q 4 ∧
        e.CreateBeforeSerializationDependencies = signedAt data (q + 8) 4 ∧
        e.SerializationBeforeCreateDependencies = signedAt data (q + 12) 4 ∧
        e.CreateBeforeCreateDependencies = signedAt data (q + 16) 4 ∧
        e.SerializationBeforeSerializationDependencies = 0) ∧
    (∀ (r : BinaryReader) (e : ObjectExport) (r1 : BinaryReader),
      ObjectExport.ReadFrom archive assetHeader r = Outcome.ok (e, r1) →
      e.SerializationBeforeSerializationDependencies = 0) := by
  constructor
  · intro data p h507 h
    have hsize : ∃ q, q + 20
        = p + ObjectExport.specifiedSize archive.FileVersion archive.FileVersionUe5 ∧
        q = p + 8 + (if archive.FileVersion ≥ 508 then 4 else 0) + 16
              + (if archive.FileVersion < 511 then 8 else 16) + 12
              + (if archive.FileVersionUe5 < 1005 then 16 else 0)
              + (if archive.FileVersionUe5 ≥ 1006 then 4 else 0) + 4
              + (if archive.FileVersion ≥ 365 then 4 else 0)
              + (if archive.FileVersion ≥ 485 then 4 else 0)
              + (if archive.FileVersionUe5 ≥ 1003 then 4 else 0) := by
      refine ⟨_, ?_, rfl⟩
      simp only [ObjectExport.specifiedSize, if_pos h507, mul_ite, mul_one, mul_zero]
      omega
    obtain ⟨q, hq, hqdef⟩ := hsize
    refine ⟨ObjectExport.specifiedAt archive.FileVersion archive.FileVersionUe5 data p,
      q, hq, ?_, ?_⟩
    · rw [hq]
      exact ObjectExport.readExport_readsExactly archive assetHeader data p h
    · subst hqdef
      simp only [ObjectExport.specifiedAt, if_pos h507, and_self]
  · intro r e r1 hr
    exact (ObjectExport.readExport_defaults archive assetHeader r e r1 hr).2.1

/-- C28 on `sampleExportRecord`, whose last five i32 are 21, 22, 23, 24, 25: the
record holds 21, 23, 24 and 25, and 22 is lost. -/
theorem C28_export_dependency_fields_witness :
    ∃ e : ObjectExport,
      ObjectExport.ReadFrom { FileVersion := 510 } {} ⟨0, some sampleExportRecord⟩
        = Outcome.ok (e, ⟨96, some sampleExportRecord⟩) ∧
      e.FirstExportDependency = 21 ∧
      e.CreateBeforeSerializationDependencies = 23 ∧
      e.SerializationBeforeCreateDependencies = 24 ∧
      e.CreateBeforeCreateDependencies = 25 ∧
      e.SerializationBeforeSerializationDependencies = 0 := by
  obtain ⟨e, q, hq, hread, h1, h3, h4, h5, h0⟩ :=
    (C28_export_dependency_fields { FileVersion := 510 } {}).1 sampleExportRecord 0
      (by decide) (by decide)
  have hq76 : q = 76 := by
    have : ObjectExport.specifiedSize 510 0 = 96 := by decide
    simp only [this] at hq
    omega
  subst hq76
  exact ⟨e, hread, h1.trans (by decide), h3.trans (by decide), h4.trans (by decide),
    h5.trans (by decide), h0⟩

/-- C29: `ReadInt32AndConvertToBool` never rejects a value.  At every cursor with
four bytes left it reads the i32 there, returns whether it is non-zero and moves
the cursor by 4: every value other than 0, also a negative one or one greater
than 1, gives true.  No run of it ends in a thrown exception. -/
theorem C29_bool_from_int32 :
    (∀ (data : List Byte) (p : Nat), p + 4 ≤ data.length →
      BinaryReader.ReadInt32AndConvertToBool ⟨p, some data⟩
        = Outcome.ok (decide (signedAt data p 4 ≠ 0), ⟨p + 4, some data⟩) ∧
      (signedAt data p 4 ≠ 0 →
        BinaryReader.ReadInt32AndConvertToBool ⟨p, some data⟩
          = Outcome.ok (true, ⟨p + 4, some data⟩)) ∧
      (signedAt data p 4 = 0 →
        BinaryReader.ReadInt32AndConvertToBool ⟨p, some data⟩
          = Outcome.ok (false, ⟨p + 4, some data⟩))) ∧
    Decoder.NoThrow BinaryReader.ReadInt32AndConvertToBool := by
  constructor
  · intro data p h
    have hread : BinaryReader.ReadInt32AndConvertToBool ⟨p, some data⟩
        = Outcome.ok (decide (signedAt data p 4 ≠ 0), ⟨p + 4, some data⟩) :=
      ReadInt32AndConvertToBool_readsExactly data p h
    refine ⟨hread, ?_, ?_⟩
    · intro hne
      rw [hread, decide_eq_true hne]
    · intro hz
      rw [hread, hz]
      rfl
  · unfold BinaryReader.ReadInt32AndConvertToBool
    exact Decoder.NoThrow.bind ReadInt32_noThrow (fun _ => Decoder.NoThrow.pure _)

/-- C29 on the values 2, -1 and 0. -/
theorem C29_bool_from_int32_witness :
    BinaryReader.ReadInt32AndConvertToBool ⟨0, some [2, 0, 0, 0]⟩
      = Outcome.ok (true, ⟨4, some [2, 0, 0, 0]⟩) ∧
    BinaryReader.ReadInt32AndConvertToBool ⟨0, some [255, 255, 255, 255]⟩
      = Outcome.ok (true, ⟨4, some [255, 255, 255, 255]⟩) ∧
    BinaryReader.ReadInt32AndConvertToBool ⟨0, some [0, 0, 0, 0]⟩
      = Outcome.ok (false, ⟨4, some [0, 0, 0, 0]⟩) :=
  ⟨(C29_bool_from_int32.1 [2, 0, 0, 0] 0 (by decide)).2.1 (by decide),
   (C29_bool_from_int32.1 [255, 255, 255, 255] 0 (by decide)).2.1 (by decide),
   (C29_bool_from_int32.1 [0, 0, 0, 0] 0 (by decide)).2.2 (by decide)⟩

/-- C30: a preamble with legacyVersion > -8 gives fileVersionUe5 = 0, and with it
every decision gated on fileVersionUe5 takes its first branch.  A header decoded
with that archive has NamesReferencedFromExportDataCount equal to the length of
Names, PayloadTocOffset -1 and DataResourceOffset 0; every export of its table
has IsInheritedInstance and GeneratePublicHash false and every import has
ImportOptional false.  An export record is read with the 16 bytes of the package
GUID skipped between the three flags and PackageFlags, and with no byte for
IsInheritedInstance or GeneratePublicHash; an import record is read with no byte
for ImportOptional. -/
theorem C30_pre_ue5_branches (r : BinaryReader) (archive : Archive) (r0 : BinaryReader)
    (hread : Archive.ReadFrom r = Outcome.ok (archive, r0))
    (hlegacy : archive.LegacyVersion > -8) :
    archive.FileVersionUe5 = 0 ∧
    (∀ (s : BinaryReader) (h : AssetHeader) (s1 : BinaryReader),
      AssetHeader.ReadFrom archive s = Outcome.ok (h, s1) →
      h.NamesReferencedFromExportDataCount = (h.Names.length : Int) ∧
      h.PayloadTocOffset = -1 ∧ h.DataResourceOffset = 0 ∧
      (∀ e ∈ h.Exports, e.IsInheritedInstance = false ∧ e.GeneratePublicHash = false) ∧
      (∀ i ∈ h.Imports, i.ImportOptional = false)) ∧
    (∀ (assetHeader : AssetHeader) (data : List Byte) (p : Nat),
      p + (56 + (if archive.FileVersion ≥ 508 then 4 else 0)
            + (if archive.FileVersion < 511 then 8 else 16)
            + (if archive.FileVersion ≥ 365 then 4 else 0)
            + (if archive.FileVersion ≥ 485 then 4 else 0)
            + (if archive.FileVersion ≥ 507 then 20 else 0)) ≤ data.length →
      ∃ e : ObjectExport,
        ObjectExport.ReadFrom archive assetHeader ⟨p, some data⟩
          = Outcome.ok (e,
              ⟨p + (56 + (if archive.FileVersion ≥ 508 then 4 else 0)
                  + (if archive.FileVersion < 511 then 8 else 16)
                  + (if archive.FileVersion ≥ 365 then 4 else 0)
                  + (if archive.FileVersion ≥ 485 then 4 else 0)
                  + (if archive.FileVersion ≥ 507 then 20 else 0)), some data⟩) ∧
        e.IsInheritedInstance = false ∧ e.GeneratePublicHash = false ∧
        e.NotForServer
          = decide (signedAt data (p + 32 + (if archive.FileVersion ≥ 508 then 4 else 0)
              + (if archive.FileVersion < 511 then 8 else 16)) 4 ≠ 0) ∧
        e.PackageFlags
          = unsignedAt data (p + 52 + (if archive.FileVersion ≥ 508 then 4 else 0)
              + (if archive.FileVersion < 511 then 8 else 16)) 4) ∧
    (∀ (assetHeader : AssetHeader) (data : List Byte) (p : Nat),
      p + (28 + (if assetHeader.PackageFlags &&& 0x80000000 = 0 ∧ archive.FileVersion ≥ 520
            then 8 else 0)) ≤ data.length →
      ∃ i : ObjectImport,
        ObjectImport.ReadFrom archive assetHeader ⟨p, some data⟩
          = Outcome.ok (i,
              ⟨p + (28 + (if assetHeader.PackageFlags &&& 0x80000000 = 0
                  ∧ archive.FileVersion ≥ 520 then 8 else 0)), some data⟩) ∧
        i.ImportOptional = false) := by
  have hue5 : archive.FileVersionUe5 = 0 := Archive.ReadFrom_pre_ue5 r archive r0 hread hlegacy
  refine ⟨hue5, ?_, ?_, ?_⟩
  · intro s h s1 hs
    obtain ⟨h1, h2, h3, _⟩ := AssetHeader.ReadFrom_trailing archive s h s1 hs
    obtain ⟨he, hi⟩ := AssetHeader.ReadFrom_records archive s h s1 hs
    refine ⟨h1 (by omega), h2 (by omega), h3 (by omega), ?_, ?_⟩
    · intro e hmem
      exact ⟨(he e hmem).2.2.2.1 (by omega), (he e hmem).2.2.2.2 (by omega)⟩
    · intro i hmem
      exact hi i hmem (by omega)
  · intro assetHeader data p hp
    have hsize : ObjectExport.specifiedSize archive.FileVersion archive.FileVersionUe5
        = 56 + (if archive.FileVersion ≥ 508 then 4 else 0)
            + (if archive.FileVersion < 511 then 8 else 16)
            + (if archive.FileVersion ≥ 365 then 4 else 0)
            + (if archive.FileVersion ≥ 485 then 4 else 0)
            + (if archive.FileVersion ≥ 507 then 20 else 0) := by
      rw [hue5]
      simp only [ObjectExport.specifiedSize, mul_ite, mul_one, mul_zero,
        if_pos (show (0 : Int) < 1005 by decide), if_neg (show ¬ (0 : Int) ≥ 1006 by decide),
        if_neg (show ¬ (0 : Int) ≥ 1003 by decide)]
      omega
    have hrun := ObjectExport.readExport_readsExactly archive assetHeader data p
      (by rw [hsize]; exact hp)
    rw [hsize] at hrun
    refine ⟨_, hrun, ?_, ?_, ?_, ?_⟩
    · simp only [ObjectExport.specifiedAt, hue5]
      rfl
    · simp only [ObjectExport.specifiedAt, hue5]
      rfl
    · simp only [ObjectExport.specifiedAt]
      exact congrArg (fun q => decide (signedAt data q 4 ≠ 0)) (by omega)
    · simp only [ObjectExport.specifiedAt, hue5, if_pos (show (0 : Int) < 1005 by decide),
        if_neg (show ¬ (0 : Int) ≥ 1006 by decide)]
      exact congrArg (fun q => unsignedAt data q 4) (by omega)
  · intro assetHeader data p hp
    have hsize : ObjectImport.specifiedSize archive.FileVersion archive.FileVersionUe5
          assetHeader.PackageFlags
        = 28 + (if assetHeader.PackageFlags &&& 0x80000000 = 0 ∧ archive.FileVersion ≥ 520
            then 8 else 0) := by
      rw [hue5]
      simp only [ObjectImport.specifiedSize, mul_ite, mul_one, mul_zero,
        if_neg (show ¬ (0 : Int) ≥ 1003 by decide)]
      omega
    have hrun := ObjectImport.readImport_readsExactly archive assetHeader data p
      (by rw [hsize]; exact hp)
    rw [hsize] at hrun
    refine ⟨_, hrun, ?_⟩
    simp only [ObjectImport.specifiedAt, hue5]
    rfl

/-- C30 on `sampleBlueprintFile`, whose preamble has legacyVersion -7: the header
decoded at 20 has NamesReferencedFromExportDataCount 6 = the length of Names, and
its export and its import have the three flags false. -/
theorem C30_pre_ue5_branches_witness :
    Archive.ReadFrom ⟨0, some sampleBlueprintFile⟩
      = Outcome.ok (sampleArchive, ⟨20, some sampleBlueprintFile⟩) ∧
    sampleArchive.LegacyVersion > -8 ∧
    sampleArchive.FileVersionUe5 = 0 ∧
    AssetHeader.ReadFrom sampleArchive ⟨20, some sampleBlueprintFile⟩
      = Outcome.ok (sampleBlueprintHeader, ⟨212, some sampleBlueprintFile⟩) ∧
    sampleBlueprintHeader.NamesReferencedFromExportDataCount
      = (sampleBlueprintHeader.Names.length : Int) ∧
    sampleBlueprintHeader.PayloadTocOffset = -1 ∧
    sampleBlueprintHeader.DataResourceOffset = 0 ∧
    (∀ e ∈ sampleBlueprintHeader.Exports,
      e.IsInheritedInstance = false ∧ e.GeneratePublicHash = false) ∧
    (∀ i ∈ sampleBlueprintHeader.Imports, i.ImportOptional = false) :=
  ⟨by decide!, by decide,
   (C30_pre_ue5_branches ⟨0, some sampleBlueprintFile⟩ sampleArchive
      ⟨20, some sampleBlueprintFile⟩ (by decide!) (by decide)).1,
   by decide!,
   (C30_pre_ue5_branches ⟨0, some sampleBlueprintFile⟩ sampleArchive
      ⟨20, some sampleBlueprintFile⟩ (by decide!) (by decide)).2.1
      ⟨20, some sampleBlueprintFile⟩ sampleBlueprintHeader ⟨212, some sampleBlueprintFile⟩
      (by decide!)⟩

/-- C31: no read of `ObjectExport::ReadFrom` assigns OuterIndex, and TemplateIndex
is assigned only for fileVersion ≥ 508.  In every reader state, for every
archive, a record that `ObjectExport::ReadFrom` returns has OuterIndex = 0, and
TemplateIndex = 0 when fileVersion < 508; so has every export in the table of a
decoded header.  With room for the record a record is returned, whatever the
bytes are, and for fileVersion ≥ 508 its TemplateIndex is the third i32. -/
theorem C31_export_outer_and_template_index (archive : Archive) :
    (∀ (assetHeader : AssetHeader) (r : BinaryReader) (e : ObjectExport) (r1 : BinaryReader),
      ObjectExport.ReadFrom archive assetHeader r = Outcome.ok (e, r1) →
      e.OuterIndex = 0 ∧ (archive.FileVersion < 508 → e.TemplateIndex = 0)) ∧
    (∀ (r : BinaryReader) (h : AssetHeader) (r1 : BinaryReader),
      AssetHeader.ReadFrom archive r = Outcome.ok (h, r1) →
      ∀ e ∈ h.Exports, e.OuterIndex = 0 ∧ (archive.FileVersion < 508 → e.TemplateIndex = 0)) ∧
    (∀ (assetHeader : AssetHeader) (data : List Byte) (p : Nat),
      p + ObjectExport.specifiedSize archive.FileVersion archive.FileVersionUe5
          ≤ data.length →
      ∃ e : ObjectExport,
        ObjectExport.ReadFrom archive assetHeader ⟨p, some data⟩
          = Outcome.ok (e,
              ⟨p + ObjectExport.specifiedSize archive.FileVersion archive.FileVersionUe5,
                some data⟩) ∧
        e.OuterIndex = 0 ∧
        (archive.FileVersion < 508 → e.TemplateIndex = 0) ∧
        (archive.FileVersion ≥ 508 → e.TemplateIndex = signedAt data (p + 8) 4)) := by
  refine ⟨?_, ?_, ?_⟩
  · intro assetHeader r e r1 hr
    have hd := ObjectExport.readExport_defaults archive assetHeader r e r1 hr
    exact ⟨hd.1, hd.2.2.1⟩
  · intro r h r1 hr e hmem
    have hd := (AssetHeader.ReadFrom_records archive r h r1 hr).1 e hmem
    exact ⟨hd.1, hd.2.2.1⟩
  · intro assetHeader data p hp
    have hrun := ObjectExport.readExport_readsExactly archive assetHeader data p hp
    have hd := ObjectExport.readExport_defaults archive assetHeader _ _ _ hrun
    refine ⟨_, hrun, hd.1, hd.2.2.1, ?_⟩
    intro hv
    simp only [ObjectExport.specifiedAt, if_pos hv]

/-- C31 on `sampleExportRecord`: at fileVersion 510 the record has OuterIndex 0
and TemplateIndex 3, the third i32; at fileVersion 507 the third and fourth i32
are the object name and TemplateIndex is 0.  The export of
`sampleBlueprintHeader`, decoded at fileVersion 522, has OuterIndex 0. -/
theorem C31_export_outer_and_template_index_witness :
    (∃ e : ObjectExport,
      ObjectExport.ReadFrom { FileVersion := 510 } {} ⟨0, some sampleExportRecord⟩
        = Outcome.ok (e, ⟨96, some sampleExportRecord⟩) ∧
      e.OuterIndex = 0 ∧ e.TemplateIndex = 3) ∧
    (∃ e : ObjectExport,
      ObjectExport.ReadFrom { FileVersion := 507 } {} ⟨0, some sampleExportRecord⟩
        = Outcome.ok (e, ⟨92, some sampleExportRecord⟩) ∧
      e.OuterIndex = 0 ∧ e.TemplateIndex = 0) ∧
    AssetHeader.ReadFrom sampleArchive ⟨20, some sampleBlueprintFile⟩
      = Outcome.ok (sampleBlueprintHeader, ⟨212, some sampleBlueprintFile⟩) ∧
    (∀ e ∈ sampleBlueprintHeader.Exports,
      e.OuterIndex = 0 ∧ (sampleArchive.FileVersion < 508 → e.TemplateIndex = 0)) := by
  refine ⟨?_, ?_, by decide!, ?_⟩
  · obtain ⟨e, hread, ho, _, ht⟩ :=
      (C31_export_outer_and_template_index { FileVersion := 510 }).2.2 {} sampleExportRecord 0
        (by decide)
    exact ⟨e, hread, ho, (ht (by decide)).trans (by decide)⟩
  · obtain ⟨e, hread, ho, ht, _⟩ :=
      (C31_export_outer_and_template_index { FileVersion := 507 }).2.2 {} sampleExportRecord 0
        (by decide)
    exact ⟨e, hread, ho, ht (by decide)⟩
  · exact (C31_export_outer_and_template_index sampleArchive).2.1
      ⟨20, some sampleBlueprintFile⟩ sampleBlueprintHeader ⟨212, some sampleBlueprintFile⟩
      (by decide!)

end UAsset
